import Mathlib

/-!
# Clothing store back end: orders, cart, addresses, catalog, categories,
authentication and variant grouping

A shallow embedding of the request handlers of `backend/server.js`.  The
document store is a record of lists (one list per collection, in insertion
order); every handler is a function from the store and the decoded request to
a response and the next store.

Conventions of the embedding:

* `ObjectId`: a document identifier, held as the text `toString()` gives it
  (24 hexadecimal digits in lower case).  `parseObjectId` is the constructor
  `new ObjectId(s)` on text: it throws for text that is not 24 hexadecimal
  digits and lower-cases the rest.
* A handler that builds the `ObjectId` of the caller or of a route parameter
  is embedded from the point where that `ObjectId` exists (`placeOrder`,
  `groupProducts`, `updateAddress`, `addStock`, the cart handlers, ...).  The
  handler on the request as it arrives, with the constructions that can throw
  and the 500 answer of its `catch` branch, is the definition of the same
  name followed by `Request`; the handlers of the admin order routes and of
  Ungroup take the request text directly.
* Numbers are integers (prices are integer minor units).
* `new Date()` is the `now` argument of a handler; the identifier the driver
  gives to an inserted document is the `newId` argument.
* A field that may be absent is an `Option`; `none` stands for `undefined`
  and `null` alike.  Fields whose validation inspects the JavaScript type are
  kept as `JsVal`.
* The handlers behind `authenticateToken` are embedded as they run once the
  middleware has set `req.user`; `userId` is `req.user.id`.  The middleware
  itself is `authenticateToken`, with the token verifier as a parameter.
* Library code is a parameter where a handler's answer depends on it: the
  token verifier of `authenticateToken`, the regular expression constructor
  of `addCategory`.
* Calls to the store are taken to succeed, so a `catch` branch (status 500)
  is reached only where the handler itself throws: in an `ObjectId`
  constructor, or where the second add-stock handler reads a key of a missing
  `stockUpdate`.
-/

namespace ClothingStore

/-! ## Values -/

/-- Identifier of a stored document. -/
abbrev ObjectId := String

/-- The test for a hexadecimal digit. -/
def isHexDigit (c : Char) : Bool :=
  c.isDigit || ('a'.toNat ≤ c.toNat && c.toNat ≤ 'f'.toNat) ||
    ('A'.toNat ≤ c.toNat && c.toNat ≤ 'F'.toNat)

/-- The test the `ObjectId` constructor makes of a string: 24 characters, all
of them hexadecimal digits. -/
def isObjectIdText (s : String) : Bool :=
  s.data.length == 24 && s.data.all isHexDigit

/-- The constructor `new ObjectId(s)` on a string: the identifier, in the
lower-case text `toString()` gives back, or `none` when the constructor
throws. -/
def parseObjectId (s : String) : Option ObjectId :=
  if isObjectIdText s then some (String.mk (s.data.map Char.toLower)) else none

/-- The expression `ids.map(id => new ObjectId(id))`; `none` when the
constructor throws for one of the entries. -/
def parseObjectIds : List String → Option (List ObjectId)
  | [] => some []
  | s :: rest =>
    match parseObjectId s, parseObjectIds rest with
    | some o, some os => some (o :: os)
    | _, _ => none

/-- The message of the error the `ObjectId` constructor throws. -/
def objectIdError : String :=
  "input must be a 24 character hex string, 12 byte Uint8Array, or an integer"

/-- The names of the members every plain object inherits from
`Object.prototype`: a lookup `o[k]` with one of these names finds the
inherited member when `o` has no entry of its own under `k`. -/
def inheritedKeys : List String :=
  ["constructor", "__proto__", "hasOwnProperty", "isPrototypeOf", "propertyIsEnumerable",
    "toLocaleString", "toString", "valueOf", "__defineGetter__", "__defineSetter__",
    "__lookupGetter__", "__lookupSetter__"]

/-- A decoded JSON value, as far as the handlers distinguish them: `object`
is a plain object, and `array text` an array with the text `String(a)` (its
elements joined by commas) that a conversion to a string gives it. -/
inductive JsVal where
  | undefined
  | null
  | bool (b : Bool)
  | num (n : Int)
  | str (s : String)
  | object
  | array (text : String)
  deriving DecidableEq, Repr

/-- JavaScript truthiness (`!v` is its negation). -/
def JsVal.truthy : JsVal → Bool
  | .undefined => false
  | .null => false
  | .bool b => b
  | .num n => n != 0
  | .str s => s != ""
  | .object => true
  | .array _ => true

/-- Truthiness of an optional string: absent and `""` are falsy. -/
def truthyStr : Option String → Bool
  | some s => s != ""
  | none => false

/-- The expression `s || d` for an optional string `s`. -/
def strOr (s : Option String) (d : String) : String :=
  if truthyStr s then s.getD d else d

/-- The expression `s || null` for an optional string `s`. -/
def orNull (s : Option String) : Option String :=
  if truthyStr s then s else none

/-- The expression `a || b` for two optional strings. -/
def optOr (a b : Option String) : Option String :=
  if truthyStr a then a else b

/-- The `length` of a JavaScript string: the number of UTF-16 code units. -/
def jsLength (s : String) : Nat :=
  (s.data.map (fun c => if c.val < 0x10000 then 1 else 2)).sum

/-- The test `/^\d+$/.test(s)`: one or more characters, all in `0`..`9`. -/
def testDigits (s : String) : Bool :=
  !s.data.isEmpty && s.data.all Char.isDigit

/-! ## Documents -/

/-- A document of `users`. -/
structure User where
  _id : ObjectId
  firstName : Option String
  lastName : Option String
  email : Option String
  phone : Option String
  password : String
  type : String
  deriving DecidableEq, Repr

/-- An entry of a product's `colors` list: a link to another product. -/
structure ColorLink where
  id : String
  name : String
  image : String
  hex : String
  deriving DecidableEq, Repr

/-- A document of `products`.  `stock` and `sizes` are `none` when the
document has no such field. -/
structure Product where
  _id : ObjectId
  name : String
  category : String
  price : Int
  image : Option String
  images : Option (List String)
  description : String
  stock : Option Int
  sizes : Option (List (String × Int))
  colors : List ColorLink
  inCollection : Bool
  collections : List String
  createdAt : Nat
  updatedAt : Option Nat
  deriving DecidableEq, Repr

/-- A document of `cart`. -/
structure CartItem where
  _id : ObjectId
  userId : ObjectId
  username : String
  productName : String
  productId : Option ObjectId
  price : Int
  quantity : Int
  size : Option String
  createdAt : Nat
  updatedAt : Option Nat
  deriving DecidableEq, Repr

/-- A document of `addresses`. -/
structure Address where
  _id : ObjectId
  userId : ObjectId
  type : Option String
  name : Option String
  email : Option String
  house : Option String
  street : Option String
  address : Option String
  city : Option String
  state : Option String
  zipCode : Option String
  country : Option String
  phone : Option String
  isDefault : Bool
  createdAt : Nat
  updatedAt : Option Nat
  deriving DecidableEq, Repr

/-- The address snapshot stored inside an order. -/
structure ShippingAddress where
  name : String
  email : String
  phone : String
  house : String
  street : String
  city : String
  state : String
  zipCode : String
  country : String
  deriving DecidableEq, Repr

/-- A document of `orders`. -/
structure Order where
  _id : ObjectId
  userId : ObjectId
  totalAmount : Int
  status : String
  shippingAddress : Option ShippingAddress
  paymentMethod : JsVal
  utrNumber : JsVal
  createdAt : Nat
  paymentStatus : Option String
  updatedAt : Option Nat
  deriving DecidableEq, Repr

/-- A document of `order_items` (its own `_id`, which no handler reads back
into a decision, is left out). -/
structure OrderItem where
  orderId : ObjectId
  productName : String
  price : Int
  quantity : Int
  size : Option String
  deriving DecidableEq, Repr

/-- A document of `categories`. -/
structure Category where
  name : String
  description : String
  createdAt : Nat
  createdBy : String
  deriving DecidableEq, Repr

/-- The document store: one list per collection. -/
structure Db where
  users : List User
  products : List Product
  orders : List Order
  order_items : List OrderItem
  addresses : List Address
  cart : List CartItem
  categories : List Category
  deriving DecidableEq, Repr

/-- The JSON answer of a handler: the HTTP status, the `error` field of the
body when there is one, the `message` field when there is one, and the
identifier it reports (`orderId`, `itemId`). -/
structure Response where
  status : Nat
  error : Option String
  message : Option String
  insertedId : Option ObjectId
  deriving DecidableEq, Repr

/-- The answer `res.status(code).json({ error })`. -/
def fail (code : Nat) (msg : String) : Response :=
  { status := code, error := some msg, message := none, insertedId := none }

/-- The answer `res.status(code).json({ message })`. -/
def succeed (code : Nat) (msg : String) (id : Option ObjectId) : Response :=
  { status := code, error := none, message := some msg, insertedId := id }

/-! ## Store operations -/

/-- The effect of `updateOne(filter, update)`: the first document matching
`p` is replaced by its image under `f`. -/
def updateFirst {α : Type} (p : α → Bool) (f : α → α) : List α → List α
  | [] => []
  | x :: xs => if p x then f x :: xs else x :: updateFirst p f xs

/-- The effect of `updateMany(filter, update)`. -/
def updateAll {α : Type} (p : α → Bool) (f : α → α) (l : List α) : List α :=
  l.map (fun x => if p x then f x else x)

/-- The effect of `deleteOne(filter)`: the first matching document goes. -/
def deleteFirst {α : Type} (p : α → Bool) : List α → List α
  | [] => []
  | x :: xs => if p x then xs else x :: deleteFirst p xs

/-- The effect of `deleteMany(filter)`. -/
def deleteAll {α : Type} (p : α → Bool) (l : List α) : List α :=
  l.filter (fun x => !p x)

/-- The effect of `$inc` on the entry `k` of a size map, for a key that is a
single field name: the entry is increased, or created with the increment
when the key is absent. -/
def incKey (k : String) (d : Int) : List (String × Int) → List (String × Int)
  | [] => [(k, d)]
  | (k', v) :: rest =>
    if k' = k then (k', v + d) :: rest else (k', v) :: incKey k d rest

/-- The entry a size map holds itself under the key `k` (`none` when it has
none). -/
def lookupKey (k : String) : List (String × Int) → Option Int
  | [] => none
  | (k', v) :: rest => if k' = k then some v else lookupKey k rest

/-! ## Place order: `POST /api/orders` -/

/-- One element of the `items` array of an order request. -/
structure OrderReqItem where
  name : String
  price : Int
  quantity : Int
  size : Option String
  productId : Option ObjectId
  id : Option ObjectId
  deriving DecidableEq, Repr

/-- The `items` field of an order request. -/
inductive ItemsField where
  | missing
  | notArray
  | array (xs : List OrderReqItem)
  deriving DecidableEq, Repr

/-- The body of `POST /api/orders`.  `totalAmount` is the total when the body
holds a number under that name and `none` when the field is absent or
`null`; a body with a total of another type is not followed. -/
structure OrderRequest where
  items : ItemsField
  totalAmount : Option Int
  shippingAddressId : Option ObjectId
  paymentMethod : JsVal
  utrNumber : JsVal
  deriving DecidableEq, Repr

/-- The fixed charge of the synthetic cash-on-delivery line. -/
def codCharge : Int := 10

/-- The check of the UTR number of a UPI payment; `some msg` is the error
the handler answers with. -/
def utrError (utrNumber : JsVal) : Option String :=
  if !utrNumber.truthy then some "UTR number is required for UPI payments"
  else match utrNumber with
    | .str s =>
      if jsLength s != 12 || !testDigits s then
        some "UTR number must be exactly 12 digits"
      else none
    | _ => some "UTR number must be exactly 12 digits"

/-- The validations at the head of the handler, in the order of the source;
`some msg` is the error of the first one that fails. -/
def validateOrder (req : OrderRequest) : Option String :=
  match req.items with
  | .missing => some "Items are required"
  | .notArray => some "Items are required"
  | .array [] => some "Items are required"
  | .array (_ :: _) =>
    match req.totalAmount with
    | none => some "Valid total amount is required"
    | some t =>
      if t = 0 || t ≤ 0 then some "Valid total amount is required"
      else if !req.paymentMethod.truthy then some "Payment method is required"
      else if req.paymentMethod = .str "upi" then utrError req.utrNumber
      else none

/-- The items of a request as a list (empty unless `items` is an array). -/
def ItemsField.toList : ItemsField → List OrderReqItem
  | .array xs => xs
  | _ => []

/-- The snapshot of a stored address that goes into the order. -/
def snapshotAddress (a : Address) : ShippingAddress :=
  { name := strOr a.name ""
    email := strOr a.email ""
    phone := strOr a.phone ""
    house := strOr a.house ""
    street := strOr (optOr a.address a.street) ""
    city := strOr a.city ""
    state := strOr a.state ""
    zipCode := strOr a.zipCode ""
    country := strOr a.country "IN" }

/-- The order item made from a submitted item (`items.map(...)`). -/
def toOrderItem (orderId : ObjectId) (item : OrderReqItem) : OrderItem :=
  { orderId := orderId
    productName := item.name
    price := item.price
    quantity := item.quantity
    size := orNull item.size }

/-- The synthetic cash-on-delivery line. -/
def codItem (orderId : ObjectId) : OrderItem :=
  { orderId := orderId
    productName := "Cash on Delivery Charge"
    price := codCharge
    quantity := 1
    size := none }

/-- The array handed to `insertMany`: one order item per submitted item and,
for cash on delivery, the charge pushed at the end. -/
def buildOrderItems (orderId : ObjectId) (paymentMethod : JsVal)
    (items : List OrderReqItem) : List OrderItem :=
  let orderItems := items.map (toOrderItem orderId)
  if paymentMethod = .str "cod" then orderItems ++ [codItem orderId] else orderItems

/-- A size label that is a single field name in the update path
`sizes.<size>`: not empty, without `.` and without `$`. -/
def isPlainKey (k : String) : Bool :=
  k != "" && !k.data.contains '.' && !k.data.contains '$'

/-- The first segment of a dotted path. -/
def headSegment (k : String) : String :=
  String.mk (k.data.takeWhile (fun c => c != '.'))

/-- The `$inc` a submitted item applies to its product: the legacy stock goes
down when the product has one, and the size entry goes down when the item
has a size and the product a size map.  A size that is not a single field
name is a path into the size map: where its first segment is an entry of the
map, a number, the store refuses the whole update, the handler catches the
error and the product stays as it is; otherwise the store puts a nested
document under that segment, which a size map does not hold here, so only
the legacy stock is followed. -/
def decrementStock (item : OrderReqItem) (product : Product) : Product :=
  let p1 :=
    match product.stock with
    | some s => { product with stock := some (s + -item.quantity) }
    | none => product
  match item.size, product.sizes with
  | some sz, some m =>
    if sz != "" then
      if isPlainKey sz then { p1 with sizes := some (incKey sz (-item.quantity) m) }
      else if (lookupKey (headSegment sz) m).isSome then product
      else p1
    else p1
  | _, _ => p1

/-- One round of the stock loop, for one submitted item.  The `ObjectId`
constructor runs inside the `try`: when it throws, the item is skipped. -/
def applyStockUpdate (products : List Product) (item : OrderReqItem) : List Product :=
  let prodId := optOr item.productId item.id
  if truthyStr prodId then
    match parseObjectId (prodId.getD "") with
    | none => products
    | some oid =>
      match products.find? (fun p => p._id == oid) with
      | some _ => updateFirst (fun p => p._id == oid) (decrementStock item) products
      | none => products
  else products

/-- The handler of `POST /api/orders`, from the `ObjectId` of the caller
(`userId`) and, in `req.shippingAddressId`, that of the shipping address. -/
def placeOrder (db : Db) (userId newId : ObjectId) (now : Nat)
    (req : OrderRequest) : Response × Db :=
  match validateOrder req with
  | some msg => (fail 400 msg, db)
  | none =>
    let items := req.items.toList
    let shippingAddress : Option Address :=
      if truthyStr req.shippingAddressId then
        db.addresses.find? (fun a => a._id == req.shippingAddressId.getD "")
      else none
    let newOrder : Order :=
      { _id := newId
        userId := userId
        totalAmount := req.totalAmount.getD 0
        status := "pending"
        shippingAddress := shippingAddress.map snapshotAddress
        paymentMethod := req.paymentMethod
        utrNumber := if req.paymentMethod = .str "upi" then req.utrNumber else .null
        createdAt := now
        paymentStatus := none
        updatedAt := none }
    let orderItems := buildOrderItems newId req.paymentMethod items
    (succeed 201 "Order created successfully" (some newId),
      { db with
        orders := db.orders ++ [newOrder]
        order_items := db.order_items ++ orderItems
        products := items.foldl applyStockUpdate db.products
        cart := deleteAll (fun c => c.userId == userId) db.cart })

/-- The handler of `POST /api/orders` on the request as it arrives:
`userIdText` is `req.user.id`.  After the validations the handler builds the
`ObjectId` of the shipping address, when the request names one, and that of
the caller; either constructor can throw, before anything is written. -/
def placeOrderRequest (db : Db) (userIdText : String) (newId : ObjectId) (now : Nat)
    (req : OrderRequest) : Response × Db :=
  match validateOrder req with
  | some msg => (fail 400 msg, db)
  | none =>
    if truthyStr req.shippingAddressId &&
        (parseObjectId (req.shippingAddressId.getD "")).isNone then
      (fail 500 ("Error creating order: " ++ objectIdError), db)
    else
      match parseObjectId userIdText with
      | none => (fail 500 ("Error creating order: " ++ objectIdError), db)
      | some userId =>
        placeOrder db userId newId now
          { req with shippingAddressId := req.shippingAddressId.bind parseObjectId }

/-! ## Order listing: `GET /api/orders` -/

/-- An element of the `items` array the listing attaches to an order. -/
structure OrderItemView where
  productName : String
  name : String
  price : Int
  quantity : Int
  size : Option String
  total : Int
  deriving DecidableEq, Repr

/-- The object the listing makes of a stored order item. -/
def viewItem (item : OrderItem) : OrderItemView :=
  { productName := item.productName
    name := item.productName
    price := item.price
    quantity := item.quantity
    size := item.size
    total := item.price * item.quantity }

/-- The `items` the listing attaches to `order`: the stored order items that
reference it. -/
def itemsOfOrder (db : Db) (order : Order) : List OrderItemView :=
  (db.order_items.filter (fun i => i.orderId == order._id)).map viewItem

/-- The handler of `GET /api/orders`: the caller's orders, newest first, each
with its items. -/
def listOrders (db : Db) (userId : ObjectId) : List (Order × List OrderItemView) :=
  ((db.orders.filter (fun o => o.userId == userId)).mergeSort
    (fun a b => decide (b.createdAt ≤ a.createdAt))).map (fun o => (o, itemsOfOrder db o))

/-! ## Cart: `POST /api/cart`, `PUT /api/cart/:id`, `DELETE /api/cart[/:id]` -/

/-- The body of `POST /api/cart`. -/
structure CartAddRequest where
  productName : String
  productId : Option ObjectId
  price : Int
  quantity : Option Int
  size : Option String
  deriving DecidableEq, Repr

/-- The display name stored with a cart line: first and last name, else the
email, else `Unknown`. -/
def displayName (user : User) : String :=
  let full := (strOr user.firstName "" ++ " " ++ strOr user.lastName "").trim
  if full != "" then full else strOr user.email "Unknown"

/-- The filter `cartQuery`: owner and product name, and the size only when
the request carries one. -/
def matchesCartQuery (userId : ObjectId) (productName : String) (size : Option String)
    (c : CartItem) : Bool :=
  c.userId == userId && c.productName == productName &&
    (if truthyStr size then c.size == size else true)

/-- The update applied to an existing line: the quantity goes up by one. -/
def bumpLine (username : String) (now : Nat) (c : CartItem) : CartItem :=
  { c with quantity := c.quantity + 1, username := username, updatedAt := some now }

/-- The handler of `POST /api/cart`. -/
def addToCart (db : Db) (userId newId : ObjectId) (now : Nat)
    (req : CartAddRequest) : Response × Db :=
  match db.users.find? (fun u => u._id == userId) with
  | none => (fail 404 "User not found", db)
  | some user =>
    let username := displayName user
    let cartQuery := matchesCartQuery userId req.productName req.size
    match db.cart.find? cartQuery with
    | some _ =>
      (succeed 200 "Cart updated successfully" none,
        { db with cart := updateFirst cartQuery (bumpLine username now) db.cart })
    | none =>
      let newItem : CartItem :=
        { _id := newId
          userId := userId
          username := username
          productName := req.productName
          productId := req.productId
          price := req.price
          quantity := req.quantity.getD 1
          size := orNull req.size
          createdAt := now
          updatedAt := none }
      (succeed 200 "Item added to cart successfully" (some newId),
        { db with cart := db.cart ++ [newItem] })

/-- The stock a cart line is checked against: the value `sizes[size]` when
the line has a size and the product a size map (0 when the lookup gives
`undefined`), the legacy stock otherwise.  The lookup finds the entry of the
map or else, for the name of a member every object inherits, that member,
which is no number: `none` stands for it. -/
def availableStock (cartItem : CartItem) (product : Product) : Option Int :=
  match product.sizes with
  | some m =>
    if truthyStr cartItem.size then
      match lookupKey (cartItem.size.getD "") m with
      | some v => some v
      | none => if inheritedKeys.contains (cartItem.size.getD "") then none else some 0
    else some (product.stock.getD 0)
  | none => some (product.stock.getD 0)

/-- What the stock check of a quantity update comes to. -/
inductive StockCheck where
  | throws
  | refused (msg : String)
  | passed
  deriving DecidableEq, Repr

/-- The stock check of a quantity update.  The `ObjectId` of the product is
built from the `productId` stored with the line, and the constructor can
throw; the comparison `quantity > availableStock` is false when the
available stock is no number. -/
def stockCheck (db : Db) (cartItem : CartItem) (quantity : Int) : StockCheck :=
  if truthyStr cartItem.productId then
    match parseObjectId (cartItem.productId.getD "") with
    | none => .throws
    | some oid =>
      match db.products.find? (fun p => p._id == oid) with
      | some product =>
        match availableStock cartItem product with
        | some available =>
          if quantity > available then
            .refused ("Only " ++ toString available ++ " items available for this size")
          else .passed
        | none => .passed
      | none => .passed
  else .passed

/-- The handler of `PUT /api/cart/:id`, from the `ObjectId`s of the caller
and of the route parameter.  `quantity` is the quantity when the body holds
a number under that name and `none` when the field is absent or `null`. -/
def updateCartQuantity (db : Db) (userId itemId : ObjectId) (now : Nat)
    (quantity : Option Int) : Response × Db :=
  match quantity with
  | none => (fail 400 "Valid quantity is required", db)
  | some q =>
    if q = 0 || q < 1 then (fail 400 "Valid quantity is required", db)
    else
      match db.cart.find? (fun c => c._id == itemId && c.userId == userId) with
      | none => (fail 404 "Item not found", db)
      | some cartItem =>
        match stockCheck db cartItem q with
        | .throws => (fail 500 "Error updating cart item", db)
        | .refused msg => (fail 400 msg, db)
        | .passed =>
          (succeed 200 "Cart updated successfully" none,
            { db with
              cart := updateFirst (fun c => c._id == itemId && c.userId == userId)
                (fun c => { c with quantity := q, updatedAt := some now }) db.cart })

/-- The handler of `DELETE /api/cart/:id`. -/
def removeFromCart (db : Db) (userId itemId : ObjectId) : Response × Db :=
  match db.cart.find? (fun c => c._id == itemId && c.userId == userId) with
  | none => (fail 404 "Item not found", db)
  | some _ =>
    (succeed 200 "Item removed from cart successfully" none,
      { db with cart := deleteFirst (fun c => c._id == itemId && c.userId == userId) db.cart })

/-- The handler of `DELETE /api/cart`. -/
def clearCart (db : Db) (userId : ObjectId) : Response × Db :=
  (succeed 200 "Cart cleared successfully" none,
    { db with cart := deleteAll (fun c => c.userId == userId) db.cart })

/-! ## Variant grouping: `POST /api/admin/products/group` and `.../ungroup` -/

/-- The image a color link shows: `image`, else the first of `images`. -/
def primaryImage (p : Product) : String :=
  if truthyStr p.image then p.image.getD ""
  else
    match p.images with
    | some (x :: _) => x
    | _ => ""

/-- The `colors` entry that links to `other`. -/
def linkTo (other : Product) : ColorLink :=
  { id := other._id, name := other.name, image := primaryImage other, hex := "#000000" }

/-- One round of the grouping loop: `product` gets one link per other
fetched product. -/
def linkOthers (now : Nat) (products : List Product) (store : List Product)
    (product : Product) : List Product :=
  let others := products.filter (fun p => !(p._id == product._id))
  let newColors := others.map linkTo
  updateFirst (fun p => p._id == product._id)
    (fun p => { p with colors := newColors, updatedAt := some now }) store

/-- The handler of `POST /api/admin/products/group`, from the `ObjectId`s of
the listed products (`objectIds`); `productIds` is `none` when the field is
missing or not an array. -/
def groupProducts (db : Db) (now : Nat) (productIds : Option (List ObjectId)) :
    Response × Db :=
  match productIds with
  | none => (fail 400 "Please select at least 2 products to group.", db)
  | some ids =>
    if ids.length < 2 then (fail 400 "Please select at least 2 products to group.", db)
    else
      let objectIds := ids
      let products := db.products.filter (fun p => objectIds.contains p._id)
      if products.length != ids.length then
        (fail 404 "One or more products not found.", db)
      else
        (succeed 200 "Products successfully grouped and linked." none,
          { db with products := products.foldl (linkOthers now products) db.products })

/-- The handler of `POST /api/admin/products/group` on the request as it
arrives: the entries of `productIds` are text, and the handler builds an
`ObjectId` of each once the list has passed the length check. -/
def groupProductsRequest (db : Db) (now : Nat) (productIds : Option (List String)) :
    Response × Db :=
  match productIds with
  | none => (fail 400 "Please select at least 2 products to group.", db)
  | some ids =>
    if ids.length < 2 then (fail 400 "Please select at least 2 products to group.", db)
    else
      match parseObjectIds ids with
      | none => (fail 500 ("Failed to group products: " ++ objectIdError), db)
      | some objectIds => groupProducts db now (some objectIds)

/-- The handler of `POST /api/admin/products/ungroup`; the entries of
`productIds` are text.  The `$pull` compares the stored link ids with the
request text (`productIds`), the clearing update selects the products by the
`ObjectId`s built from it (`objectIds`). -/
def ungroupProducts (db : Db) (now : Nat) (productIds : Option (List String)) :
    Response × Db :=
  match productIds with
  | none => (fail 400 "Please select products to ungroup.", db)
  | some ids =>
    if ids.length = 0 then (fail 400 "Please select products to ungroup.", db)
    else
      match parseObjectIds ids with
      | none => (fail 500 ("Failed to ungroup products: " ++ objectIdError), db)
      | some objectIds =>
        let pulled := updateAll (fun _ => true)
          (fun p => { p with
            colors := p.colors.filter (fun c => !(ids.contains c.id))
            updatedAt := some now }) db.products
        let cleared := updateAll (fun p => objectIds.contains p._id)
          (fun p => { p with colors := [], updatedAt := some now }) pulled
        (succeed 200 "Products successfully ungrouped." none, { db with products := cleared })

/-! ## Address book: `POST`, `PUT`, `DELETE /api/user/addresses[/:id]` -/

/-- The body of an address create or update request. -/
structure AddressRequest where
  type : Option String
  name : Option String
  email : Option String
  house : Option String
  street : Option String
  city : Option String
  state : Option String
  zipCode : Option String
  country : Option String
  phone : Option String
  isDefault : Option Bool
  deriving DecidableEq, Repr

/-- The update `$set: { isDefault: false }`. -/
def unsetDefault (a : Address) : Address :=
  { a with isDefault := false }

/-- The handler of `POST /api/user/addresses`. -/
def createAddress (db : Db) (userId newId : ObjectId) (now : Nat)
    (req : AddressRequest) : Response × Db :=
  let isDefault := req.isDefault.getD false
  let addresses :=
    if isDefault then updateAll (fun a => a.userId == userId) unsetDefault db.addresses
    else db.addresses
  let newAddress : Address :=
    { _id := newId
      userId := userId
      type := req.type
      name := req.name
      email := req.email
      house := req.house
      street := req.street
      address := none
      city := req.city
      state := req.state
      zipCode := req.zipCode
      country := req.country
      phone := req.phone
      isDefault := isDefault || false
      createdAt := now
      updatedAt := none }
  (succeed 201 "Address added successfully" (some newId),
    { db with addresses := addresses ++ [newAddress] })

/-- The update `$set: updateData` of an address update. -/
def applyAddressUpdate (now : Nat) (req : AddressRequest) (a : Address) : Address :=
  { a with
    type := req.type
    name := req.name
    email := req.email
    house := req.house
    street := req.street
    city := req.city
    state := req.state
    zipCode := req.zipCode
    country := req.country
    phone := req.phone
    isDefault := req.isDefault.getD false || false
    updatedAt := some now }

/-- The handler of `PUT /api/user/addresses/:id`, from the `ObjectId`s of the
caller and of the route parameter.  The other addresses of the caller are
unset first; the answer is 404 when the update then matches no address. -/
def updateAddress (db : Db) (userId addressId : ObjectId) (now : Nat)
    (req : AddressRequest) : Response × Db :=
  let isDefault := req.isDefault.getD false
  let addresses :=
    if isDefault then
      updateAll (fun a => a.userId == userId && a._id != addressId) unsetDefault db.addresses
    else db.addresses
  match addresses.find? (fun a => a._id == addressId && a.userId == userId) with
  | none => (fail 404 "Address not found", { db with addresses := addresses })
  | some _ =>
    (succeed 200 "Address updated successfully" none,
      { db with
        addresses := updateFirst (fun a => a._id == addressId && a.userId == userId)
          (applyAddressUpdate now req) addresses })

/-- The handler of `PUT /api/user/addresses/:id` on the request as it
arrives: `addressIdText` is the route parameter and `userIdText` is
`req.user.id`.  The `ObjectId` of the route parameter is built first and that
of the caller before the first write; either constructor can throw. -/
def updateAddressRequest (db : Db) (userIdText addressIdText : String) (now : Nat)
    (req : AddressRequest) : Response × Db :=
  match parseObjectId addressIdText with
  | none => (fail 500 "Error updating address", db)
  | some addressId =>
    match parseObjectId userIdText with
    | none => (fail 500 "Error updating address", db)
    | some userId => updateAddress db userId addressId now req

/-- The handler of `DELETE /api/user/addresses/:id`. -/
def deleteAddress (db : Db) (userId addressId : ObjectId) : Response × Db :=
  match db.addresses.find? (fun a => a._id == addressId && a.userId == userId) with
  | none => (fail 404 "Address not found", db)
  | some _ =>
    (succeed 200 "Address deleted successfully" none,
      { db with
        addresses := deleteFirst (fun a => a._id == addressId && a.userId == userId)
          db.addresses })

/-! ## Numbers in request bodies -/

/-- The value of a run of decimal digits. -/
def decimalValue (ds : List Char) : Nat :=
  ds.foldl (fun acc c => 10 * acc + (c.toNat - 48)) 0

/-- The value of a hexadecimal digit. -/
def hexDigitValue (c : Char) : Nat :=
  if c.isDigit then c.toNat - 48
  else if 'a'.toNat ≤ c.toNat ∧ c.toNat ≤ 'f'.toNat then c.toNat - 87
  else c.toNat - 55

/-- The characters `parseInt` skips at the head of a string: the white space
and the line terminators of the language. -/
def isJsWhitespace (c : Char) : Bool :=
  [0x9, 0xA, 0xB, 0xC, 0xD, 0x20, 0xA0, 0x1680, 0x2028, 0x2029, 0x202F, 0x205F, 0x3000,
    0xFEFF].contains c.toNat || (0x2000 ≤ c.toNat && c.toNat ≤ 0x200A)

/-- The digits `parseInt` reads after the sign: the longest hexadecimal run
after a `0x` or `0X`, the longest decimal run otherwise; `none` (for `NaN`)
when the run is empty. -/
def parseMagnitude (cs : List Char) : Option Nat :=
  match cs with
  | '0' :: 'x' :: rest =>
    if (rest.takeWhile isHexDigit).isEmpty then none
    else some ((rest.takeWhile isHexDigit).foldl (fun acc c => 16 * acc + hexDigitValue c) 0)
  | '0' :: 'X' :: rest =>
    if (rest.takeWhile isHexDigit).isEmpty then none
    else some ((rest.takeWhile isHexDigit).foldl (fun acc c => 16 * acc + hexDigitValue c) 0)
  | _ =>
    if (cs.takeWhile Char.isDigit).isEmpty then none
    else some (decimalValue (cs.takeWhile Char.isDigit))

/-- The function `parseInt` on a string: leading blanks, an optional sign,
then the digits; `none` stands for `NaN`. -/
def parseIntText (s : String) : Option Int :=
  match s.data.dropWhile isJsWhitespace with
  | '-' :: rest => (parseMagnitude rest).map (fun n => -(n : Int))
  | '+' :: rest => (parseMagnitude rest).map (fun n => (n : Int))
  | rest => (parseMagnitude rest).map (fun n => (n : Int))

/-- The integers the numbers of the language hold exactly: those of magnitude
at most 2^53.  Sums and parsed digit strings beyond them are rounded by the
language and are outside what the integers of this embedding follow. -/
def isSafeInteger (n : Int) : Bool :=
  decide (-9007199254740992 ≤ n ∧ n ≤ 9007199254740992)

/-- The function `parseInt` on a decoded value: a number is itself, a string
and the text of an array are read by `parseIntText`, anything else gives
`NaN`. -/
def parseIntJs : JsVal → Option Int
  | .num n => some n
  | .str s => parseIntText s
  | .array text => parseIntText text
  | _ => none

/-! ## Catalog: `POST /api/products`, `PUT /api/admin/products/:id` -/

/-- The fields of a product form.  `price` is the price as a number; `sizes`
is `some m` when the `sizes` field, once parsed, is an object (`{}` after a
parse failure) and `none` otherwise; `colors` is `some l` when the `colors`
field, once parsed, is an array. -/
structure ProductForm where
  name : Option String
  category : Option String
  price : Option Int
  description : Option String
  stock : JsVal
  inCollection : JsVal
  sizes : Option (List (String × Int))
  colors : Option (List ColorLink)
  image : Option String
  deriving DecidableEq, Repr

/-- The `existingImages` field of a product update. -/
inductive ImagesField where
  | absent
  | single (path : String)
  | list (paths : List String)
  deriving DecidableEq, Repr

/-- The test `!price`: the price is missing or zero. -/
def priceMissing (price : Option Int) : Bool :=
  match price with
  | none => true
  | some n => n == 0

/-- The size map of a product form: the submitted map, else the legacy
quantity under the key `One Size`. -/
def sizeStockOf (form : ProductForm) : List (String × Int) :=
  match form.sizes with
  | some m => m
  | none =>
    if form.stock != .undefined then
      match parseIntJs form.stock with
      | some stockNum => [("One Size", stockNum)]
      | none => []
    else []

/-- The path stored for an uploaded file. -/
def uploadPath (filename : String) : String :=
  "images/uploads/" ++ filename

/-- The handler of `POST /api/products`; `files` are the names of the
uploaded files. -/
def createProduct (db : Db) (newId : ObjectId) (now : Nat) (form : ProductForm)
    (files : List String) : Response × Db :=
  let imagePath := form.image
  let uploadedImages := files.map uploadPath
  let primaryImage :=
    match uploadedImages with
    | first :: _ => first
    | [] => strOr imagePath ""
  let allImages :=
    if truthyStr imagePath && !uploadedImages.contains (imagePath.getD "") then
      imagePath.getD "" :: uploadedImages
    else uploadedImages
  if !truthyStr form.name || !truthyStr form.category || priceMissing form.price then
    (fail 400 "Name, category, and price are required", db)
  else
    let newProduct : Product :=
      { _id := newId
        name := form.name.getD ""
        category := form.category.getD ""
        price := form.price.getD 0
        image := some primaryImage
        images := some allImages
        description := strOr form.description ""
        stock := some ((parseIntJs form.stock).getD 0)
        sizes := some (sizeStockOf form)
        colors := form.colors.getD []
        inCollection := form.inCollection == .str "true" || form.inCollection == .bool true
        collections := []
        createdAt := now
        updatedAt := none }
    (succeed 201 "Product created successfully" (some newId),
      { db with products := db.products ++ [newProduct] })

/-- The names of the required fields a product update lacks. -/
def missingFields (form : ProductForm) : List String :=
  (if !truthyStr form.name then ["name"] else []) ++
  (if !truthyStr form.category then ["category"] else []) ++
  (if priceMissing form.price then ["price"] else [])

/-- The handler of `PUT /api/admin/products/:id`. -/
def updateProduct (db : Db) (productId : ObjectId) (now : Nat) (form : ProductForm)
    (existingImages : ImagesField) (files : List String) : Response × Db :=
  if !truthyStr form.name || !truthyStr form.category || priceMissing form.price then
    (fail 400 ("Name, category, and price are required. Missing: " ++
      ", ".intercalate (missingFields form)), db)
  else
    let currentImages :=
      match existingImages with
      | .absent => []
      | .single path => if path != "" then [path] else []
      | .list paths => paths
    let newImages := files.map uploadPath
    let allImages := currentImages ++ newImages
    let primaryImage :=
      match allImages with
      | first :: _ => first
      | [] => ""
    match db.products.find? (fun p => p._id == productId) with
    | none => (fail 404 "Product not found", db)
    | some _ =>
      (succeed 200 "Product updated successfully" none,
        { db with
          products := updateFirst (fun p => p._id == productId)
            (fun p => { p with
              name := form.name.getD ""
              category := form.category.getD ""
              price := form.price.getD 0
              image := some primaryImage
              images := some allImages
              description := strOr form.description ""
              stock := some ((parseIntJs form.stock).getD 0)
              sizes := some (sizeStockOf form)
              colors := form.colors.getD []
              inCollection :=
                form.inCollection == .str "true" || form.inCollection == .bool true
              updatedAt := some now }) db.products })

/-! ## Add stock: the two handlers of `POST /api/admin/products/:id/add-stock` -/

/-- The assignment `sizes[k] = v` on a size map. -/
def setKey (k : String) (v : Int) : List (String × Int) → List (String × Int)
  | [] => [(k, v)]
  | (k', w) :: rest => if k' = k then (k', v) :: rest else (k', w) :: setKey k v rest

/-- One round of the loop over the keys of `stockUpdate` in the first
handler: a positive quantity is added to the entry of its size.  The lookup
`updatedSizes[size]` is followed for the entries of the map; for a size that
is the name of an inherited member (`inheritedKeys`) and no entry of the map
the code reads that member instead of `undefined`. -/
def addQuantityTo (updatedSizes : List (String × Int)) (entry : String × JsVal) :
    List (String × Int) :=
  let addQuantity := (parseIntJs entry.2).getD 0
  if addQuantity > 0 then
    setKey entry.1 ((lookupKey entry.1 updatedSizes).getD 0 + addQuantity) updatedSizes
  else updatedSizes

/-- The size map the first handler starts from: the product's map, or the
legacy stock under `One Size` when the map is absent or empty. -/
def currentSizesOf (currentProduct : Product) : List (String × Int) :=
  let currentSizes := currentProduct.sizes.getD []
  if currentSizes.length = 0 then [("One Size", currentProduct.stock.getD 0)]
  else currentSizes

/-- The first handler registered for the route, from the `ObjectId` of the
route parameter; `stockUpdate` is `none` when the field is missing or not an
object. -/
def addStock (db : Db) (productId : ObjectId) (now : Nat)
    (stockUpdate : Option (List (String × JsVal))) : Response × Db :=
  match stockUpdate with
  | none => (fail 400 "Stock update data is required", db)
  | some update =>
    match db.products.find? (fun p => p._id == productId) with
    | none => (fail 404 "Product not found", db)
    | some currentProduct =>
      let updatedSizes := update.foldl addQuantityTo (currentSizesOf currentProduct)
      let totalStock := (updatedSizes.map (fun e => e.2)).sum
      (succeed 200 "Stock added successfully" none,
        { db with
          products := updateFirst (fun p => p._id == productId)
            (fun p => { p with
              stock := some totalStock
              sizes := some updatedSizes
              updatedAt := some now }) db.products })

/-- The first handler registered for the route on the request as it arrives:
`productIdText` is the route parameter, whose `ObjectId` the handler builds
first. -/
def addStockRequest (db : Db) (productIdText : String) (now : Nat)
    (stockUpdate : Option (List (String × JsVal))) : Response × Db :=
  match parseObjectId productIdText with
  | none => (fail 500 ("Error adding stock: " ++ objectIdError), db)
  | some productId => addStock db productId now stockUpdate

/-- The value `stockUpdate[k]`, `undefined` when the key is absent. -/
def lookupVal (k : String) : List (String × JsVal) → JsVal
  | [] => .undefined
  | (k', v) :: rest => if k' = k then v else lookupVal k rest

/-- The `$inc` operations the second handler collects: the increment of the
legacy stock, if any, and the increments of size entries. -/
structure StockOps where
  stock : Option Int
  sizes : List (String × Int)
  deriving DecidableEq, Repr

/-- The operations of the second handler: a truthy `One Size` entry goes to
the legacy stock alone; otherwise every positive quantity goes to its size
and their total to the legacy stock. -/
def collectOps (stockUpdate : List (String × JsVal)) : StockOps :=
  if (lookupVal "One Size" stockUpdate).truthy then
    match parseIntJs (lookupVal "One Size" stockUpdate) with
    | some qty => if qty > 0 then { stock := some qty, sizes := [] }
      else { stock := none, sizes := [] }
    | none => { stock := none, sizes := [] }
  else
    let sizes := stockUpdate.filterMap (fun e =>
      match parseIntJs e.2 with
      | some quantity => if quantity > 0 then some (e.1, quantity) else none
      | none => none)
    let totalAdded := (sizes.map (fun e => e.2)).sum
    { stock := if totalAdded > 0 then some totalAdded else none, sizes := sizes }

/-- The effect of `$inc: updateOps` on a product. -/
def applyOps (ops : StockOps) (p : Product) : Product :=
  let p1 :=
    match ops.stock with
    | some d => { p with stock := some (p.stock.getD 0 + d) }
    | none => p
  match ops.sizes with
  | [] => p1
  | incs => { p1 with sizes := some (incs.foldl (fun m e => incKey e.1 e.2 m) (p1.sizes.getD [])) }

/-- The second handler registered for the route; `stockUpdate` is `none`
when the field is missing, and reading a key of it then throws. -/
def addStockInc (db : Db) (productId : ObjectId)
    (stockUpdate : Option (List (String × JsVal))) : Response × Db :=
  match db.products.find? (fun p => p._id == productId) with
  | none => (fail 404 "Product not found", db)
  | some _ =>
    match stockUpdate with
    | none => (fail 500 "Error adding stock", db)
    | some update =>
      let updateOps := collectOps update
      if updateOps.stock.isNone && updateOps.sizes.isEmpty then
        (fail 400 "No valid stock quantities provided", db)
      else
        (succeed 200 "Stock updated successfully" none,
          { db with
            products := updateFirst (fun p => p._id == productId) (applyOps updateOps)
              db.products })

/-! ## Product listing: `GET /api/products` -/

/-- The handler of `GET /api/products`: the products that pass the optional
`category` and `collection` filters, newest first. -/
def listProducts (db : Db) (category collection : Option String) : List Product :=
  (db.products.filter (fun p =>
    (if truthyStr category then p.category == category.getD "" else true) &&
    (if truthyStr collection then p.collections.contains (collection.getD "") else true))).mergeSort
    (fun a b => decide (b.createdAt ≤ a.createdAt))

/-! ## Admin orders: `PUT` and `DELETE /api/admin/orders/:id` -/

/-- The update `$set: updateData` of an admin order update: `status` and
`paymentStatus` only when the request carries a truthy one, and the
timestamp. -/
def applyOrderUpdate (now : Nat) (status paymentStatus : Option String) (o : Order) : Order :=
  { o with
    status := if truthyStr status then status.getD "" else o.status
    paymentStatus := if truthyStr paymentStatus then paymentStatus else o.paymentStatus
    updatedAt := some now }

/-- The handler of `PUT /api/admin/orders/:id`; `orderIdText` is the route
parameter, whose `ObjectId` the handler builds first. -/
def adminUpdateOrder (db : Db) (orderIdText : String) (now : Nat)
    (status paymentStatus : Option String) : Response × Db :=
  match parseObjectId orderIdText with
  | none => (fail 500 "Error updating order", db)
  | some orderId =>
    match db.orders.find? (fun o => o._id == orderId) with
    | none => (fail 404 "Order not found", db)
    | some _ =>
      (succeed 200 "Order updated successfully" none,
        { db with
          orders := updateFirst (fun o => o._id == orderId)
            (applyOrderUpdate now status paymentStatus) db.orders })

/-- The handler of `DELETE /api/admin/orders/:id`; `orderIdText` is the route
parameter, whose `ObjectId` the handler builds first.  The order items go
before the order; the answer is 404 when no order was deleted. -/
def adminDeleteOrder (db : Db) (orderIdText : String) : Response × Db :=
  match parseObjectId orderIdText with
  | none => (fail 500 ("Error deleting order: " ++ objectIdError), db)
  | some orderId =>
    let order_items := deleteAll (fun i => i.orderId == orderId) db.order_items
    match db.orders.find? (fun o => o._id == orderId) with
    | none => (fail 404 "Order not found", { db with order_items := order_items })
    | some _ =>
      (succeed 200 "Order deleted successfully" none,
        { db with
          order_items := order_items
          orders := deleteFirst (fun o => o._id == orderId) db.orders })

/-! ## Categories: `POST /api/admin/categories` -/

/-- The handler of `POST /api/admin/categories`.  `compileRegex pattern` is
the case-insensitive regular expression `new RegExp(pattern, 'i')` as a test
on strings, or `none` when the pattern is not a regular expression and the
constructor throws. -/
def addCategory (compileRegex : String → Option (String → Bool)) (db : Db) (now : Nat)
    (name : String) (description : Option String) : Response × Db :=
  match compileRegex ("^" ++ name ++ "$") with
  | none => (fail 500 "Error adding category", db)
  | some test =>
    match db.categories.find? (fun c => test c.name) with
    | some _ => (fail 400 "Category already exists", db)
    | none =>
      let newCategory : Category :=
        { name := name
          description := strOr description ""
          createdAt := now
          createdBy := "admin" }
      ({ status := 201, error := none, message := none, insertedId := none },
        { db with categories := db.categories ++ [newCategory] })

/-- The quantifier that follows an atom of a pattern. -/
inductive Quantifier where
  | one
  | plus
  | star
  | optional
  deriving DecidableEq, Repr

/-- An atom of a pattern with its quantifier; the atom `none` is `.`. -/
structure Piece where
  atom : Option Char
  quantifier : Quantifier
  deriving DecidableEq, Repr

/-- The characters with a special meaning in a regular expression. -/
def isMetaChar (c : Char) : Bool :=
  "\\^$.|?*+()[]\x7b\x7d".data.contains c

/-- The atom a pattern character stands for: `.` is any character, a
character without special meaning is itself, anything else is no atom. -/
def atomOf (c : Char) : Option (Option Char) :=
  if c = '.' then some none
  else if isMetaChar c then none
  else some (some c)

/-- The pieces of a pattern body made of plain characters and `.`, each
optionally followed by one of `+`, `*`, `?`; `none` when a quantifier has
nothing to repeat or the body uses another construct. -/
def parsePieces : List Char → Option (List Piece)
  | [] => some []
  | c :: '+' :: rest =>
    match atomOf c, parsePieces rest with
    | some a, some ps => some (⟨a, .plus⟩ :: ps)
    | _, _ => none
  | c :: '*' :: rest =>
    match atomOf c, parsePieces rest with
    | some a, some ps => some (⟨a, .star⟩ :: ps)
    | _, _ => none
  | c :: '?' :: rest =>
    match atomOf c, parsePieces rest with
    | some a, some ps => some (⟨a, .optional⟩ :: ps)
    | _, _ => none
  | c :: rest =>
    match atomOf c, parsePieces rest with
    | some a, some ps => some (⟨a, .one⟩ :: ps)
    | _, _ => none

/-- An atom accepts a character, letter case ignored; `.` accepts anything
but a line break. -/
def atomAccepts (atom : Option Char) (c : Char) : Bool :=
  match atom with
  | none => !(c = '\n' || c = '\r')
  | some a => a.toLower == c.toLower

/-- The rests of a subject after a run of zero or more characters the atom
accepts. -/
def restsAfterRun (atom : Option Char) : List Char → List (List Char)
  | [] => [[]]
  | c :: cs => if atomAccepts atom c then (c :: cs) :: restsAfterRun atom cs else [c :: cs]

/-- The pieces match the whole subject. -/
def matchPieces : List Piece → List Char → Bool
  | [], cs => cs.isEmpty
  | p :: ps, cs =>
    match p.quantifier with
    | .one =>
      match cs with
      | c :: rest => atomAccepts p.atom c && matchPieces ps rest
      | [] => false
    | .optional =>
      matchPieces ps cs ||
        (match cs with
        | c :: rest => atomAccepts p.atom c && matchPieces ps rest
        | [] => false)
    | .star => (restsAfterRun p.atom cs).any (fun rest => matchPieces ps rest)
    | .plus =>
      match cs with
      | c :: rest =>
        atomAccepts p.atom c && (restsAfterRun p.atom rest).any (fun r => matchPieces ps r)
      | [] => false

/-- The regular expressions `new RegExp(pattern, 'i')` for the patterns
`^body$` whose body `parsePieces` reads: plain characters and `.`, each
optionally followed by `+`, `*` or `?`.  Other patterns are outside this
fragment and give `none`. -/
def simpleRegex (pattern : String) : Option (String → Bool) :=
  match pattern.data with
  | '^' :: rest =>
    match rest.reverse with
    | '$' :: body =>
      (parsePieces body.reverse).map (fun ps => fun subject => matchPieces ps subject.data)
    | _ => none
  | _ => none

/-! ## Authentication: `authenticateToken` -/

/-- The identity a request runs under (`req.user`). -/
structure ReqUser where
  id : String
  email : String
  isAdmin : Bool
  deriving DecidableEq, Repr

/-- What the middleware does with a request: it answers with an error, or
hands the request on with `req.user` set. -/
inductive AuthOutcome where
  | rejected (status : Nat) (error : String)
  | next (user : ReqUser)
  deriving DecidableEq, Repr

/-- The pieces `s.split(' ')` of a string. -/
def splitOnSpace : List Char → List (List Char)
  | [] => [[]]
  | c :: cs =>
    if c = ' ' then [] :: splitOnSpace cs
    else
      match splitOnSpace cs with
      | [] => [[c]]
      | w :: ws => (c :: w) :: ws

/-- The expression `authHeader && authHeader.split(' ')[1]`; `none` stands
for `undefined`. -/
def bearerToken (authHeader : Option String) : Option String :=
  match authHeader with
  | none => none
  | some h => if h = "" then some "" else ((splitOnSpace h.data)[1]?).map String.mk

/-- The middleware `authenticateToken`; `verify token` is the payload
`jwt.verify` decodes, or `none` when it reports an error. -/
def authenticateToken (verify : String → Option ReqUser) (authHeader : Option String) :
    AuthOutcome :=
  match bearerToken authHeader with
  | none => .rejected 401 "Access token required"
  | some token =>
    if token = "" then .rejected 401 "Access token required"
    else if "admin-mock-token-".data.isPrefixOf token.data then
      .next { id := "admin", email := "admin@clothy.com", isAdmin := true }
    else
      match verify token with
      | none => .rejected 403 "Invalid token"
      | some user => .next user

/-! ## Predicates of the specification -/

/-- The pattern `^\d{12}$` of the specification: a string of exactly twelve
characters, all of them digits `0`..`9`. -/
def matchesUtrPattern : JsVal → Bool
  | .str s => s.length == 12 && s.data.all Char.isDigit
  | _ => false

/-- Product `b` has a `colors` entry that links to the product `a`. -/
def linksTo (b a : Product) : Bool :=
  b.colors.any (fun c => c.id == a._id)

/-- The symmetry of the link relation over a products collection: whenever a
product links to another product of the collection, that one links back. -/
def symmetricLinks (products : List Product) : Bool :=
  products.all (fun a => products.all (fun b => !linksTo a b || linksTo b a))

/-- How Ungroup relates a product before the call to the same product after
it: a target ends with no link; any other product keeps, in order, the links
whose id is not a target. -/
def UngroupedFrom (ids : List ObjectId) (before after : Product) : Prop :=
  after._id = before._id ∧
  (before._id ∈ ids → after.colors = []) ∧
  (before._id ∉ ids → after.colors = before.colors.filter (fun c => !(ids.contains c.id)))

/-- What the grouping loop makes of a listed product `q`, given the fetched
products: one link per fetched product other than `q`. -/
def relink (now : Nat) (fetched : List Product) (q : Product) : Product :=
  { q with
    colors := (fetched.filter (fun p => !(p._id == q._id))).map linkTo
    updatedAt := some now }

/-- What varies between the calls of a run of add-to-cart requests for one
owner, product name and size. -/
structure AddCall where
  newId : ObjectId
  now : Nat
  productId : Option ObjectId
  price : Int
  quantity : Option Int
  deriving DecidableEq, Repr

/-- The store after a run of add-to-cart calls by `userId` for the product
name `productName` and the size `size`, one call after the other. -/
def addToCartRepeated (db : Db) (userId : ObjectId) (productName : String)
    (size : Option String) (calls : List AddCall) : Db :=
  calls.foldl (fun d c =>
    (addToCart d userId c.newId c.now
      { productName := productName, productId := c.productId, price := c.price
        quantity := c.quantity, size := size }).2) db

/-- The identity of a cart line: owner, product name and stored size. -/
def cartKey (c : CartItem) : ObjectId × String × Option String :=
  (c.userId, c.productName, c.size)

/-- The cart holds at most one line per owner, product name and size. -/
def CartUnique (cart : List CartItem) : Prop :=
  (cart.map cartKey).Nodup

instance : DecidablePred CartUnique :=
  fun cart => inferInstanceAs (Decidable ((cart.map cartKey).Nodup))

/-- A call that touches the cart, made by an authenticated user. -/
inductive CartCall where
  | add (newId : ObjectId) (now : Nat) (req : CartAddRequest)
  | setQuantity (itemId : ObjectId) (now : Nat) (quantity : Option Int)
  | remove (itemId : ObjectId)
  | clear
  | order (newId : ObjectId) (now : Nat) (req : OrderRequest)

/-- The handler a cart call is routed to. -/
def runCartCall (db : Db) (userId : ObjectId) : CartCall → Response × Db
  | .add newId now req => addToCart db userId newId now req
  | .setQuantity itemId now quantity => updateCartQuantity db userId itemId now quantity
  | .remove itemId => removeFromCart db userId itemId
  | .clear => clearCart db userId
  | .order newId now req => placeOrder db userId newId now req

/-- A required field counts as missing when it is absent, `null` or holds an
empty value (`""`, `0`, `false`). -/
def JsVal.isMissing : JsVal → Bool
  | .undefined => true
  | .null => true
  | .bool b => !b
  | .num n => n == 0
  | .str s => s == ""
  | .object => false
  | .array _ => false

/-- The requests the specification has Place order reject: the item list is
missing, not a list or empty; or the total amount is missing or not positive;
or the payment method is missing; or the payment method is `upi` and the UTR
number is not twelve digits. -/
def OrderRequestRejected (req : OrderRequest) : Prop :=
  (req.items = .missing ∨ req.items = .notArray ∨ req.items = .array []) ∨
  (req.totalAmount = none ∨ ∃ t, req.totalAmount = some t ∧ t ≤ 0) ∨
  req.paymentMethod.isMissing = true ∨
  (req.paymentMethod = .str "upi" ∧ matchesUtrPattern req.utrNumber = false)

/-- What a Group call for `ids` makes of a stored product: a listed product
is relinked against the fetched products, any other product is kept. -/
def relinkListed (now : Nat) (ids : List ObjectId) (fetched : List Product)
    (q : Product) : Product :=
  if q._id ∈ ids then relink now fetched q else q

/-- The addresses of `userId` that carry `isDefault = true`. -/
def defaultsOf (userId : ObjectId) (addresses : List Address) : List Address :=
  addresses.filter (fun a => a.userId == userId && a.isDefault)

/-- Every owner has at most one address with `isDefault = true`. -/
def SingleDefault (addresses : List Address) : Prop :=
  ∀ userId : ObjectId, (defaultsOf userId addresses).length ≤ 1

/-- A request to the address book, made by an authenticated user. -/
inductive AddressCall where
  | create (newId : ObjectId) (now : Nat) (req : AddressRequest)
  | update (addressId : ObjectId) (now : Nat) (req : AddressRequest)
  | delete (addressId : ObjectId)

/-- The handler an address call is routed to. -/
def runAddressCall (db : Db) (userId : ObjectId) : AddressCall → Response × Db
  | .create newId now req => createAddress db userId newId now req
  | .update addressId now req => updateAddress db userId addressId now req
  | .delete addressId => deleteAddress db userId addressId

/-- The submitted item names the product with id `id`: its `productId`, or
else its `id`, is the text of an `ObjectId`, and that `ObjectId` is `id`. -/
def refersTo (item : OrderReqItem) (id : ObjectId) : Bool :=
  truthyStr (optOr item.productId item.id) &&
    parseObjectId ((optOr item.productId item.id).getD "") == some id

/-- The sum of the quantities of the submitted items that name the product
`id`. -/
def orderedQuantity (items : List OrderReqItem) (id : ObjectId) : Int :=
  ((items.filter (fun i => refersTo i id)).map (fun i => i.quantity)).sum

/-- The sum of the quantities of the submitted items that name the product
`id` with the size `s`. -/
def orderedSizeQuantity (items : List OrderReqItem) (id : ObjectId) (s : String) : Int :=
  ((items.filter (fun i => refersTo i id && orNull i.size == some s)).map
    (fun i => i.quantity)).sum

/-- How a successful order for `items` relates a product before the call to
the same product after it.  The legacy stock, when present, has gone down by
the quantities of the items naming the product.  A product without a size
map still has none; in a size map every size holds its previous value (0 for
an absent key) less the quantities of the items naming the product with that
size.  A product no item names is unchanged. -/
def StockDecremented (items : List OrderReqItem) (before after : Product) : Prop :=
  after._id = before._id ∧
  after.stock = before.stock.map (fun v => v - orderedQuantity items before._id) ∧
  (before.sizes = none → after.sizes = none) ∧
  (∀ m, before.sizes = some m → ∃ m2, after.sizes = some m2 ∧ ∀ s : String,
    (lookupKey s m2).getD 0 = (lookupKey s m).getD 0 - orderedSizeQuantity items before._id s ∧
    (∀ v, lookupKey s m = some v →
      lookupKey s m2 = some (v - orderedSizeQuantity items before._id s))) ∧
  ((∀ i ∈ items, refersTo i before._id = false) → after = before)

/-- One round of the stock loop as seen from the product with id `id`. -/
def stockStep (id : ObjectId) (acc : Product) (item : OrderReqItem) : Product :=
  if refersTo item id then decrementStock item acc else acc

/-- The size map after the decrement for one submitted item. -/
def sizesAfter (item : OrderReqItem) (m : List (String × Int)) : List (String × Int) :=
  match orNull item.size with
  | some sz => incKey sz (-item.quantity) m
  | none => m

/-- How an admin order update for `orderId` relates a stored order before
the call to the order in its place after it: the order is the same, or it has
the id `orderId` and differs in `status`, `paymentStatus` and `updatedAt` at
most. -/
def OrderUpdatedFrom (orderId : ObjectId) (before after : Order) : Prop :=
  after = before ∨
  (before._id = orderId ∧
    after = { before with
      status := after.status
      paymentStatus := after.paymentStatus
      updatedAt := after.updatedAt })

/-- How a Group call for `ids` relates a stored product before the call to
the product in its place after it: a product whose id is not listed is the
same document, and any product differs in `colors` and `updatedAt` at most. -/
def GroupedFrom (ids : List ObjectId) (before after : Product) : Prop :=
  (before._id ∉ ids → after = before) ∧
  after = { before with colors := after.colors, updatedAt := after.updatedAt }

/-- The total quantity over the cart lines of `userId` for the product name
`productName`, whatever their size. -/
def totalQuantity (userId : ObjectId) (productName : String) (cart : List CartItem) : Int :=
  ((cart.filter (fun c => c.userId == userId && c.productName == productName)).map
    (fun c => c.quantity)).sum

/-! ## Sample stores -/

/-- A product document with the given id, name and links. -/
def sampleProduct (id name : String) (colors : List ColorLink) : Product :=
  { _id := id, name := name, category := "Shirts", price := 500, image := some "img.png"
    images := none, description := "", stock := some 5, sizes := some [("M", 5)]
    colors := colors, inCollection := false, collections := [], createdAt := 0
    updatedAt := none }

/-- A link entry to the product with the given id. -/
def sampleLink (id : String) : ColorLink :=
  { id := id, name := id, image := "img.png", hex := "#000000" }

/-- A store holding the given products and nothing else. -/
def storeOf (products : List Product) : Db :=
  { users := [], products := products, orders := [], order_items := [], addresses := []
    cart := [], categories := [] }

/-- Three unlinked products `A`, `B`, `C`. -/
def storeABC : Db :=
  storeOf [sampleProduct "A" "A" [], sampleProduct "B" "B" [], sampleProduct "C" "C" []]

/-- Products `A`, `X`, `B` after `A` and `X` have been grouped: `A` and `X`
link to each other and `B` is unlinked. -/
def storeAXB : Db :=
  (groupProducts
    (storeOf [sampleProduct "A" "A" [], sampleProduct "X" "X" [], sampleProduct "B" "B" []])
    6 (some ["A", "X"])).2

/-- A user document with the given id and first name. -/
def sampleUser (id first : String) : User :=
  { _id := id, firstName := some first, lastName := none, email := some "a@b.c"
    phone := none, password := "", type := "user" }

/-- A store with the user `u1`, the product `p1` and an empty cart. -/
def storeShop : Db :=
  { users := [sampleUser "u1" "Ann"], products := [sampleProduct "p1" "Shirt" []]
    orders := [], order_items := [], addresses := [], cart := [], categories := [] }

/-- The user `u1` holds one cart line, of size `M`, for the product `p1`,
whose stock for `M` stands at `-1`. -/
def storeOversold : Db :=
  { users := [sampleUser "u1" "Ann"]
    products := [{ sampleProduct "p1" "Shirt" [] with sizes := some [("M", -1)] }]
    orders := [], order_items := [], addresses := []
    cart := [{ _id := "c1", userId := "u1", username := "Ann", productName := "Shirt"
               productId := some "p1", price := 500, quantity := 1, size := some "M"
               createdAt := 0, updatedAt := none }]
    categories := [] }

/-- A store whose only product, `p1`, has the size map `One Size = 5` and
the legacy stock 5. -/
def storeOneSize : Db :=
  storeOf [{ sampleProduct "p1" "Shirt" [] with sizes := some [("One Size", 5)] }]

/-- A product form with a name, a category, a price and the image path
`http://cdn/x.png`. -/
def sampleForm : ProductForm :=
  { name := some "Shirt", category := some "Shirts", price := some 500, description := none
    stock := .undefined, inCollection := .undefined, sizes := some [("M", 5)], colors := none
    image := some "http://cdn/x.png" }

/-- An address document of the given owner. -/
def sampleAddress (id userId : String) (isDefault : Bool) : Address :=
  { _id := id, userId := userId, type := some "home", name := some "Ann", email := none
    house := none, street := some "1 Main St", address := none, city := some "Pune"
    state := none, zipCode := none, country := none, phone := none, isDefault := isDefault
    createdAt := 0, updatedAt := none }

/-- The user `u1` has the addresses `x` and `y`, `y` being the default, and
the user `u2` has the default address `z`. -/
def storeAddresses : Db :=
  { users := [], products := [], orders := [], order_items := []
    addresses := [sampleAddress "x" "u1" false, sampleAddress "y" "u1" true,
      sampleAddress "z" "u2" true]
    cart := [], categories := [] }

/-- An address form that asks for the default flag. -/
def defaultForm : AddressRequest :=
  { type := some "work", name := some "Ann", email := none, house := none
    street := some "2 Side St", city := some "Pune", state := none, zipCode := none
    country := none, phone := none, isDefault := some true }

/-- An order document of the given owner. -/
def sampleOrder (id userId : String) : Order :=
  { _id := id, userId := userId, totalAmount := 500, status := "pending"
    shippingAddress := none, paymentMethod := .str "cod", utrNumber := .null, createdAt := 0
    paymentStatus := none, updatedAt := none }

/-- The user `u1` holds a cart line of size `M` and one of size `L` for the
product name `Shirt`, and a line for `Cap`. -/
def storeCartSized : Db :=
  { users := [sampleUser "u1" "Ann"], products := [sampleProduct "p1" "Shirt" []]
    orders := [], order_items := [], addresses := []
    cart := [{ _id := "c0", userId := "u1", username := "Ann", productName := "Cap"
               productId := none, price := 100, quantity := 1, size := none
               createdAt := 0, updatedAt := none },
             { _id := "c1", userId := "u1", username := "Ann", productName := "Shirt"
               productId := some "p1", price := 500, quantity := 2, size := some "M"
               createdAt := 0, updatedAt := none },
             { _id := "c2", userId := "u1", username := "Ann", productName := "Shirt"
               productId := some "p1", price := 500, quantity := 1, size := some "L"
               createdAt := 0, updatedAt := none }]
    categories := [] }

/-- Identifiers as the driver writes them: 24 hexadecimal digits. -/
def idA : String := "65b000000000000000000001"

/-- A second identifier. -/
def idB : String := "65b000000000000000000002"

/-- A third identifier. -/
def idC : String := "65b000000000000000000003"

/-- A fourth identifier, of no stored document. -/
def idD : String := "65b000000000000000000004"

/-- The identifier `idA` written with an upper-case digit. -/
def idAUpper : String := "65B000000000000000000001"

/-- The identifier `idB` written with an upper-case digit. -/
def idBUpper : String := "65B000000000000000000002"

/-- The identifier of a user. -/
def idU : String := "65a000000000000000000001"

/-- The identifier of an order. -/
def idO : String := "65d000000000000000000001"

/-- A store with the user `idU`, the product `idA` (5 pieces of size `M`,
legacy stock 5) and an empty cart. -/
def storeIdShop : Db :=
  { users := [sampleUser idU "Ann"], products := [sampleProduct idA "Shirt" []]
    orders := [], order_items := [], addresses := [], cart := [], categories := [] }

/-- A store whose only product, `idA`, has an empty size map and the legacy
stock 7. -/
def storeIdLegacy : Db :=
  storeOf [{ sampleProduct idA "Shirt" [] with sizes := some [], stock := some 7 }]

/-- The identifier of a second user. -/
def idU2 : String := "65a000000000000000000002"

/-- The identifier of a second order. -/
def idO2 : String := "65d000000000000000000002"

/-- Two orders, `idO` with two order items and `idO2` with one. -/
def storeIdOrders : Db :=
  { users := [], products := []
    orders := [sampleOrder idO idU, sampleOrder idO2 idU2]
    order_items := [⟨idO, "Shirt", 500, 1, some "M"⟩, ⟨idO2, "Jeans", 900, 1, none⟩,
      ⟨idO, "Cash on Delivery Charge", 10, 1, none⟩]
    addresses := [], cart := [], categories := [] }

/-- The identifier of an address. -/
def idX : String := "65e000000000000000000001"

/-- The identifier of a second address. -/
def idY : String := "65e000000000000000000002"

/-- The identifier of a third address. -/
def idZ : String := "65e000000000000000000003"

/-- The user `idU` has the addresses `idX` and `idY`, `idY` being the
default, and the user `idU2` has the default address `idZ`. -/
def storeIdAddresses : Db :=
  { users := [], products := [], orders := [], order_items := []
    addresses := [sampleAddress idX idU false, sampleAddress idY idU true,
      sampleAddress idZ idU2 true]
    cart := [], categories := [] }

/-- The identifier of a cart line. -/
def idL : String := "65c000000000000000000001"

/-- The identifier of a second cart line. -/
def idL2 : String := "65c000000000000000000002"

/-- A cart line of the user `idU` for the product `idA`, with the given id
and size. -/
def cartLine (id size : String) : CartItem :=
  { _id := id, userId := idU, username := "Ann", productName := "Shirt"
    productId := some idA, price := 500, quantity := 1, size := some size
    createdAt := 0, updatedAt := none }

/-- The user `idU` holds two cart lines for the product `idA`, one of size
`M` and one of size `constructor`; the size map of the product has `-1` for
`M` and no other key. -/
def storeCartStock : Db :=
  { users := [sampleUser idU "Ann"]
    products := [{ sampleProduct idA "Shirt" [] with sizes := some [("M", -1)] }]
    orders := [], order_items := [], addresses := []
    cart := [cartLine idL "M", cartLine idL2 "constructor"]
    categories := [] }

/-- Three unlinked products `A`, `B`, `C` under the identifiers `idA`, `idB`
and `idC`. -/
def storeIdABC : Db :=
  storeOf [sampleProduct idA "A" [], sampleProduct idB "B" [], sampleProduct idC "C" []]

/-- The products `A`, `B`, `C` after the three have been grouped: each links
to the two others. -/
def storeGroupedABC : Db :=
  (groupProducts storeIdABC 7 (some [idA, idB, idC])).2

/-! # Properties -/

/-! ## Identifiers -/

theorem parseObjectIds_of_canonical (ids : List String)
    (h : ∀ id ∈ ids, parseObjectId id = some id) : parseObjectIds ids = some ids := by
  induction ids with
  | nil => rfl
  | cons a rest ih =>
    have ha := h a (List.mem_cons_self _ _)
    have hr := ih (fun id hid => h id (List.mem_cons_of_mem _ hid))
    simp only [parseObjectIds, ha, hr]

theorem parseObjectIds_eq_none (ids : List String)
    (h : ∃ id ∈ ids, parseObjectId id = none) : parseObjectIds ids = none := by
  induction ids with
  | nil =>
    obtain ⟨id, hid, _⟩ := h
    cases hid
  | cons a rest ih =>
    obtain ⟨id, hid, hnone⟩ := h
    rcases List.mem_cons.mp hid with rfl | hrest
    · simp only [parseObjectIds, hnone]
    · have hr := ih ⟨id, hrest, hnone⟩
      cases hp : parseObjectId a with
      | none => simp only [parseObjectIds, hp]
      | some o => simp only [parseObjectIds, hp, hr]

theorem forall₂_of_parseObjectIds (ids : List String) :
    ∀ objectIds : List ObjectId, parseObjectIds ids = some objectIds →
      List.Forall₂ (fun s o => parseObjectId s = some o) ids objectIds := by
  induction ids with
  | nil =>
    intro objectIds h
    simp only [parseObjectIds, Option.some.injEq] at h
    subst h
    exact List.Forall₂.nil
  | cons a rest ih =>
    intro objectIds h
    cases ha : parseObjectId a with
    | none => simp [parseObjectIds, ha] at h
    | some o =>
      cases hr : parseObjectIds rest with
      | none => simp [parseObjectIds, ha, hr] at h
      | some os =>
        simp only [parseObjectIds, ha, hr, Option.some.injEq] at h
        subst h
        exact List.Forall₂.cons ha (ih os hr)

theorem parseObjectIds_length (ids : List String) (objectIds : List ObjectId)
    (h : parseObjectIds ids = some objectIds) : objectIds.length = ids.length :=
  ((forall₂_of_parseObjectIds ids objectIds h).length_eq).symm

/-! ## Place order -/

theorem jsLength_of_digits (l : List Char) (h : l.all Char.isDigit = true) :
    (l.map (fun c => if c.val < 0x10000 then 1 else 2)).sum = l.length := by
  induction l with
  | nil => rfl
  | cons c cs ih =>
    simp only [List.all_cons, Bool.and_eq_true] at h
    have hc : c.val < 0x10000 := by
      have h1 := h.1
      simp only [Char.isDigit, Bool.and_eq_true, decide_eq_true_eq] at h1
      have h2 : c.val.toNat ≤ 57 := h1.2
      show c.val.toNat < 65536
      omega
    simp only [List.map_cons, List.sum_cons, List.length_cons, hc, if_true, ih h.2]
    omega

theorem utrError_isSome (v : JsVal) (h : matchesUtrPattern v = false) :
    (utrError v).isSome = true := by
  unfold utrError
  by_cases ht : v.truthy = true
  · cases v with
    | str s =>
      by_cases hc : (jsLength s != 12 || !testDigits s) = true
      · simp [ht, hc]
      · exfalso
        simp only [Bool.or_eq_true, bne_iff_ne, ne_eq, Bool.not_eq_true', not_or, not_not,
          Bool.not_eq_false] at hc
        obtain ⟨hlen, hdig⟩ := hc
        simp only [testDigits, Bool.and_eq_true] at hdig
        have hl : s.length = 12 := by
          have := jsLength_of_digits s.data hdig.2
          unfold jsLength at hlen
          rw [this] at hlen
          exact hlen
        simp [matchesUtrPattern, hl, hdig.2] at h
    | undefined => simp [JsVal.truthy] at ht
    | null => simp [JsVal.truthy] at ht
    | bool b => simp [ht]
    | num n => simp [ht]
    | object => simp [ht]
    | array t => simp [ht]
  · simp [ht]

theorem placeOrder_invalid (db : Db) (userId newId : ObjectId) (now : Nat)
    (req : OrderRequest) (msg : String) (h : validateOrder req = some msg) :
    placeOrder db userId newId now req = (fail 400 msg, db) := by
  simp [placeOrder, h]

theorem validateOrder_of_success (db : Db) (userId newId : ObjectId) (now : Nat)
    (req : OrderRequest) (h : (placeOrder db userId newId now req).1.status = 201) :
    validateOrder req = none := by
  cases hv : validateOrder req with
  | none => rfl
  | some msg =>
    rw [placeOrder_invalid db userId newId now req msg hv] at h
    simp [fail] at h

theorem placeOrder_valid_items (db : Db) (userId newId : ObjectId) (now : Nat)
    (req : OrderRequest) (h : validateOrder req = none) :
    (placeOrder db userId newId now req).2.order_items =
      db.order_items ++ buildOrderItems newId req.paymentMethod req.items.toList := by
  simp [placeOrder, h]

theorem placeOrder_valid_cart (db : Db) (userId newId : ObjectId) (now : Nat)
    (req : OrderRequest) (h : validateOrder req = none) :
    (placeOrder db userId newId now req).2.cart =
      deleteAll (fun c => c.userId == userId) db.cart := by
  simp [placeOrder, h]

/-- C1: a UPI order whose UTR number does not match `^\d{12}$` is answered
with status 400 and an error, and the store, `orders` and `order_items`
included, is left as it was. -/
theorem placeOrder_upi_bad_utr_rejected (db : Db) (userId newId : ObjectId) (now : Nat)
    (req : OrderRequest) (hpm : req.paymentMethod = .str "upi")
    (hutr : matchesUtrPattern req.utrNumber = false) :
    (placeOrder db userId newId now req).1.status = 400 ∧
    (placeOrder db userId newId now req).1.error.isSome = true ∧
    (placeOrder db userId newId now req).2.orders = db.orders ∧
    (placeOrder db userId newId now req).2.order_items = db.order_items ∧
    (placeOrder db userId newId now req).2 = db := by
  have hv : ∃ msg, validateOrder req = some msg := by
    have hu := utrError_isSome req.utrNumber hutr
    obtain ⟨m, hm⟩ := Option.isSome_iff_exists.mp hu
    unfold validateOrder
    cases hi : req.items with
    | missing => exact ⟨_, rfl⟩
    | notArray => exact ⟨_, rfl⟩
    | array xs =>
      cases xs with
      | nil => exact ⟨_, rfl⟩
      | cons x xs =>
        cases ht : req.totalAmount with
        | none => exact ⟨_, rfl⟩
        | some t =>
          by_cases hz : (t = 0 || t ≤ 0) = true
          · exact ⟨"Valid total amount is required", by simp only [hz, if_true]⟩
          · refine ⟨m, ?_⟩
            simp only [hz, hpm, JsVal.truthy, hm]
            simp
  obtain ⟨msg, hmsg⟩ := hv
  rw [placeOrder_invalid db userId newId now req msg hmsg]
  simp [fail]

/-- Witness of C1: a UPI order with an eleven-digit UTR number. -/
theorem placeOrder_upi_bad_utr_rejected_witness :
    (placeOrder ⟨[], [], [], [], [], [], []⟩ "u1" "o1" 0
      ⟨.array [⟨"Shirt", 500, 1, some "M", none, none⟩], some 500, none,
        .str "upi", .str "12345678901"⟩).1.status = 400 :=
  (placeOrder_upi_bad_utr_rejected ⟨[], [], [], [], [], [], []⟩ "u1" "o1" 0
      ⟨.array [⟨"Shirt", 500, 1, some "M", none, none⟩], some 500, none,
        .str "upi", .str "12345678901"⟩ rfl (by decide)).1
theorem buildOrderItems_orderId (newId : ObjectId) (pm : JsVal) (items : List OrderReqItem) :
    ∀ i ∈ buildOrderItems newId pm items, i.orderId = newId := by
  intro i hi
  unfold buildOrderItems at hi
  by_cases hc : pm = .str "cod"
  · simp only [hc, if_true, List.mem_append, List.mem_map, List.mem_singleton] at hi
    rcases hi with ⟨x, _, rfl⟩ | rfl
    · rfl
    · rfl
  · simp only [hc, if_false, List.mem_map] at hi
    obtain ⟨x, _, rfl⟩ := hi
    rfl

/-- C2: a successful order inserts, after the order items already stored,
one order item per submitted item, in the order of submission and all under
the new order id; with payment method `cod` exactly one more follows, of
price 10 and quantity 1, and with any other payment method nothing follows. -/
theorem placeOrder_inserted_items (db : Db) (userId newId : ObjectId) (now : Nat)
    (req : OrderRequest) (hok : (placeOrder db userId newId now req).1.status = 201) :
    ∃ inserted : List OrderItem,
      (placeOrder db userId newId now req).2.order_items = db.order_items ++ inserted ∧
      (∀ i ∈ inserted, i.orderId = newId) ∧
      (req.paymentMethod = .str "cod" →
        inserted.length = req.items.toList.length + 1 ∧
        (inserted.take req.items.toList.length).map
            (fun i => (i.productName, i.price, i.quantity, i.size)) =
          req.items.toList.map (fun x => (x.name, x.price, x.quantity, orNull x.size)) ∧
        (inserted.drop req.items.toList.length).map (fun i => (i.price, i.quantity)) =
          [((10 : Int), (1 : Int))]) ∧
      (req.paymentMethod ≠ .str "cod" →
        inserted.length = req.items.toList.length ∧
        inserted.map (fun i => (i.productName, i.price, i.quantity, i.size)) =
          req.items.toList.map (fun x => (x.name, x.price, x.quantity, orNull x.size))) := by
  have hv := validateOrder_of_success db userId newId now req hok
  refine ⟨buildOrderItems newId req.paymentMethod req.items.toList,
    placeOrder_valid_items db userId newId now req hv,
    buildOrderItems_orderId newId req.paymentMethod req.items.toList, ?_, ?_⟩
  · intro hc
    have hlen : (req.items.toList.map (toOrderItem newId)).length = req.items.toList.length :=
      List.length_map _ _
    refine ⟨?_, ?_, ?_⟩
    · simp [buildOrderItems, hc]
    · simp only [buildOrderItems, hc, if_true]
      rw [← hlen, List.take_left, List.map_map]
      rfl
    · simp only [buildOrderItems, hc, if_true]
      rw [← hlen, List.drop_left]
      rfl
  · intro hc
    refine ⟨?_, ?_⟩
    · simp [buildOrderItems, hc]
    · simp only [buildOrderItems, hc, if_false, List.map_map]
      rfl

/-- Witness of C2: a cash-on-delivery order of two items. -/
theorem placeOrder_inserted_items_witness :
    ∃ inserted : List OrderItem,
      (placeOrder ⟨[], [], [], [], [], [], []⟩ "u1" "o1" 0
        ⟨.array [⟨"Shirt", 500, 1, some "M", none, none⟩, ⟨"Jeans", 900, 2, none, none, none⟩],
          some 2310, none, .str "cod", .undefined⟩).2.order_items = [] ++ inserted ∧
      inserted.length = 3 :=
  match placeOrder_inserted_items ⟨[], [], [], [], [], [], []⟩ "u1" "o1" 0
      ⟨.array [⟨"Shirt", 500, 1, some "M", none, none⟩, ⟨"Jeans", 900, 2, none, none, none⟩],
        some 2310, none, .str "cod", .undefined⟩ (by decide) with
  | ⟨inserted, h1, _, h3, _⟩ => ⟨inserted, h1, (h3 rfl).1⟩

theorem sum_buildOrderItems_cod (newId : ObjectId) (items : List OrderReqItem) :
    ((buildOrderItems newId (.str "cod") items).map (fun i => i.price * i.quantity)).sum =
      (items.map (fun x => x.price * x.quantity)).sum + 10 := by
  simp only [buildOrderItems, if_true, List.map_append, List.map_map, List.sum_append,
    List.map_cons, List.map_nil, List.sum_cons, List.sum_nil]
  have : ((fun i : OrderItem => i.price * i.quantity) ∘ toOrderItem newId) =
      fun x : OrderReqItem => x.price * x.quantity := rfl
  rw [this]
  simp [codItem, codCharge]

theorem filter_orderId_new (db : Db) (newId : ObjectId) (l : List OrderItem)
    (hfresh : ∀ i ∈ db.order_items, i.orderId ≠ newId) (hl : ∀ i ∈ l, i.orderId = newId) :
    (db.order_items ++ l).filter (fun i => i.orderId == newId) = l := by
  rw [List.filter_append]
  have h1 : db.order_items.filter (fun i => i.orderId == newId) = [] := by
    rw [List.filter_eq_nil_iff]
    intro i hi
    simpa using hfresh i hi
  have h2 : l.filter (fun i => i.orderId == newId) = l := by
    rw [List.filter_eq_self]
    intro i hi
    simpa using hl i hi
  rw [h1, h2, List.nil_append]

theorem placeOrder_valid_orders (db : Db) (userId newId : ObjectId) (now : Nat)
    (req : OrderRequest) (h : validateOrder req = none) :
    ∃ o : Order, o._id = newId ∧ o.userId = userId ∧
      (placeOrder db userId newId now req).2.orders = db.orders ++ [o] := by
  simp [placeOrder, h]

/-- C9: after a successful cash-on-delivery order, placed under an order id
that no stored order item referenced before, price times quantity summed
over the stored order items of the new order is the same sum over the
submitted items plus 10; the order listing of the caller shows the new order
and the `total` fields of its items add up to that same amount. -/
theorem placeOrder_cod_items_total (db : Db) (userId newId : ObjectId) (now : Nat)
    (req : OrderRequest) (hok : (placeOrder db userId newId now req).1.status = 201)
    (hcod : req.paymentMethod = .str "cod")
    (hfresh : ∀ i ∈ db.order_items, i.orderId ≠ newId) :
    (((placeOrder db userId newId now req).2.order_items.filter
        (fun i => i.orderId == newId)).map (fun i => i.price * i.quantity)).sum =
      (req.items.toList.map (fun x => x.price * x.quantity)).sum + 10 ∧
    ∃ entry ∈ listOrders (placeOrder db userId newId now req).2 userId,
      entry.1._id = newId ∧
      (entry.2.map (fun v => v.total)).sum =
        (req.items.toList.map (fun x => x.price * x.quantity)).sum + 10 := by
  have hv := validateOrder_of_success db userId newId now req hok
  have hitems := placeOrder_valid_items db userId newId now req hv
  have hflt := filter_orderId_new db newId (buildOrderItems newId req.paymentMethod
    req.items.toList) hfresh (buildOrderItems_orderId newId req.paymentMethod req.items.toList)
  have hsum := sum_buildOrderItems_cod newId req.items.toList
  constructor
  · rw [hitems, hflt, hcod]
    exact hsum
  · obtain ⟨o, hid, huser, horders⟩ := placeOrder_valid_orders db userId newId now req hv
    refine ⟨(o, itemsOfOrder (placeOrder db userId newId now req).2 o), ?_, hid, ?_⟩
    · unfold listOrders
      rw [List.mem_map]
      refine ⟨o, ?_, rfl⟩
      rw [List.mem_mergeSort, List.mem_filter, horders]
      exact ⟨by simp, by simp [huser]⟩
    · show ((itemsOfOrder (placeOrder db userId newId now req).2 o).map
        (fun v => v.total)).sum = _
      unfold itemsOfOrder
      rw [hitems, hid, hflt, hcod, List.map_map]
      exact hsum

/-- Witness of C9: a cash-on-delivery order of two items in an empty store. -/
theorem placeOrder_cod_items_total_witness :
    (((placeOrder ⟨[], [], [], [], [], [], []⟩ "u1" "o1" 0
        ⟨.array [⟨"Shirt", 500, 1, some "M", none, none⟩, ⟨"Jeans", 900, 2, none, none, none⟩],
          some 2310, none, .str "cod", .undefined⟩).2.order_items.filter
        (fun i => i.orderId == "o1")).map (fun i => i.price * i.quantity)).sum =
      ([⟨"Shirt", 500, 1, some "M", none, none⟩,
        (⟨"Jeans", 900, 2, none, none, none⟩ : OrderReqItem)].map
          (fun x => x.price * x.quantity)).sum + 10 :=
  (placeOrder_cod_items_total ⟨[], [], [], [], [], [], []⟩ "u1" "o1" 0
      ⟨.array [⟨"Shirt", 500, 1, some "M", none, none⟩, ⟨"Jeans", 900, 2, none, none, none⟩],
        some 2310, none, .str "cod", .undefined⟩ (by decide) rfl
      (by intro i hi; cases hi)).1

/-- C10: after a successful order the caller owns no cart item, and for
every other user the cart items are the ones held before, in the same
order. -/
theorem placeOrder_clears_cart (db : Db) (userId newId : ObjectId) (now : Nat)
    (req : OrderRequest) (hok : (placeOrder db userId newId now req).1.status = 201) :
    (∀ c ∈ (placeOrder db userId newId now req).2.cart, c.userId ≠ userId) ∧
    (placeOrder db userId newId now req).2.cart.filter (fun c => c.userId == userId) = [] ∧
    ∀ other : ObjectId, other ≠ userId →
      (placeOrder db userId newId now req).2.cart.filter (fun c => c.userId == other) =
        db.cart.filter (fun c => c.userId == other) := by
  have hv := validateOrder_of_success db userId newId now req hok
  rw [placeOrder_valid_cart db userId newId now req hv]
  unfold deleteAll
  refine ⟨?_, ?_, ?_⟩
  · intro c hc
    simpa using (List.mem_filter.mp hc).2
  · rw [List.filter_eq_nil_iff]
    intro c hc
    simpa using (List.mem_filter.mp hc).2
  · intro other hne
    rw [List.filter_filter]
    apply List.filter_congr
    intro c _
    by_cases h : c.userId = other
    · simp [h, hne]
    · simp [h]

/-- Witness of C10: the caller `u1` holds two cart lines and `u2` one. -/
theorem placeOrder_clears_cart_witness :
    (placeOrder ⟨[], [], [], [], [],
        [⟨"c1", "u1", "Ann", "Shirt", none, 500, 1, some "M", 0, none⟩,
         ⟨"c2", "u2", "Bob", "Jeans", none, 900, 1, none, 0, none⟩,
         ⟨"c3", "u1", "Ann", "Cap", none, 100, 3, none, 0, none⟩], []⟩ "u1" "o1" 0
      ⟨.array [⟨"Shirt", 500, 1, some "M", none, none⟩], some 500, none,
        .str "card", .undefined⟩).2.cart.filter (fun c => c.userId == "u1") = [] :=
  (placeOrder_clears_cart ⟨[], [], [], [], [],
        [⟨"c1", "u1", "Ann", "Shirt", none, 500, 1, some "M", 0, none⟩,
         ⟨"c2", "u2", "Bob", "Jeans", none, 900, 1, none, 0, none⟩,
         ⟨"c3", "u1", "Ann", "Cap", none, 100, 3, none, 0, none⟩], []⟩ "u1" "o1" 0
      ⟨.array [⟨"Shirt", 500, 1, some "M", none, none⟩], some 500, none,
        .str "card", .undefined⟩ (by decide)).2.1
/-! ## Variant grouping -/

theorem updateFirst_eq_map (k : ObjectId) (f : Product → Product) (store : List Product)
    (hnd : (store.map (fun p => p._id)).Nodup) :
    updateFirst (fun p => p._id == k) f store =
      store.map (fun q => if q._id = k then f q else q) := by
  induction store with
  | nil => rfl
  | cons x xs ih =>
    rw [List.map_cons, List.nodup_cons] at hnd
    by_cases hx : x._id = k
    · have hxs : xs.map (fun q => if q._id = k then f q else q) = xs := by
        conv_rhs => rw [← List.map_id xs]
        apply List.map_congr_left
        intro q hq
        have : q._id ≠ k := by
          intro hqk
          exact hnd.1 (List.mem_map.mpr ⟨q, hq, by rw [hqk, hx]⟩)
        simp [this]
      simp [updateFirst, hx, hxs]
    · simp [updateFirst, hx, ih hnd.2]

theorem linkOthers_eq_map (now : Nat) (fetched store : List Product) (product : Product)
    (hnd : (store.map (fun p => p._id)).Nodup) :
    linkOthers now fetched store product =
      store.map (fun q => if q._id = product._id then relink now fetched q else q) := by
  unfold linkOthers
  rw [updateFirst_eq_map product._id _ store hnd]
  apply List.map_congr_left
  intro q _
  by_cases hq : q._id = product._id
  · simp [hq, relink]
  · simp [hq]

theorem foldl_linkOthers (now : Nat) (fetched : List Product) :
    ∀ (l store : List Product), (l.map (fun p => p._id)).Nodup →
      (store.map (fun p => p._id)).Nodup →
      l.foldl (linkOthers now fetched) store =
        store.map (fun q =>
          if q._id ∈ l.map (fun p => p._id) then relink now fetched q else q) := by
  intro l
  induction l with
  | nil =>
    intro store _ _
    simp
  | cons a l ih =>
    intro store hl hs
    rw [List.map_cons, List.nodup_cons] at hl
    rw [List.foldl_cons, linkOthers_eq_map now fetched store a hs]
    have hs1 : ((store.map (fun q => if q._id = a._id then relink now fetched q else q)).map
        (fun p => p._id)).Nodup := by
      have : (store.map (fun q => if q._id = a._id then relink now fetched q else q)).map
          (fun p => p._id) = store.map (fun p => p._id) := by
        rw [List.map_map]
        apply List.map_congr_left
        intro q _
        by_cases hq : q._id = a._id
        · simp [hq, relink]
        · simp [hq]
      rw [this]
      exact hs
    rw [ih _ hl.2 hs1, List.map_map]
    apply List.map_congr_left
    intro q _
    by_cases hq : q._id = a._id
    · have hn : (relink now fetched q)._id ∉ l.map (fun p => p._id) := by
        show q._id ∉ l.map (fun p => p._id)
        rw [hq]
        exact hl.1
      have hm : q._id ∈ (a :: l).map (fun p => p._id) := by
        rw [hq, List.map_cons]
        exact List.mem_cons_self _ _
      simp only [Function.comp_apply, if_pos hq, if_neg hn, if_pos hm]
    · by_cases hm : q._id ∈ l.map (fun p => p._id)
      · have hm1 : q._id ∈ (a :: l).map (fun p => p._id) := by
          rw [List.map_cons]
          exact List.mem_cons_of_mem _ hm
        simp only [Function.comp_apply, if_neg hq, if_pos hm, if_pos hm1]
      · have hm1 : q._id ∉ (a :: l).map (fun p => p._id) := by
          rw [List.map_cons, List.mem_cons]
          exact fun h => h.elim hq hm
        simp only [Function.comp_apply, if_neg hq, if_neg hm, if_neg hm1]

theorem group_fetched_perm (products : List Product) (ids : List ObjectId)
    (hnd : ids.Nodup) (hres : ∀ id ∈ ids, ∃ p ∈ products, p._id = id)
    (huniq : (products.map (fun p => p._id)).Nodup) :
    ((products.filter (fun p => ids.contains p._id)).map (fun p => p._id)).Perm ids := by
  rw [List.perm_ext_iff_of_nodup ((List.Nodup.filter _ (List.Nodup.of_map _ huniq)).map_on
    (fun x hx y hy hxy => List.inj_on_of_nodup_map huniq (List.mem_filter.mp hx).1
      (List.mem_filter.mp hy).1 hxy)) hnd]
  intro a
  constructor
  · intro ha
    obtain ⟨p, hp, rfl⟩ := List.mem_map.mp ha
    simpa using (List.mem_filter.mp hp).2
  · intro ha
    obtain ⟨p, hp, rfl⟩ := hres a ha
    exact List.mem_map.mpr ⟨p, List.mem_filter.mpr ⟨hp, by simpa using ha⟩, rfl⟩

theorem groupProducts_valid (db : Db) (now : Nat) (ids : List ObjectId)
    (hlen : 2 ≤ ids.length) (hnd : ids.Nodup)
    (hres : ∀ id ∈ ids, ∃ p ∈ db.products, p._id = id)
    (huniq : (db.products.map (fun p => p._id)).Nodup) :
    groupProducts db now (some ids) =
      (succeed 200 "Products successfully grouped and linked." none,
        { db with products := db.products.map (fun q =>
            if q._id ∈ ids then
              relink now (db.products.filter (fun p => ids.contains p._id)) q
            else q) }) := by
  have hperm := group_fetched_perm db.products ids hnd hres huniq
  have hlen2 : (db.products.filter (fun p => ids.contains p._id)).length = ids.length := by
    rw [← hperm.length_eq, List.length_map]
  have hfnd : ((db.products.filter (fun p => ids.contains p._id)).map
      (fun p => p._id)).Nodup := hperm.nodup_iff.mpr hnd
  have hfold := foldl_linkOthers now (db.products.filter (fun p => ids.contains p._id))
    (db.products.filter (fun p => ids.contains p._id)) db.products hfnd huniq
  have hmem : ∀ q : Product, q._id ∈ (db.products.filter
      (fun p => ids.contains p._id)).map (fun p => p._id) ↔ q._id ∈ ids :=
    fun q => hperm.mem_iff
  have hlt : ¬ ids.length < 2 := by omega
  simp only [groupProducts, hlt, if_false, hlen2, bne_self_eq_false, Bool.false_eq_true, hfold]
  congr 2
  apply List.map_congr_left
  intro q _
  beta_reduce
  by_cases hq : q._id ∈ ids
  · rw [if_pos hq, if_pos ((hmem q).mpr hq)]
  · rw [if_neg hq, if_neg (mt (hmem q).mp hq)]

/-- C3: grouping a list of at least two pairwise-distinct ids that all
resolve, in a store whose products have distinct `_id`s, succeeds and keeps
the products and their ids; afterwards the link ids of every listed product
are, up to order and one each, the listed ids other than its own, whatever
its links were before. -/
theorem group_links_others (db : Db) (now : Nat) (ids : List ObjectId)
    (hlen : 2 ≤ ids.length) (hnd : ids.Nodup)
    (hres : ∀ id ∈ ids, ∃ p ∈ db.products, p._id = id)
    (huniq : (db.products.map (fun p => p._id)).Nodup) :
    (groupProducts db now (some ids)).1.status = 200 ∧
    (groupProducts db now (some ids)).2.products.map (fun p => p._id) =
      db.products.map (fun p => p._id) ∧
    ∀ p ∈ (groupProducts db now (some ids)).2.products, p._id ∈ ids →
      (p.colors.map (fun c => c.id)).Perm (ids.filter (fun i => i != p._id)) := by
  rw [groupProducts_valid db now ids hlen hnd hres huniq]
  refine ⟨rfl, ?_, ?_⟩
  · show (db.products.map _).map _ = _
    rw [List.map_map]
    apply List.map_congr_left
    intro q _
    by_cases hq : q._id ∈ ids
    · simp [hq, relink]
    · simp [hq]
  · intro p hp hpid
    obtain ⟨q, _, hqp⟩ := List.mem_map.mp hp
    by_cases hq : q._id ∈ ids
    · rw [if_pos hq] at hqp
      subst hqp
      have hperm := group_fetched_perm db.products ids hnd hres huniq
      have h1 : ((relink now (db.products.filter (fun p => ids.contains p._id)) q).colors.map
          (fun c => c.id)) =
          ((db.products.filter (fun p => ids.contains p._id)).map (fun p => p._id)).filter
            (fun i => i != q._id) := by
        simp only [relink, List.map_map, List.filter_map]
        rfl
      rw [h1]
      exact hperm.filter _
    · rw [if_neg hq] at hqp
      subst hqp
      exact absurd hpid hq

/-- Witness of C3: grouping `A`, `B`, `C` in the store that holds the three
succeeds, and `A` ends with one link to each of `B` and `C`. -/
theorem group_links_others_witness :
    (groupProducts storeABC 7 (some ["A", "B", "C"])).1.status = 200 ∧
    ((relink 7 storeABC.products (sampleProduct "A" "A" [])).colors.map
      (fun c => c.id)).Perm (["A", "B", "C"].filter (fun i => i != "A")) :=
  ⟨(group_links_others storeABC 7 ["A", "B", "C"] (by decide) (by decide) (by decide)
      (by decide)).1,
   (group_links_others storeABC 7 ["A", "B", "C"] (by decide) (by decide) (by decide)
      (by decide)).2.2 (relink 7 storeABC.products (sampleProduct "A" "A" []))
      (by decide) (by decide)⟩

theorem ungroupProducts_parsed (db : Db) (now : Nat) (ids : List String)
    (objectIds : List ObjectId) (hne : ids ≠ [])
    (hparse : parseObjectIds ids = some objectIds) :
    ungroupProducts db now (some ids) =
      (succeed 200 "Products successfully ungrouped." none,
        { db with products := db.products.map (fun p =>
            if p._id ∈ objectIds then { p with colors := [], updatedAt := some now }
            else { p with
              colors := p.colors.filter (fun c => !(ids.contains c.id))
              updatedAt := some now }) }) := by
  have hl : ¬ ids.length = 0 := by
    intro h
    exact hne (List.length_eq_zero.mp h)
  simp only [ungroupProducts, hl, if_false, hparse, updateAll, List.map_map]
  congr 2
  apply List.map_congr_left
  intro p _
  by_cases hp : p._id ∈ objectIds
  · simp [hp]
  · simp [hp]

theorem ungroupProducts_valid (db : Db) (now : Nat) (ids : List String) (hne : ids ≠ [])
    (hcanon : ∀ id ∈ ids, parseObjectId id = some id) :
    ungroupProducts db now (some ids) =
      (succeed 200 "Products successfully ungrouped." none,
        { db with products := db.products.map (fun p =>
            if p._id ∈ ids then { p with colors := [], updatedAt := some now }
            else { p with
              colors := p.colors.filter (fun c => !(ids.contains c.id))
              updatedAt := some now }) }) :=
  ungroupProducts_parsed db now ids ids hne (parseObjectIds_of_canonical ids hcanon)

theorem ungroupProducts_throws (db : Db) (now : Nat) (ids : List String) (hne : ids ≠ [])
    (hbad : ∃ id ∈ ids, parseObjectId id = none) :
    ungroupProducts db now (some ids) =
      (fail 500 ("Failed to ungroup products: " ++ objectIdError), db) := by
  have hl : ¬ ids.length = 0 := by
    intro h
    exact hne (List.length_eq_zero.mp h)
  simp only [ungroupProducts, hl, if_false, parseObjectIds_eq_none ids hbad]

/-- C4, as corrected: ungrouping a non-empty list of ids written as 24
hexadecimal digits in lower case succeeds in every store and relates the
products before and after one to one, in order: a product whose id is listed
ends with an empty `colors` list, and every other product keeps its `colors`
entries whose linked id is not listed, in their order, and loses exactly the
others.  A non-empty list with an entry that is not 24 hexadecimal digits is
answered with status 500 and changes nothing. -/
theorem ungroup_unlinks_targets (db : Db) (now : Nat) (ids : List String)
    (hne : ids ≠ []) :
    ((∀ id ∈ ids, parseObjectId id = some id) →
      (ungroupProducts db now (some ids)).1.status = 200 ∧
      List.Forall₂ (UngroupedFrom ids) db.products
        (ungroupProducts db now (some ids)).2.products) ∧
    ((∃ id ∈ ids, parseObjectId id = none) →
      (ungroupProducts db now (some ids)).1.status = 500 ∧
      (ungroupProducts db now (some ids)).2 = db) := by
  constructor
  · intro hcanon
    rw [ungroupProducts_valid db now ids hne hcanon]
    refine ⟨rfl, ?_⟩
    show List.Forall₂ _ db.products (db.products.map _)
    rw [List.forall₂_map_right_iff, List.forall₂_same]
    intro p _
    by_cases hp : p._id ∈ ids
    · rw [if_pos hp]
      exact ⟨rfl, fun _ => rfl, fun h => absurd hp h⟩
    · rw [if_neg hp]
      exact ⟨rfl, fun h => absurd h hp, fun _ => rfl⟩
  · intro hbad
    rw [ungroupProducts_throws db now ids hne hbad]
    exact ⟨rfl, rfl⟩

/-- Witness of C4: `A`, `B`, `C` are grouped, then `B` is ungrouped; `A` is
left with the link to `C`, `C` with the link to `A`, and `B` with none.  The
same request with the further entry `not-an-id` is answered with 500. -/
theorem ungroup_unlinks_targets_witness :
    (List.Forall₂ (UngroupedFrom [idB]) storeGroupedABC.products
        (ungroupProducts storeGroupedABC 8 (some [idB])).2.products ∧
      (ungroupProducts storeGroupedABC 8 (some [idB])).2.products.map
          (fun p => (p._id, p.colors.map (fun c => c.id))) =
        [(idA, [idC]), (idB, []), (idC, [idA])]) ∧
    (ungroupProducts storeGroupedABC 8 (some [idB, "not-an-id"])).1.status = 500 :=
  ⟨⟨((ungroup_unlinks_targets storeGroupedABC 8 [idB] (by decide)).1 (by decide)).2,
      by decide⟩,
    ((ungroup_unlinks_targets storeGroupedABC 8 [idB, "not-an-id"] (by decide)).2
      ⟨"not-an-id", by decide, by decide⟩).1⟩

/-- Counterexample to C4 as stated: in the store where `A`, `B` and `C` are
grouped, the ungroup request for the id of `B` and the text `not-an-id` is
answered with status 500 and changes nothing, so the target `B`, whose id is
in the list and resolves, keeps its two links. -/
theorem ungroup_malformed_entry_clears_nothing :
    (ungroupProducts storeGroupedABC 8 (some [idB, "not-an-id"])).1.status = 500 ∧
    (ungroupProducts storeGroupedABC 8 (some [idB, "not-an-id"])).2 = storeGroupedABC ∧
    (storeGroupedABC.products.filter (fun p => p._id == idB)).map
        (fun p => p.colors.map (fun c => c.id)) = [[idA, idC]] := by
  decide

/-- The same id in upper case: the clearing update finds the target `B`
through its `ObjectId` and empties its links, while the `$pull` compares the
stored link ids with the request text and removes nothing, so `A` and `C`
keep their links to `B`. -/
theorem ungroup_uppercase_keeps_links :
    (ungroupProducts storeGroupedABC 8 (some [idBUpper])).1.status = 200 ∧
    (ungroupProducts storeGroupedABC 8 (some [idBUpper])).2.products.map
        (fun p => (p._id, p.colors.map (fun c => c.id))) =
      [(idA, [idB, idC]), (idB, []), (idC, [idA, idB])] := by
  decide

/-- Ungroup keeps the link relation symmetric when the ids are written in
lower case. -/
theorem ungroup_preserves_symmetry (db : Db) (now : Nat) (ids : List String)
    (hne : ids ≠ []) (hcanon : ∀ id ∈ ids, parseObjectId id = some id)
    (hsym : symmetricLinks db.products = true) :
    symmetricLinks (ungroupProducts db now (some ids)).2.products = true := by
  rw [ungroupProducts_valid db now ids hne hcanon]
  simp only [symmetricLinks, linksTo, List.all_eq_true, List.any_eq_true, Bool.or_eq_true,
    Bool.not_eq_true', beq_iff_eq] at hsym ⊢
  intro a' ha' b' hb'
  obtain ⟨a, ha, rfl⟩ := List.mem_map.mp ha'
  obtain ⟨b, hb, rfl⟩ := List.mem_map.mp hb'
  by_cases hlink : ∃ c ∈ (if a._id ∈ ids then { a with colors := [], updatedAt := some now }
      else { a with
        colors := a.colors.filter (fun c => !(ids.contains c.id))
        updatedAt := some now }).colors,
      c.id = (if b._id ∈ ids then { b with colors := [], updatedAt := some now }
        else { b with
          colors := b.colors.filter (fun c => !(ids.contains c.id))
          updatedAt := some now })._id
  · right
    obtain ⟨c, hc, hcb⟩ := hlink
    have hbid : (if b._id ∈ ids then { b with colors := [], updatedAt := some now }
        else { b with
          colors := b.colors.filter (fun c => !(ids.contains c.id))
          updatedAt := some now })._id = b._id := by
      by_cases h : b._id ∈ ids
      · rw [if_pos h]
      · rw [if_neg h]
    have haid : (if a._id ∈ ids then { a with colors := [], updatedAt := some now }
        else { a with
          colors := a.colors.filter (fun c => !(ids.contains c.id))
          updatedAt := some now })._id = a._id := by
      by_cases h : a._id ∈ ids
      · rw [if_pos h]
      · rw [if_neg h]
    rw [hbid] at hcb
    rw [haid]
    by_cases hat : a._id ∈ ids
    · rw [if_pos hat] at hc
      cases hc
    · rw [if_neg hat] at hc
      have hc' := List.mem_filter.mp hc
      have hcid : c.id ∉ ids := by simpa using hc'.2
      have hbt : b._id ∉ ids := by rw [← hcb]; exact hcid
      rw [if_neg hbt]
      rcases hsym a ha b hb with h | h
      · have hno : ∀ x ∈ a.colors, ¬ x.id = b._id := by simpa using h
        exact absurd hcb (hno c hc'.1)
      · obtain ⟨c2, hc2, hc2a⟩ := h
        refine ⟨c2, List.mem_filter.mpr ⟨hc2, ?_⟩, hc2a⟩
        rw [← hc2a] at hat
        simpa using hat
  · left
    rw [Bool.eq_false_iff]
    intro h
    exact hlink (by simpa using h)

/-- C5 (failing input): in a store where `A` and `X` link to each other and
`B` is unlinked, the link relation is symmetric; grouping `A` with `B`
succeeds and leaves it asymmetric, since `X` still links to `A` while `A`
links to `B` only. -/
theorem group_breaks_symmetry :
    symmetricLinks storeAXB.products = true ∧
    (groupProducts storeAXB 7 (some ["A", "B"])).1.status = 200 ∧
    (groupProducts storeAXB 7 (some ["A", "B"])).2.products.map
        (fun p => (p._id, p.colors.map (fun c => c.id))) =
      [("A", ["B"]), ("X", ["A"]), ("B", ["A"])] ∧
    symmetricLinks (groupProducts storeAXB 7 (some ["A", "B"])).2.products = false := by
  decide
/-! ## Cart -/

theorem find?_of_filter_nil {α : Type} (p : α → Bool) (l : List α) (h : l.filter p = []) :
    l.find? p = none := by
  rw [List.find?_eq_none]
  intro x hx hpx
  have : x ∈ l.filter p := List.mem_filter.mpr ⟨hx, hpx⟩
  rw [h] at this
  cases this

theorem find?_of_filter_cons {α : Type} (p : α → Bool) (l : List α) (x : α) (xs : List α)
    (h : l.filter p = x :: xs) : l.find? p = some x := by
  induction l with
  | nil => cases h
  | cons y ys ih =>
    by_cases hy : p y = true
    · rw [List.filter_cons_of_pos hy] at h
      rw [List.find?_cons_of_pos _ hy]
      exact congrArg some (List.cons.inj h).1
    · rw [List.filter_cons_of_neg hy] at h
      rw [List.find?_cons_of_neg _ hy]
      exact ih h

theorem filter_updateFirst {α : Type} (p : α → Bool) (f : α → α) (l : List α) (x : α)
    (xs : List α) (hf : ∀ a, p a = true → p (f a) = true) (h : l.filter p = x :: xs) :
    (updateFirst p f l).filter p = f x :: xs := by
  induction l with
  | nil => cases h
  | cons y ys ih =>
    by_cases hy : p y = true
    · rw [List.filter_cons_of_pos hy] at h
      obtain ⟨rfl, rfl⟩ := List.cons.inj h
      simp only [updateFirst, hy, if_true]
      rw [List.filter_cons_of_pos (hf y hy)]
    · rw [List.filter_cons_of_neg hy] at h
      simp only [updateFirst, hy]
      rw [if_neg (by simp), List.filter_cons_of_neg hy]
      exact ih h

theorem matchesCartQuery_bumpLine (userId : ObjectId) (name : String) (size : Option String)
    (username : String) (now : Nat) (c : CartItem)
    (h : matchesCartQuery userId name size c = true) :
    matchesCartQuery userId name size (bumpLine username now c) = true := h

theorem addToCart_users (db : Db) (userId newId : ObjectId) (now : Nat) (req : CartAddRequest) :
    (addToCart db userId newId now req).2.users = db.users := by
  unfold addToCart
  cases db.users.find? (fun u => u._id == userId) with
  | none => rfl
  | some user =>
    simp only
    cases db.cart.find? (matchesCartQuery userId req.productName req.size) with
    | none => rfl
    | some _ => rfl

theorem addToCart_new_line (db : Db) (userId newId : ObjectId) (now : Nat)
    (req : CartAddRequest) (user : User)
    (huser : db.users.find? (fun u => u._id == userId) = some user)
    (hnone : db.cart.filter (matchesCartQuery userId req.productName req.size) = []) :
    ∃ line : CartItem, line.quantity = req.quantity.getD 1 ∧
      (addToCart db userId newId now req).2.cart.filter
        (matchesCartQuery userId req.productName req.size) = [line] := by
  have hfind := find?_of_filter_nil _ _ hnone
  simp only [addToCart, huser, hfind]
  refine ⟨{ _id := newId, userId := userId, username := displayName user
            productName := req.productName, productId := req.productId, price := req.price
            quantity := req.quantity.getD 1, size := orNull req.size, createdAt := now
            updatedAt := none }, rfl, ?_⟩
  rw [List.filter_append, hnone, List.nil_append]
  rw [List.filter_cons_of_pos, List.filter_nil]
  simp only [matchesCartQuery, beq_self_eq_true, Bool.true_and]
  by_cases hs : truthyStr req.size = true
  · simp [hs, orNull]
  · simp [hs]

theorem addToCart_existing_line (db : Db) (userId newId : ObjectId) (now : Nat)
    (req : CartAddRequest) (user : User) (line : CartItem) (others : List CartItem)
    (huser : db.users.find? (fun u => u._id == userId) = some user)
    (hline : db.cart.filter (matchesCartQuery userId req.productName req.size) =
      line :: others) :
    ∃ line2 : CartItem, line2.quantity = line.quantity + 1 ∧
      (addToCart db userId newId now req).2.cart.filter
        (matchesCartQuery userId req.productName req.size) = line2 :: others := by
  have hfind := find?_of_filter_cons _ _ _ _ hline
  simp only [addToCart, huser, hfind]
  refine ⟨bumpLine (displayName user) now line, rfl, ?_⟩
  exact filter_updateFirst _ _ _ _ _
    (fun a ha => matchesCartQuery_bumpLine userId req.productName req.size _ now a ha) hline

theorem addToCartRepeated_existing (userId : ObjectId) (name : String) (size : Option String)
    (user : User) (calls : List AddCall) :
    ∀ (db : Db) (line : CartItem),
      db.users.find? (fun u => u._id == userId) = some user →
      db.cart.filter (matchesCartQuery userId name size) = [line] →
      ∃ line2 : CartItem, line2.quantity = line.quantity + calls.length ∧
        (addToCartRepeated db userId name size calls).cart.filter
          (matchesCartQuery userId name size) = [line2] := by
  induction calls with
  | nil =>
    intro db line _ hline
    exact ⟨line, by simp, hline⟩
  | cons c cs ih =>
    intro db line huser hline
    obtain ⟨l1, hq1, hl1⟩ := addToCart_existing_line db userId c.newId c.now
      { productName := name, productId := c.productId, price := c.price
        quantity := c.quantity, size := size } user line [] huser hline
    have hu1 : (addToCart db userId c.newId c.now
        { productName := name, productId := c.productId, price := c.price
          quantity := c.quantity, size := size }).2.users.find?
          (fun u => u._id == userId) = some user := by
      rw [addToCart_users]
      exact huser
    obtain ⟨l2, hq2, hl2⟩ := ih _ l1 hu1 hl1
    refine ⟨l2, ?_, hl2⟩
    rw [hq2, hq1, List.length_cons]
    push_cast
    ring

/-- C6 (amended): after `N` add-to-cart calls by an existing user for one
product name and size, starting from a cart in which no line matches, exactly
one line matches and its quantity is the quantity the first call asked for
(1 when it carried none) plus `N - 1`; that is `N` when the first call asked
for 1 or for nothing. -/
theorem addToCart_repeated_quantity (db : Db) (userId : ObjectId) (name : String)
    (size : Option String) (first : AddCall) (rest : List AddCall)
    (huser : (db.users.find? (fun u => u._id == userId)).isSome = true)
    (hnone : db.cart.filter (matchesCartQuery userId name size) = []) :
    ∃ line : CartItem,
      (addToCartRepeated db userId name size (first :: rest)).cart.filter
        (matchesCartQuery userId name size) = [line] ∧
      line.quantity = first.quantity.getD 1 + rest.length ∧
      (first.quantity = none ∨ first.quantity = some 1 →
        line.quantity = (first :: rest).length) := by
  obtain ⟨user, huser⟩ := Option.isSome_iff_exists.mp huser
  obtain ⟨l1, hq1, hl1⟩ := addToCart_new_line db userId first.newId first.now
    { productName := name, productId := first.productId, price := first.price
      quantity := first.quantity, size := size } user huser hnone
  have hu1 : (addToCart db userId first.newId first.now
      { productName := name, productId := first.productId, price := first.price
        quantity := first.quantity, size := size }).2.users.find?
        (fun u => u._id == userId) = some user := by
    rw [addToCart_users]
    exact huser
  obtain ⟨l2, hq2, hl2⟩ := addToCartRepeated_existing userId name size user rest _ l1 hu1 hl1
  refine ⟨l2, hl2, ?_, ?_⟩
  · rw [hq2, hq1]
  · intro h
    rw [hq2, hq1, List.length_cons]
    rcases h with h | h
    · rw [h]
      simp only [Option.getD_none]
      push_cast
      ring
    · rw [h]
      simp only [Option.getD_some]
      push_cast
      ring

/-- Witness of C6 (amended): three calls that ask for 1, 4 and nothing. -/
theorem addToCart_repeated_quantity_witness :
    ∃ line : CartItem,
      (addToCartRepeated storeShop "u1" "Shirt" (some "M")
        [⟨"c1", 1, some "p1", 500, some 1⟩, ⟨"c2", 2, some "p1", 500, some 4⟩,
          ⟨"c3", 3, some "p1", 500, none⟩]).cart.filter
        (matchesCartQuery "u1" "Shirt" (some "M")) = [line] ∧
      line.quantity = 3 :=
  match addToCart_repeated_quantity storeShop "u1" "Shirt" (some "M")
      ⟨"c1", 1, some "p1", 500, some 1⟩
      [⟨"c2", 2, some "p1", 500, some 4⟩, ⟨"c3", 3, some "p1", 500, none⟩]
      (by decide) (by decide) with
  | ⟨line, h1, _, h3⟩ => ⟨line, h1, h3 (Or.inr rfl)⟩

/-- C6 (counterexample): one valid add-to-cart call (`N = 1`) that asks for
quantity 5, made on an empty cart, leaves a line of quantity 5, not 1. -/
theorem addToCart_single_call_quantity_five :
    ((addToCartRepeated storeShop "u1" "Shirt" (some "M")
        [⟨"c1", 1, some "p1", 500, some 5⟩]).cart.filter
        (matchesCartQuery "u1" "Shirt" (some "M"))).map (fun c => c.quantity) = [5] ∧
    ¬ ∀ line ∈ (addToCartRepeated storeShop "u1" "Shirt" (some "M")
        [⟨"c1", 1, some "p1", 500, some 5⟩]).cart.filter
        (matchesCartQuery "u1" "Shirt" (some "M")),
      line.quantity = ([⟨"c1", 1, some "p1", 500, some 5⟩] : List AddCall).length := by
  decide
theorem map_cartKey_updateFirst (p : CartItem → Bool) (f : CartItem → CartItem)
    (hf : ∀ a, cartKey (f a) = cartKey a) (l : List CartItem) :
    (updateFirst p f l).map cartKey = l.map cartKey := by
  induction l with
  | nil => rfl
  | cons x xs ih =>
    by_cases hx : p x = true
    · simp [updateFirst, hx, hf]
    · simp [updateFirst, hx, ih]

theorem cartUnique_updateFirst (p : CartItem → Bool) (f : CartItem → CartItem)
    (l : List CartItem) (h : CartUnique l) (hf : ∀ a, cartKey (f a) = cartKey a) :
    CartUnique (updateFirst p f l) := by
  unfold CartUnique
  rw [map_cartKey_updateFirst p f hf l]
  exact h

theorem deleteFirst_sublist {α : Type} (p : α → Bool) (l : List α) :
    (deleteFirst p l).Sublist l := by
  induction l with
  | nil => exact List.Sublist.refl _
  | cons x xs ih =>
    by_cases hx : p x = true
    · simp only [deleteFirst, hx, if_true]
      exact List.sublist_cons_self x xs
    · simp only [deleteFirst, hx]
      rw [if_neg (by simp)]
      exact ih.cons₂ x

theorem cartUnique_of_sublist (l1 l2 : List CartItem) (hs : l1.Sublist l2)
    (h : CartUnique l2) : CartUnique l1 :=
  List.Nodup.sublist (hs.map cartKey) h

theorem cartUnique_addToCart (db : Db) (userId newId : ObjectId) (now : Nat)
    (req : CartAddRequest) (h : CartUnique db.cart) :
    CartUnique (addToCart db userId newId now req).2.cart := by
  unfold addToCart
  cases db.users.find? (fun u => u._id == userId) with
  | none => exact h
  | some user =>
    simp only
    cases hfind : db.cart.find? (matchesCartQuery userId req.productName req.size) with
    | some _ =>
      exact cartUnique_updateFirst _ _ _ h (fun _ => rfl)
    | none =>
      show (List.map cartKey (db.cart ++ [_])).Nodup
      rw [List.map_append, List.nodup_append_comm, List.map_cons, List.map_nil,
        List.singleton_append, List.nodup_cons]
      refine ⟨?_, h⟩
      intro hmem
      obtain ⟨x, hx, hkey⟩ := List.mem_map.mp hmem
      have hq := List.find?_eq_none.mp hfind x hx
      apply hq
      simp only [cartKey, Prod.mk.injEq] at hkey
      obtain ⟨h1, h2, h3⟩ := hkey
      simp only [matchesCartQuery, h1, h2, beq_self_eq_true, Bool.true_and]
      by_cases hs : truthyStr req.size = true
      · simp only [hs, if_true]
        rw [h3]
        simp [orNull, hs]
      · simp [hs]

theorem cartUnique_updateCartQuantity (db : Db) (userId itemId : ObjectId) (now : Nat)
    (quantity : Option Int) (h : CartUnique db.cart) :
    CartUnique (updateCartQuantity db userId itemId now quantity).2.cart := by
  unfold updateCartQuantity
  cases quantity with
  | none => exact h
  | some q =>
    simp only
    by_cases hq : (q = 0 || q < 1) = true
    · rw [if_pos hq]
      exact h
    · rw [if_neg hq]
      cases db.cart.find? (fun c => c._id == itemId && c.userId == userId) with
      | none => exact h
      | some cartItem =>
        simp only
        cases stockCheck db cartItem q with
        | throws => exact h
        | refused msg => exact h
        | passed =>
          exact cartUnique_updateFirst _ _ _ h (fun _ => rfl)

theorem cartUnique_removeFromCart (db : Db) (userId itemId : ObjectId)
    (h : CartUnique db.cart) : CartUnique (removeFromCart db userId itemId).2.cart := by
  unfold removeFromCart
  cases db.cart.find? (fun c => c._id == itemId && c.userId == userId) with
  | none => exact h
  | some _ => exact cartUnique_of_sublist _ _ (deleteFirst_sublist _ _) h

theorem cartUnique_placeOrder (db : Db) (userId newId : ObjectId) (now : Nat)
    (req : OrderRequest) (h : CartUnique db.cart) :
    CartUnique (placeOrder db userId newId now req).2.cart := by
  cases hv : validateOrder req with
  | some msg =>
    rw [placeOrder_invalid db userId newId now req msg hv]
    exact h
  | none =>
    rw [placeOrder_valid_cart db userId newId now req hv]
    exact cartUnique_of_sublist _ _ (List.filter_sublist _) h

/-- C7: if the cart holds at most one line per owner, product name and
stored size, it still does after an add-to-cart, update-quantity, remove,
clear-cart or place-order call, whatever the call carries and whether it
succeeds or not. -/
theorem cart_unique_preserved (db : Db) (userId : ObjectId) (call : CartCall)
    (h : CartUnique db.cart) : CartUnique (runCartCall db userId call).2.cart := by
  cases call with
  | add newId now req => exact cartUnique_addToCart db userId newId now req h
  | setQuantity itemId now quantity =>
    exact cartUnique_updateCartQuantity db userId itemId now quantity h
  | remove itemId => exact cartUnique_removeFromCart db userId itemId h
  | clear => exact cartUnique_of_sublist _ _ (List.filter_sublist _) h
  | order newId now req => exact cartUnique_placeOrder db userId newId now req h

/-- Witness of C7: an add-to-cart call without a size, made on a cart that
holds a line of size `M` for the same product name. -/
theorem cart_unique_preserved_witness :
    CartUnique (runCartCall storeOversold "u1"
      (.add "c2" 5 ⟨"Shirt", some "p1", 500, some 2, none⟩)).2.cart :=
  cart_unique_preserved storeOversold "u1"
    (.add "c2" 5 ⟨"Shirt", some "p1", 500, some 2, none⟩) (by decide)

/-- C8, as corrected: for a cart line of the caller that has a size and
whose product resolves with a size map.  When the size is a key of the map,
or is not the name of a member every object inherits, a quantity above the
product's entry for that size (0 when the key is absent) is answered with
status 400 and the store is left as it was; the answer is the stock error
when the quantity is at least 1 and the error `Valid quantity is required`
when it is below 1.  When the size is no key of the map and is the name of an
inherited member, such as `constructor`, every quantity of at least 1 is
answered with status 200 and stored. -/
theorem updateCartQuantity_exceeding_stock (db : Db) (userId itemId : ObjectId) (now : Nat)
    (q : Int) (cartItem : CartItem) (oid : ObjectId) (product : Product)
    (m : List (String × Int))
    (hitem : db.cart.find? (fun c => c._id == itemId && c.userId == userId) = some cartItem)
    (hsize : truthyStr cartItem.size = true)
    (hpid : truthyStr cartItem.productId = true)
    (hparse : parseObjectId (cartItem.productId.getD "") = some oid)
    (hprod : db.products.find? (fun p => p._id == oid) = some product)
    (hmap : product.sizes = some m) :
    (((lookupKey (cartItem.size.getD "") m).isSome = true ∨
        inheritedKeys.contains (cartItem.size.getD "") = false) →
      q > (lookupKey (cartItem.size.getD "") m).getD 0 →
      (updateCartQuantity db userId itemId now (some q)).1.status = 400 ∧
      (updateCartQuantity db userId itemId now (some q)).2 = db ∧
      (1 ≤ q → (updateCartQuantity db userId itemId now (some q)).1 =
        fail 400 ("Only " ++ toString ((lookupKey (cartItem.size.getD "") m).getD 0) ++
          " items available for this size")) ∧
      (q < 1 → (updateCartQuantity db userId itemId now (some q)).1 =
        fail 400 "Valid quantity is required")) ∧
    (lookupKey (cartItem.size.getD "") m = none →
      inheritedKeys.contains (cartItem.size.getD "") = true → 1 ≤ q →
      updateCartQuantity db userId itemId now (some q) =
        (succeed 200 "Cart updated successfully" none,
          { db with
            cart := updateFirst (fun c => c._id == itemId && c.userId == userId)
              (fun c => { c with quantity := q, updatedAt := some now }) db.cart })) := by
  constructor
  · intro hkey hq
    have hav : availableStock cartItem product =
        some ((lookupKey (cartItem.size.getD "") m).getD 0) := by
      cases hl : lookupKey (cartItem.size.getD "") m with
      | some v => simp [availableStock, hmap, hsize, hl]
      | none =>
        rw [hl] at hkey
        rcases hkey with hk | hk
        · cases hk
        · simp only [availableStock, hmap, hsize, if_true, hl, hk, Bool.false_eq_true,
            if_false, Option.getD_none]
    have hse : stockCheck db cartItem q =
        .refused ("Only " ++ toString ((lookupKey (cartItem.size.getD "") m).getD 0) ++
          " items available for this size") := by
      simp only [stockCheck, hpid, if_true, hparse, hprod, hav]
      rw [if_pos hq]
    by_cases h1 : q < 1
    · have hg : (q = 0 || q < 1) = true := by simp [h1]
      have hres : updateCartQuantity db userId itemId now (some q) =
          (fail 400 "Valid quantity is required", db) := by
        simp only [updateCartQuantity, hg, if_true]
      rw [hres]
      exact ⟨rfl, rfl, fun h => absurd h1 (by omega), fun _ => rfl⟩
    · have hg : ¬ (q = 0 || q < 1) = true := by
        simp only [Bool.or_eq_true, decide_eq_true_eq, not_or]
        constructor <;> omega
      have hres : updateCartQuantity db userId itemId now (some q) =
          (fail 400 ("Only " ++ toString ((lookupKey (cartItem.size.getD "") m).getD 0) ++
            " items available for this size"), db) := by
        simp only [updateCartQuantity, hg, hitem, hse, Bool.false_eq_true, if_false]
      rw [hres]
      exact ⟨rfl, rfl, fun _ => rfl, fun h => absurd h h1⟩
  · intro hl hk h1
    have hav : availableStock cartItem product = none := by
      simp only [availableStock, hmap, hsize, if_true, hl, hk]
    have hse : stockCheck db cartItem q = .passed := by
      simp only [stockCheck, hpid, if_true, hparse, hprod, hav]
    have hg : ¬ (q = 0 || q < 1) = true := by
      simp only [Bool.or_eq_true, decide_eq_true_eq, not_or]
      constructor <;> omega
    simp only [updateCartQuantity, hg, hitem, hse, Bool.false_eq_true, if_false]

/-- Witness of C8: quantity 3 is asked for a line of size `M` whose product
has `-1` in stock for `M`, and for a line of size `constructor`, which the
size map of its product does not hold. -/
theorem updateCartQuantity_exceeding_stock_witness :
    ((updateCartQuantity storeCartStock idU idL 9 (some 3)).1 =
        fail 400 "Only -1 items available for this size" ∧
      (updateCartQuantity storeCartStock idU idL 9 (some 3)).2 = storeCartStock) ∧
    (updateCartQuantity storeCartStock idU idL2 9 (some 3)).1.status = 200 ∧
    ((updateCartQuantity storeCartStock idU idL2 9 (some 3)).2.cart.map
      (fun c => (c._id, c.quantity))) = [(idL, 1), (idL2, 3)] :=
  have h := (updateCartQuantity_exceeding_stock storeCartStock idU idL 9 3
    (cartLine idL "M") idA { sampleProduct idA "Shirt" [] with sizes := some [("M", -1)] }
    [("M", -1)] (by decide) (by decide) (by decide) (by decide) (by decide) rfl).1
    (by decide) (by decide)
  have h2 := (updateCartQuantity_exceeding_stock storeCartStock idU idL2 9 3
    (cartLine idL2 "constructor") idA
    { sampleProduct idA "Shirt" [] with sizes := some [("M", -1)] }
    [("M", -1)] (by decide) (by decide) (by decide) (by decide) (by decide) rfl).2
    (by decide) (by decide) (by decide)
  ⟨⟨h.2.2.1 (by decide), h.2.1⟩, by rw [h2]; rfl, by rw [h2]; decide⟩

/-- Counterexample to C8 as stated: the caller's line of size `M` belongs to
a product whose size map has `-1` for `M`; the quantity 0 exceeds that stock,
and the answer is status 400 with the error `Valid quantity is required`,
which is not the stock error.  The caller's line of size `constructor`
belongs to the same product, whose size map has no such key; the quantity 3
exceeds the quantity 0 of an absent key, and the answer is status 200 with
the quantity stored. -/
theorem updateCartQuantity_zero_not_stock_error :
    ((0 : Int) > (lookupKey "M" [("M", -1)]).getD 0 ∧
      (updateCartQuantity storeCartStock idU idL 9 (some 0)).1 =
        fail 400 "Valid quantity is required" ∧
      (updateCartQuantity storeCartStock idU idL 9 (some 0)).1 ≠
        fail 400 "Only -1 items available for this size") ∧
    ((3 : Int) > (lookupKey "constructor" [("M", -1)]).getD 0 ∧
      (updateCartQuantity storeCartStock idU idL2 9 (some 3)).1.status = 200 ∧
      ((updateCartQuantity storeCartStock idU idL2 9 (some 3)).2.cart.map
        (fun c => (c._id, c.quantity))) = [(idL, 1), (idL2, 3)]) := by
  decide

/-! ## Place order: validation and stock -/

theorem utrError_none_of_match (v : JsVal) (h : matchesUtrPattern v = true) :
    utrError v = none := by
  cases v with
  | str s =>
    simp only [matchesUtrPattern, Bool.and_eq_true, beq_iff_eq] at h
    obtain ⟨hlen, hdig⟩ := h
    have hne : s.data ≠ [] := by
      intro hnil
      have : s.length = 0 := by
        show s.data.length = 0
        rw [hnil]
        rfl
      omega
    have hs : s ≠ "" := by
      intro h0
      rw [h0] at hne
      exact hne rfl
    have hj : jsLength s = 12 := by
      unfold jsLength
      rw [jsLength_of_digits s.data hdig]
      exact hlen
    have ht : testDigits s = true := by
      simp [testDigits, hdig, hne]
    simp [utrError, JsVal.truthy, hs, hj, ht]
  | undefined => simp [matchesUtrPattern] at h
  | null => simp [matchesUtrPattern] at h
  | bool b => simp [matchesUtrPattern] at h
  | num n => simp [matchesUtrPattern] at h
  | object => simp [matchesUtrPattern] at h
  | array t => simp [matchesUtrPattern] at h

theorem isMissing_eq_not_truthy (v : JsVal) : v.isMissing = !v.truthy := by
  cases v <;> simp [JsVal.isMissing, JsVal.truthy, bne]

theorem validateOrder_isSome_iff (req : OrderRequest) :
    (validateOrder req).isSome = true ↔ OrderRequestRejected req := by
  unfold OrderRequestRejected validateOrder
  cases hi : req.items with
  | missing => simp
  | notArray => simp
  | array xs =>
    cases xs with
    | nil => simp
    | cons x xs =>
      cases ht : req.totalAmount with
      | none => simp
      | some t =>
        by_cases hz : t ≤ 0
        · have hg : (t = 0 || t ≤ 0) = true := by simp [hz]
          simp [hg, hz]
        · have hg : ¬ (t = 0 || t ≤ 0) = true := by
            simp only [Bool.or_eq_true, decide_eq_true_eq, not_or]
            constructor <;> omega
          have ht0 : ¬ t = 0 := by omega
          by_cases hm : req.paymentMethod.truthy = true
          · have hmiss : req.paymentMethod.isMissing = false := by
              rw [isMissing_eq_not_truthy, hm]
              rfl
            by_cases hu : req.paymentMethod = .str "upi"
            · by_cases hp : matchesUtrPattern req.utrNumber = true
              · have := utrError_none_of_match _ hp
                simp [ht0, hz, hu, hp, this, JsVal.truthy, JsVal.isMissing]
              · have hp2 : matchesUtrPattern req.utrNumber = false := by simpa using hp
                have := utrError_isSome _ hp2
                simp [ht0, hz, hu, hp2, this, JsVal.truthy, JsVal.isMissing]
            · simp [ht0, hz, hm, hmiss, hu]
          · have hmiss : req.paymentMethod.isMissing = true := by
              rw [isMissing_eq_not_truthy]
              simpa using hm
            simp [ht0, hz, hm, hmiss]

theorem validateOrder_shippingAddressId (req : OrderRequest) (id : Option ObjectId) :
    validateOrder { req with shippingAddressId := id } = validateOrder req := rfl

theorem placeOrderRequest_invalid (db : Db) (userIdText : String) (newId : ObjectId)
    (now : Nat) (req : OrderRequest) (msg : String) (h : validateOrder req = some msg) :
    placeOrderRequest db userIdText newId now req = (fail 400 msg, db) := by
  simp only [placeOrderRequest, h]

theorem placeOrderRequest_valid (db : Db) (userIdText : String) (userId newId : ObjectId)
    (now : Nat) (req : OrderRequest) (hv : validateOrder req = none)
    (huid : parseObjectId userIdText = some userId)
    (haddr : truthyStr req.shippingAddressId = true →
      (parseObjectId (req.shippingAddressId.getD "")).isSome = true) :
    placeOrderRequest db userIdText newId now req =
      placeOrder db userId newId now
        { req with shippingAddressId := req.shippingAddressId.bind parseObjectId } := by
  have hc : ¬ (truthyStr req.shippingAddressId &&
      (parseObjectId (req.shippingAddressId.getD "")).isNone) = true := by
    intro h
    rw [Bool.and_eq_true] at h
    have h2 := haddr h.1
    rw [Option.isNone_iff_eq_none] at h
    rw [h.2] at h2
    cases h2
  simp only [placeOrderRequest, hv, hc, Bool.false_eq_true, if_false, huid]

theorem placeOrderRequest_throws (db : Db) (userIdText : String) (newId : ObjectId)
    (now : Nat) (req : OrderRequest) (hv : validateOrder req = none)
    (hbad : parseObjectId userIdText = none ∨
      (truthyStr req.shippingAddressId = true ∧
        parseObjectId (req.shippingAddressId.getD "") = none)) :
    placeOrderRequest db userIdText newId now req =
      (fail 500 ("Error creating order: " ++ objectIdError), db) := by
  by_cases hc : (truthyStr req.shippingAddressId &&
      (parseObjectId (req.shippingAddressId.getD "")).isNone) = true
  · simp only [placeOrderRequest, hv, hc, if_true]
  · rcases hbad with hu | ha
    · simp only [placeOrderRequest, hv, hc, Bool.false_eq_true, if_false, hu]
    · exfalso
      apply hc
      rw [Bool.and_eq_true, ha.1, ha.2]
      exact ⟨rfl, rfl⟩

/-- C13, as corrected: for a request whose total amount is absent or a
number, Place order answers 400 exactly for the requests of
`OrderRequestRejected` (item list missing, not a list or empty; total amount
missing or not positive; payment method missing; payment method `upi` with a
UTR number that is not twelve digits).  Every other request is answered 201
with the new order id, and one order is added, under that id, for the caller
and with status `pending`, when the caller's id and the shipping address id,
if the request carries one, are written as 24 hexadecimal digits; when one
of the two is not, the answer is 500 and the store is left as it was. -/
theorem placeOrder_rejects_iff (db : Db) (userIdText : String) (newId : ObjectId) (now : Nat)
    (req : OrderRequest) :
    ((placeOrderRequest db userIdText newId now req).1.status = 400 ↔
      OrderRequestRejected req) ∧
    (¬ OrderRequestRejected req →
      (∀ userId : ObjectId, parseObjectId userIdText = some userId →
        (truthyStr req.shippingAddressId = true →
          (parseObjectId (req.shippingAddressId.getD "")).isSome = true) →
        (placeOrderRequest db userIdText newId now req).1.status = 201 ∧
        (placeOrderRequest db userIdText newId now req).1.insertedId = some newId ∧
        ∃ o : Order,
          (placeOrderRequest db userIdText newId now req).2.orders = db.orders ++ [o] ∧
          o._id = newId ∧ o.userId = userId ∧ o.status = "pending") ∧
      ((parseObjectId userIdText = none ∨
          (truthyStr req.shippingAddressId = true ∧
            parseObjectId (req.shippingAddressId.getD "") = none)) →
        (placeOrderRequest db userIdText newId now req).1.status = 500 ∧
        (placeOrderRequest db userIdText newId now req).2 = db)) := by
  have hiff := validateOrder_isSome_iff req
  cases hv : validateOrder req with
  | some msg =>
    rw [placeOrderRequest_invalid db userIdText newId now req msg hv]
    have hrej : OrderRequestRejected req := hiff.mp (by rw [hv]; rfl)
    exact ⟨⟨fun _ => hrej, fun _ => rfl⟩, fun h => absurd hrej h⟩
  | none =>
    have hnot : ¬ OrderRequestRejected req := by
      intro h
      have := hiff.mpr h
      rw [hv] at this
      cases this
    have hstatus : (placeOrderRequest db userIdText newId now req).1.status ≠ 400 := by
      by_cases hbad : parseObjectId userIdText = none ∨
          (truthyStr req.shippingAddressId = true ∧
            parseObjectId (req.shippingAddressId.getD "") = none)
      · rw [placeOrderRequest_throws db userIdText newId now req hv hbad]
        simp [fail]
      · rw [not_or] at hbad
        obtain ⟨userId, huid⟩ := Option.ne_none_iff_exists'.mp hbad.1
        have haddr : truthyStr req.shippingAddressId = true →
            (parseObjectId (req.shippingAddressId.getD "")).isSome = true := by
          intro ht
          rw [Option.isSome_iff_ne_none]
          intro hn
          exact hbad.2 ⟨ht, hn⟩
        rw [placeOrderRequest_valid db userIdText userId newId now req hv huid haddr]
        simp [placeOrder, validateOrder_shippingAddressId, hv, succeed]
    refine ⟨⟨fun h => absurd h hstatus, fun h => absurd h hnot⟩, fun _ => ⟨?_, ?_⟩⟩
    · intro userId huid haddr
      rw [placeOrderRequest_valid db userIdText userId newId now req hv huid haddr]
      simp [placeOrder, validateOrder_shippingAddressId, hv, succeed]
    · intro hbad
      rw [placeOrderRequest_throws db userIdText newId now req hv hbad]
      exact ⟨rfl, rfl⟩

/-- Witness of C13: a card order of one item is not among the rejected
requests; sent by the user `idU` it is answered 201, and sent under the id
`admin` it is answered 500. -/
theorem placeOrder_rejects_iff_witness :
    (placeOrderRequest storeIdShop idU idO 1
      ⟨.array [⟨"Shirt", 500, 1, some "M", some idA, none⟩], some 500, none,
        .str "card", .undefined⟩).1.status = 201 ∧
    (placeOrderRequest storeIdShop "admin" idO 1
      ⟨.array [⟨"Shirt", 500, 1, some "M", some idA, none⟩], some 500, none,
        .str "card", .undefined⟩).1.status = 500 :=
  ⟨(((placeOrder_rejects_iff storeIdShop idU idO 1
      ⟨.array [⟨"Shirt", 500, 1, some "M", some idA, none⟩], some 500, none,
        .str "card", .undefined⟩).2 (by
          unfold OrderRequestRejected
          simp [JsVal.isMissing])).1 idU (by decide) (by decide)).1,
   (((placeOrder_rejects_iff storeIdShop "admin" idO 1
      ⟨.array [⟨"Shirt", 500, 1, some "M", some idA, none⟩], some 500, none,
        .str "card", .undefined⟩).2 (by
          unfold OrderRequestRejected
          simp [JsVal.isMissing])).2 (Or.inl (by decide))).1⟩

/-- Counterexample to C13 as stated: a card order of one item with a
positive total is none of the requests the claim has rejected; sent under
the identity of the mock admin token, whose id is `admin`, it is answered
with status 500 and no order is created.  The same holds for a caller with a
well-formed id when the shipping address id is `not-an-id`. -/
theorem placeOrder_admin_identity_500 :
    ¬ OrderRequestRejected
      ⟨.array [⟨"Shirt", 500, 1, some "M", some idA, none⟩], some 500, none,
        .str "card", .undefined⟩ ∧
    (placeOrderRequest storeIdShop "admin" idO 1
      ⟨.array [⟨"Shirt", 500, 1, some "M", some idA, none⟩], some 500, none,
        .str "card", .undefined⟩).1.status = 500 ∧
    (placeOrderRequest storeIdShop "admin" idO 1
      ⟨.array [⟨"Shirt", 500, 1, some "M", some idA, none⟩], some 500, none,
        .str "card", .undefined⟩).2.orders = [] ∧
    (placeOrderRequest storeIdShop idU idO 1
      ⟨.array [⟨"Shirt", 500, 1, some "M", some idA, none⟩], some 500, some "not-an-id",
        .str "card", .undefined⟩).1.status = 500 ∧
    (placeOrderRequest storeIdShop idU idO 1
      ⟨.array [⟨"Shirt", 500, 1, some "M", some idA, none⟩], some 500, some "not-an-id",
        .str "card", .undefined⟩).2.orders = [] := by
  refine ⟨?_, by decide, by decide, by decide, by decide⟩
  unfold OrderRequestRejected
  simp [JsVal.isMissing]

/-- C20: the product `idA` has 5 in stock for size `M` and 5 as legacy
stock, all non-negative; a valid cash-on-delivery order of 6 pieces of size
`M` succeeds and leaves both the entry for `M` and the legacy stock at
`-1`. -/
theorem placeOrder_drives_stock_negative :
    (∀ p ∈ storeIdShop.products, (∀ e ∈ p.sizes.getD [], 0 ≤ e.2) ∧ 0 ≤ p.stock.getD 0) ∧
    (placeOrder storeIdShop idU idO 1
      ⟨.array [⟨"Shirt", 500, 6, some "M", some idA, none⟩], some 3010, none,
        .str "cod", .undefined⟩).1.status = 201 ∧
    (placeOrder storeIdShop idU idO 1
      ⟨.array [⟨"Shirt", 500, 6, some "M", some idA, none⟩], some 3010, none,
        .str "cod", .undefined⟩).2.products.map (fun p => (p._id, p.stock, p.sizes)) =
      [(idA, some (-1), some [("M", -1)])] := by
  decide

/-! ## Add stock and product images -/

/-- C19: on the product with sizes `One Size = 5` and legacy stock 5, the
update `One Size = 3` is accepted by both handlers; the first leaves stock 8
and `One Size = 8`, the second leaves stock 8 and `One Size = 5`, having
added to the legacy stock only. -/
theorem addStock_handlers_differ :
    (addStock storeOneSize "p1" 1 (some [("One Size", .num 3)])).1.status = 200 ∧
    (addStockInc storeOneSize "p1" (some [("One Size", .num 3)])).1.status = 200 ∧
    (addStock storeOneSize "p1" 1 (some [("One Size", .num 3)])).2.products.map
        (fun p => (p.stock, p.sizes)) = [(some 8, some [("One Size", 8)])] ∧
    (addStockInc storeOneSize "p1" (some [("One Size", .num 3)])).2.products.map
        (fun p => (p.stock, p.sizes)) = [(some 8, some [("One Size", 5)])] ∧
    (addStock storeOneSize "p1" 1 (some [("One Size", .num 3)])).2.products.map
        (fun p => (p.stock, p.sizes)) ≠
      (addStockInc storeOneSize "p1" (some [("One Size", .num 3)])).2.products.map
        (fun p => (p.stock, p.sizes)) := by
  have h1 : (addStock storeOneSize "p1" 1 (some [("One Size", .num 3)])).2.products.map
      (fun p => (p.stock, p.sizes)) = [(some 8, some [("One Size", 8)])] := by decide
  have h2 : (addStockInc storeOneSize "p1" (some [("One Size", .num 3)])).2.products.map
      (fun p => (p.stock, p.sizes)) = [(some 8, some [("One Size", 5)])] := by decide
  refine ⟨by decide, by decide, h1, h2, ?_⟩
  rw [h1, h2]
  decide

/-- C17 (failing input): a product is created with one uploaded file and an
image path; the stored `images` list starts with the path, while the stored
`image` is the uploaded file. -/
theorem createProduct_primary_not_first :
    (createProduct (storeOf []) "p9" 1 sampleForm ["f1.png"]).1.status = 201 ∧
    (createProduct (storeOf []) "p9" 1 sampleForm ["f1.png"]).2.products.map
        (fun p => (p.image, p.images)) =
      [(some "images/uploads/f1.png",
        some ["http://cdn/x.png", "images/uploads/f1.png"])] := by
  decide
/-! ## Grouping: rejected requests and repetition -/

theorem fetched_length_lt (products : List Product) (ids : List ObjectId) (id0 : ObjectId)
    (huniq : (products.map (fun p => p._id)).Nodup) (hid : id0 ∈ ids)
    (hno : ∀ p ∈ products, p._id ≠ id0) :
    (products.filter (fun p => ids.contains p._id)).length < ids.length := by
  have hmap : (products.filter (fun p => ids.contains p._id)).map (fun p => p._id) =
      (products.map (fun p => p._id)).filter (fun i => ids.contains i) := by
    rw [List.filter_map]
    rfl
  have hnd : ((products.filter (fun p => ids.contains p._id)).map (fun p => p._id)).Nodup := by
    rw [hmap]
    exact List.Nodup.filter _ huniq
  have hsub : (products.filter (fun p => ids.contains p._id)).map (fun p => p._id) ⊆
      ids.filter (fun i => i != id0) := by
    intro a ha
    obtain ⟨q, hq, rfl⟩ := List.mem_map.mp ha
    have hq' := List.mem_filter.mp hq
    refine List.mem_filter.mpr ⟨by simpa using hq'.2, ?_⟩
    simpa using hno q hq'.1
  have h1 := (hnd.subperm hsub).length_le
  have h2 : (ids.filter (fun i => i != id0)).length < ids.length := by
    rw [List.length_filter_lt_length_iff_exists]
    exact ⟨id0, hid, by simp⟩
  rw [List.length_map] at h1
  omega

theorem groupProducts_unresolved (db : Db) (now : Nat) (ids : List ObjectId)
    (huniq : (db.products.map (fun p => p._id)).Nodup) (hlen : 2 ≤ ids.length)
    (hex : ∃ id ∈ ids, ∀ p ∈ db.products, p._id ≠ id) :
    groupProducts db now (some ids) = (fail 404 "One or more products not found.", db) := by
  obtain ⟨id0, hid, hno⟩ := hex
  have hlt := fetched_length_lt db.products ids id0 huniq hid hno
  have h2 : ¬ ids.length < 2 := by omega
  have hne : ((db.products.filter (fun p => ids.contains p._id)).length != ids.length) =
      true := by
    simp only [bne_iff_ne, ne_eq]
    omega
  simp only [groupProducts, h2, if_false, hne, if_true]

theorem groupProductsRequest_parsed (db : Db) (now : Nat) (ids : List String)
    (objectIds : List ObjectId) (hlen : 2 ≤ ids.length)
    (hparse : parseObjectIds ids = some objectIds) :
    groupProductsRequest db now (some ids) = groupProducts db now (some objectIds) := by
  have h2 : ¬ ids.length < 2 := by omega
  simp only [groupProductsRequest, h2, if_false, hparse]

theorem groupProductsRequest_throws (db : Db) (now : Nat) (ids : List String)
    (hlen : 2 ≤ ids.length) (hbad : ∃ id ∈ ids, parseObjectId id = none) :
    groupProductsRequest db now (some ids) =
      (fail 500 ("Failed to group products: " ++ objectIdError), db) := by
  have h2 : ¬ ids.length < 2 := by omega
  simp only [groupProductsRequest, h2, if_false, parseObjectIds_eq_none ids hbad]

/-- C15, as corrected: Group answers 400 when `productIds` is missing or not
a list and when it lists fewer than two ids; in a store whose products have
distinct `_id`s it answers 404 when it lists at least two ids, all written
as 24 hexadecimal digits, of which one resolves to no product; it answers
500 when it lists at least two entries of which one is not written as 24
hexadecimal digits; in each of these cases the store is left as it was. -/
theorem group_rejects_unchanged (db : Db) (now : Nat) :
    groupProductsRequest db now none =
      (fail 400 "Please select at least 2 products to group.", db) ∧
    (∀ ids : List String, ids.length < 2 →
      groupProductsRequest db now (some ids) =
        (fail 400 "Please select at least 2 products to group.", db)) ∧
    (∀ (ids : List String) (objectIds : List ObjectId),
      (db.products.map (fun p => p._id)).Nodup → 2 ≤ ids.length →
      parseObjectIds ids = some objectIds →
      (∃ id ∈ objectIds, ∀ p ∈ db.products, p._id ≠ id) →
      groupProductsRequest db now (some ids) =
        (fail 404 "One or more products not found.", db)) ∧
    (∀ ids : List String, 2 ≤ ids.length → (∃ id ∈ ids, parseObjectId id = none) →
      (groupProductsRequest db now (some ids)).1.status = 500 ∧
      (groupProductsRequest db now (some ids)).2 = db) := by
  refine ⟨rfl, ?_, ?_, ?_⟩
  · intro ids hlt
    simp only [groupProductsRequest, hlt, if_true]
  · intro ids objectIds huniq hlen hparse hex
    rw [groupProductsRequest_parsed db now ids objectIds hlen hparse]
    have hlen2 : 2 ≤ objectIds.length := by
      rw [parseObjectIds_length ids objectIds hparse]
      exact hlen
    exact groupProducts_unresolved db now objectIds huniq hlen2 hex
  · intro ids hlen hbad
    rw [groupProductsRequest_throws db now ids hlen hbad]
    exact ⟨rfl, rfl⟩

/-- Witness of C15: in the store of `A`, `B`, `C`, grouping `A` with the
unknown id `idD` is answered 404 and changes nothing, and grouping `A` with
the text `not-an-id` is answered 500. -/
theorem group_rejects_unchanged_witness :
    groupProductsRequest storeIdABC 7 (some [idA, idD]) =
      (fail 404 "One or more products not found.", storeIdABC) ∧
    (groupProductsRequest storeIdABC 7 (some [idA, "not-an-id"])).1.status = 500 :=
  ⟨(group_rejects_unchanged storeIdABC 7).2.2.1 [idA, idD] [idA, idD] (by decide) (by decide)
      (by decide) ⟨idD, by decide, by decide⟩,
    ((group_rejects_unchanged storeIdABC 7).2.2.2 [idA, "not-an-id"] (by decide)
      ⟨"not-an-id", by decide, by decide⟩).1⟩

/-- Counterexample to C15 as stated: the Group request for the id of `A` and
the text `not-an-id`, which resolves to no product, is answered with status
500, not 404. -/
theorem group_malformed_entry_500 :
    (∀ p ∈ storeIdABC.products, p._id ≠ "not-an-id") ∧
    (groupProductsRequest storeIdABC 7 (some [idA, "not-an-id"])).1.status = 500 ∧
    (groupProductsRequest storeIdABC 7 (some [idA, "not-an-id"])).1.status ≠ 404 := by
  decide

theorem groupProducts_valid_listed (db : Db) (now : Nat) (ids : List ObjectId)
    (hlen : 2 ≤ ids.length) (hnd : ids.Nodup)
    (hres : ∀ id ∈ ids, ∃ p ∈ db.products, p._id = id)
    (huniq : (db.products.map (fun p => p._id)).Nodup) :
    groupProducts db now (some ids) =
      (succeed 200 "Products successfully grouped and linked." none,
        { db with
          products := (db.products.map (relinkListed now ids
            (db.products.filter (fun p => ids.contains p._id)))) }) :=
  groupProducts_valid db now ids hlen hnd hres huniq

theorem relinkListed_id (now : Nat) (ids : List ObjectId) (fetched : List Product)
    (q : Product) : (relinkListed now ids fetched q)._id = q._id := by
  unfold relinkListed
  by_cases hq : q._id ∈ ids
  · rw [if_pos hq]
    rfl
  · rw [if_neg hq]

theorem linkTo_relinkListed (now : Nat) (ids : List ObjectId) (fetched : List Product)
    (q : Product) : linkTo (relinkListed now ids fetched q) = linkTo q := by
  unfold relinkListed
  by_cases hq : q._id ∈ ids
  · rw [if_pos hq]
    rfl
  · rw [if_neg hq]

theorem map_id_relinkListed (now : Nat) (ids : List ObjectId) (fetched l : List Product) :
    (l.map (relinkListed now ids fetched)).map (fun p => p._id) = l.map (fun p => p._id) := by
  rw [List.map_map]
  apply List.map_congr_left
  intro q _
  exact relinkListed_id now ids fetched q

theorem relink_colors_after (now1 now2 : Nat) (ids : List ObjectId) (l : List Product)
    (q : Product) :
    (relink now2 ((l.map (relinkListed now1 ids (l.filter (fun p => ids.contains p._id)))).filter
        (fun p => ids.contains p._id))
      (relinkListed now1 ids (l.filter (fun p => ids.contains p._id)) q)).colors =
    (relink now1 (l.filter (fun p => ids.contains p._id)) q).colors := by
  show (((l.map _).filter _).filter _).map linkTo = ((l.filter _).filter _).map linkTo
  rw [relinkListed_id]
  rw [List.filter_map, List.filter_map, List.map_map]
  have hf : ((fun p : Product => ids.contains p._id) ∘
      relinkListed now1 ids (l.filter (fun p => ids.contains p._id))) =
      fun p : Product => ids.contains p._id := by
    funext p
    simp only [Function.comp_apply, relinkListed_id]
  have hg : ((fun p : Product => !(p._id == q._id)) ∘
      relinkListed now1 ids (l.filter (fun p => ids.contains p._id))) =
      fun p : Product => !(p._id == q._id) := by
    funext p
    simp only [Function.comp_apply, relinkListed_id]
  have hl : (linkTo ∘ relinkListed now1 ids (l.filter (fun p => ids.contains p._id))) =
      linkTo := by
    funext p
    simp only [Function.comp_apply, linkTo_relinkListed]
  rw [hf, hg, hl]

/-- C16: for a list of at least two pairwise-distinct ids that all resolve,
in a store whose products have distinct `_id`s, a second Group call with the
same list succeeds and leaves every product with the `colors` list (each
entry with its id, name, image and swatch) it had after the first call. -/
theorem group_twice_same_colors (db : Db) (now1 now2 : Nat) (ids : List ObjectId)
    (hlen : 2 ≤ ids.length) (hnd : ids.Nodup)
    (hres : ∀ id ∈ ids, ∃ p ∈ db.products, p._id = id)
    (huniq : (db.products.map (fun p => p._id)).Nodup) :
    (groupProducts (groupProducts db now1 (some ids)).2 now2 (some ids)).1.status = 200 ∧
    (groupProducts (groupProducts db now1 (some ids)).2 now2 (some ids)).2.products.map
        (fun p => (p._id, p.colors)) =
      (groupProducts db now1 (some ids)).2.products.map (fun p => (p._id, p.colors)) := by
  rw [groupProducts_valid_listed db now1 ids hlen hnd hres huniq]
  have huniq1 : ((db.products.map (relinkListed now1 ids
      (db.products.filter (fun p => ids.contains p._id)))).map (fun p => p._id)).Nodup := by
    rw [map_id_relinkListed]
    exact huniq
  have hres1 : ∀ id ∈ ids, ∃ p ∈ db.products.map (relinkListed now1 ids
      (db.products.filter (fun p => ids.contains p._id))), p._id = id := by
    intro id hid
    obtain ⟨p, hp, hpid⟩ := hres id hid
    exact ⟨_, List.mem_map.mpr ⟨p, hp, rfl⟩, by rw [relinkListed_id]; exact hpid⟩
  rw [groupProducts_valid_listed _ now2 ids hlen hnd hres1 huniq1]
  refine ⟨rfl, ?_⟩
  show ((db.products.map _).map _).map _ = (db.products.map _).map _
  rw [List.map_map, List.map_map, List.map_map]
  apply List.map_congr_left
  intro q _
  simp only [Function.comp_apply]
  rw [relinkListed_id]
  congr 1
  by_cases hq : q._id ∈ ids
  · have hq1 : (relinkListed now1 ids (db.products.filter (fun p => ids.contains p._id))
        q)._id ∈ ids := by
      rw [relinkListed_id]
      exact hq
    conv_lhs => rw [relinkListed, if_pos hq1]
    rw [relink_colors_after]
    conv_rhs => rw [relinkListed, if_pos hq]
  · have hq1 : (relinkListed now1 ids (db.products.filter (fun p => ids.contains p._id))
        q)._id ∉ ids := by
      rw [relinkListed_id]
      exact hq
    conv_lhs => rw [relinkListed, if_neg hq1]

/-- Witness of C16: `A`, `B`, `C` are grouped twice. -/
theorem group_twice_same_colors_witness :
    (groupProducts (groupProducts storeABC 7 (some ["A", "B", "C"])).2 8
        (some ["A", "B", "C"])).2.products.map (fun p => (p._id, p.colors)) =
      (groupProducts storeABC 7 (some ["A", "B", "C"])).2.products.map
        (fun p => (p._id, p.colors)) :=
  (group_twice_same_colors storeABC 7 8 ["A", "B", "C"] (by decide) (by decide) (by decide)
    (by decide)).2
/-! ## Address book -/

theorem updateFirst_append_of_none {α : Type} (p : α → Bool) (f : α → α) (l1 l2 : List α)
    (a : α) (h1 : ∀ x ∈ l1, p x = false) (ha : p a = true) :
    updateFirst p f (l1 ++ a :: l2) = l1 ++ f a :: l2 := by
  induction l1 with
  | nil => simp [updateFirst, ha]
  | cons x xs ih =>
    have hx : p x = false := h1 x (List.mem_cons_self _ _)
    have hxs : ∀ y ∈ xs, p y = false := fun y hy => h1 y (List.mem_cons_of_mem _ hy)
    simp [updateFirst, hx, ih hxs]

theorem find?_append_of_none {α : Type} (p : α → Bool) (l1 l2 : List α) (a : α)
    (h1 : ∀ x ∈ l1, p x = false) (ha : p a = true) :
    (l1 ++ a :: l2).find? p = some a := by
  induction l1 with
  | nil => simp [List.find?, ha]
  | cons x xs ih =>
    have hx : p x = false := h1 x (List.mem_cons_self _ _)
    have hxs : ∀ y ∈ xs, p y = false := fun y hy => h1 y (List.mem_cons_of_mem _ hy)
    simp [List.find?, hx, ih hxs]

theorem defaultsOf_unset_others (userId addressId : ObjectId) (l : List Address)
    (h : ∀ b ∈ l, b._id ≠ addressId) :
    defaultsOf userId
      (updateAll (fun a => a.userId == userId && a._id != addressId) unsetDefault l) = [] := by
  unfold defaultsOf updateAll
  rw [List.filter_eq_nil_iff]
  intro x hx
  obtain ⟨b, hb, rfl⟩ := List.mem_map.mp hx
  have hid := h b hb
  by_cases hu : b.userId = userId
  · simp [hu, hid, unsetDefault]
  · simp [hu]

theorem updateAll_unset_others_of_id (userId addressId : ObjectId) (l : List Address)
    (h : ∀ b ∈ l, b._id ≠ addressId) :
    ∀ x ∈ updateAll (fun a => a.userId == userId && a._id != addressId) unsetDefault l,
      (x._id == addressId && x.userId == userId) = false := by
  intro x hx
  unfold updateAll at hx
  obtain ⟨b, hb, rfl⟩ := List.mem_map.mp hx
  have hid := h b hb
  by_cases hu : b.userId = userId
  · simp [hu, hid, unsetDefault]
  · simp [hu, hid]

/-- C11: when the request carries `isDefault = true`, creating an address
leaves the caller with exactly one default address, the created one; and in
a store whose addresses have distinct `_id`s, updating an address the caller
owns succeeds and leaves the caller with exactly one default address, the
updated one.  Which address was the default before plays no part. -/
theorem address_default_flip (db : Db) (userId : ObjectId) (now : Nat)
    (req : AddressRequest) (hdef : req.isDefault = some true) :
    (∀ newId : ObjectId,
      (createAddress db userId newId now req).1.status = 201 ∧
      ∃ x : Address, x._id = newId ∧ x.isDefault = true ∧
        defaultsOf userId (createAddress db userId newId now req).2.addresses = [x]) ∧
    (∀ addressId : ObjectId, (db.addresses.map (fun a => a._id)).Nodup →
      (∃ a ∈ db.addresses, a._id = addressId ∧ a.userId = userId) →
      (updateAddress db userId addressId now req).1.status = 200 ∧
      ∃ x : Address, x._id = addressId ∧ x.isDefault = true ∧
        defaultsOf userId (updateAddress db userId addressId now req).2.addresses = [x]) := by
  constructor
  · intro newId
    refine ⟨rfl, ?_⟩
    simp only [createAddress, hdef, Option.getD_some, if_true, Bool.or_false]
    refine ⟨{ _id := newId, userId := userId, type := req.type, name := req.name
              email := req.email, house := req.house, street := req.street, address := none
              city := req.city, state := req.state, zipCode := req.zipCode
              country := req.country, phone := req.phone, isDefault := true
              createdAt := now, updatedAt := none }, rfl, rfl, ?_⟩
    unfold defaultsOf
    rw [List.filter_append]
    have h1 : (updateAll (fun a => a.userId == userId) unsetDefault db.addresses).filter
        (fun a => a.userId == userId && a.isDefault) = [] := by
      rw [List.filter_eq_nil_iff]
      intro x hx
      unfold updateAll at hx
      obtain ⟨b, _, rfl⟩ := List.mem_map.mp hx
      by_cases hu : b.userId = userId
      · simp [hu, unsetDefault]
      · simp [hu]
    rw [h1, List.nil_append]
    simp
  · intro addressId huniq hown
    obtain ⟨a, ha, haid, hauser⟩ := hown
    obtain ⟨l1, l2, hl⟩ := List.append_of_mem ha
    rw [hl, List.map_append, List.map_cons] at huniq
    have hnd := List.nodup_append.mp huniq
    have hcons := List.nodup_cons.mp hnd.2.1
    have hl1 : ∀ b ∈ l1, b._id ≠ addressId := by
      intro b hb hbid
      exact hnd.2.2 (List.mem_map.mpr ⟨b, hb, rfl⟩)
        (by rw [hbid, ← haid]; exact List.mem_cons_self _ _)
    have hl2 : ∀ b ∈ l2, b._id ≠ addressId := by
      intro b hb hbid
      exact hcons.1 (by rw [haid, ← hbid]; exact List.mem_map.mpr ⟨b, hb, rfl⟩)
    have hkeep : (if (a.userId == userId && a._id != addressId) = true then unsetDefault a
        else a) = a := by
      simp [haid]
    have hsplit : updateAll (fun a => a.userId == userId && a._id != addressId) unsetDefault
        db.addresses =
        updateAll (fun a => a.userId == userId && a._id != addressId) unsetDefault l1 ++
          a :: updateAll (fun a => a.userId == userId && a._id != addressId) unsetDefault l2 := by
      rw [hl]
      unfold updateAll
      rw [List.map_append, List.map_cons, hkeep]
    have hmatch : (a._id == addressId && a.userId == userId) = true := by
      simp [haid, hauser]
    have hfind := find?_append_of_none (fun a => a._id == addressId && a.userId == userId)
      _ (updateAll (fun a => a.userId == userId && a._id != addressId) unsetDefault l2) a
      (updateAll_unset_others_of_id userId addressId l1 hl1) hmatch
    have hupd := updateFirst_append_of_none
      (fun a => a._id == addressId && a.userId == userId) (applyAddressUpdate now req)
      _ (updateAll (fun a => a.userId == userId && a._id != addressId) unsetDefault l2) a
      (updateAll_unset_others_of_id userId addressId l1 hl1) hmatch
    simp only [updateAddress, hdef, Option.getD_some, if_true, hsplit, hfind, hupd]
    refine ⟨rfl, applyAddressUpdate now req a, haid, ?_, ?_⟩
    · simp [applyAddressUpdate, hdef]
    · have hd1 := defaultsOf_unset_others userId addressId l1 hl1
      have hd2 := defaultsOf_unset_others userId addressId l2 hl2
      unfold defaultsOf at hd1 hd2 ⊢
      rw [List.filter_append, hd1, List.nil_append, List.filter_cons_of_pos, hd2]
      simp [applyAddressUpdate, hdef, hauser]

/-- Witness of C11: `u1` has the default address `y` and sets the default
flag on `x`. -/
theorem address_default_flip_witness :
    (updateAddress storeAddresses "u1" "x" 3 defaultForm).1.status = 200 ∧
    ∃ x : Address, x._id = "x" ∧ x.isDefault = true ∧
      defaultsOf "u1" (updateAddress storeAddresses "u1" "x" 3 defaultForm).2.addresses = [x] :=
  (address_default_flip storeAddresses "u1" 3 defaultForm rfl).2 "x" (by decide)
    ⟨sampleAddress "x" "u1" false, by decide, rfl, rfl⟩
theorem length_defaultsOf (userId : ObjectId) (l : List Address) :
    (defaultsOf userId l).length = l.countP (fun a => a.userId == userId && a.isDefault) := by
  unfold defaultsOf
  rw [List.countP_eq_length_filter]

theorem mem_updateFirst {α : Type} (p : α → Bool) (f : α → α) (l : List α) (x : α)
    (hx : x ∈ updateFirst p f l) : x ∈ l ∨ ∃ a ∈ l, p a = true ∧ x = f a := by
  induction l with
  | nil => cases hx
  | cons y ys ih =>
    by_cases hy : p y = true
    · simp only [updateFirst, hy, if_true, List.mem_cons] at hx
      rcases hx with rfl | hx
      · exact Or.inr ⟨y, List.mem_cons_self _ _, hy, rfl⟩
      · exact Or.inl (List.mem_cons_of_mem _ hx)
    · simp only [updateFirst, hy] at hx
      rw [if_neg (by simp), List.mem_cons] at hx
      rcases hx with rfl | hx
      · exact Or.inl (List.mem_cons_self _ _)
      · rcases ih hx with h | ⟨a, ha, hpa, hxa⟩
        · exact Or.inl (List.mem_cons_of_mem _ h)
        · exact Or.inr ⟨a, List.mem_cons_of_mem _ ha, hpa, hxa⟩

theorem map_updateFirst_of_preserved {α β : Type} (key : α → β) (p : α → Bool) (f : α → α)
    (hf : ∀ a, key (f a) = key a) (l : List α) :
    (updateFirst p f l).map key = l.map key := by
  induction l with
  | nil => rfl
  | cons x xs ih =>
    by_cases hx : p x = true
    · simp [updateFirst, hx, hf]
    · simp [updateFirst, hx, ih]

theorem countP_updateFirst_le {α : Type} (p q : α → Bool) (f : α → α)
    (hf : ∀ a, p a = true → q (f a) = true → q a = true) (l : List α) :
    (updateFirst p f l).countP q ≤ l.countP q := by
  induction l with
  | nil => exact Nat.le_refl _
  | cons x xs ih =>
    by_cases hx : p x = true
    · simp only [updateFirst, hx, if_true, List.countP_cons]
      by_cases hq : q (f x) = true
      · simp [hq, hf x hx hq]
      · simp [hq]
    · simp only [updateFirst, hx]
      rw [if_neg (by simp)]
      simp only [List.countP_cons]
      omega

theorem countP_id_le_one (l : List Address) (addressId : ObjectId)
    (huniq : (l.map (fun a => a._id)).Nodup) :
    l.countP (fun a => a._id == addressId) ≤ 1 := by
  have h := List.nodup_iff_count_le_one.mp huniq addressId
  rw [List.count_eq_countP, List.countP_map] at h
  exact h

theorem countP_le_of_forall_id (l : List Address) (userId addressId : ObjectId)
    (huniq : (l.map (fun a => a._id)).Nodup)
    (h : ∀ a ∈ l, (a.userId == userId && a.isDefault) = true → a._id = addressId) :
    l.countP (fun a => a.userId == userId && a.isDefault) ≤ 1 := by
  refine Nat.le_trans (List.countP_mono_left ?_) (countP_id_le_one l addressId huniq)
  intro a ha hpa
  simpa using h a ha hpa

theorem singleDefault_createAddress (db : Db) (userId newId : ObjectId) (now : Nat)
    (req : AddressRequest) (h : SingleDefault db.addresses) :
    SingleDefault (createAddress db userId newId now req).2.addresses := by
  intro v
  have hv := h v
  rw [length_defaultsOf] at hv ⊢
  unfold createAddress
  simp only [List.countP_append, Bool.or_false]
  by_cases hd : req.isDefault.getD false = true
  · simp only [hd, if_true]
    by_cases hvu : v = userId
    · subst hvu
      have h0 : (updateAll (fun a => a.userId == v) unsetDefault db.addresses).countP
          (fun a => a.userId == v && a.isDefault) = 0 := by
        rw [List.countP_eq_zero]
        intro x hx
        unfold updateAll at hx
        obtain ⟨b, _, rfl⟩ := List.mem_map.mp hx
        by_cases hu : b.userId = v
        · simp [hu, unsetDefault]
        · simp [hu]
      rw [h0]
      simp [List.countP_cons]
    · have hsame : (updateAll (fun a => a.userId == userId) unsetDefault db.addresses).countP
          (fun a => a.userId == v && a.isDefault) =
          db.addresses.countP (fun a => a.userId == v && a.isDefault) := by
        unfold updateAll
        rw [List.countP_map]
        apply List.countP_congr
        intro b _
        by_cases hu : b.userId = userId
        · have : ¬ b.userId = v := by
            rw [hu]
            exact fun h => hvu h.symm
          simp [hu, unsetDefault, this, Ne.symm hvu]
        · simp [hu]
      rw [hsame]
      have hnew : ¬ userId = v := fun h => hvu h.symm
      simp [List.countP_cons, hnew]
      exact hv
  · have hd' : req.isDefault.getD false = false := by simpa using hd
    simp only [hd', Bool.false_eq_true, if_false]
    simp [List.countP_cons]
    exact hv

theorem singleDefault_updateAddress (db : Db) (userId addressId : ObjectId) (now : Nat)
    (req : AddressRequest) (huniq : (db.addresses.map (fun a => a._id)).Nodup)
    (h : SingleDefault db.addresses) :
    SingleDefault (updateAddress db userId addressId now req).2.addresses := by
  intro v
  have hv := h v
  rw [length_defaultsOf] at hv ⊢
  by_cases hd : req.isDefault.getD false = true
  · -- the caller's other addresses are unset first
    have hA : ((updateAll (fun a => a.userId == userId && a._id != addressId) unsetDefault
        db.addresses).map (fun a => a._id)).Nodup := by
      have : (updateAll (fun a => a.userId == userId && a._id != addressId) unsetDefault
          db.addresses).map (fun a => a._id) = db.addresses.map (fun a => a._id) := by
        unfold updateAll
        rw [List.map_map]
        apply List.map_congr_left
        intro b _
        simp only [Function.comp_apply]
        split <;> rfl
      rw [this]
      exact huniq
    have hAv : ∀ x ∈ updateAll (fun a => a.userId == userId && a._id != addressId)
        unsetDefault db.addresses,
        (x.userId == userId && x.isDefault) = true → x._id = addressId := by
      intro x hx hp
      unfold updateAll at hx
      obtain ⟨b, _, rfl⟩ := List.mem_map.mp hx
      by_cases hb : (b.userId == userId && b._id != addressId) = true
      · simp [hb, unsetDefault] at hp
      · simp only [hb] at hp ⊢
        simp only [Bool.and_eq_true, beq_iff_eq, bne_iff_ne, ne_eq, not_and, not_not] at hb hp
        exact hb hp.1
    have hAother : v ≠ userId →
        (updateAll (fun a => a.userId == userId && a._id != addressId) unsetDefault
          db.addresses).countP (fun a => a.userId == v && a.isDefault) =
        db.addresses.countP (fun a => a.userId == v && a.isDefault) := by
      intro hvu
      unfold updateAll
      rw [List.countP_map]
      apply List.countP_congr
      intro b _
      simp only [Function.comp_apply]
      split
      · rename_i hb
        have hbu : b.userId = userId := by
          simp only [Bool.and_eq_true, beq_iff_eq] at hb
          exact hb.1
        have : ¬ b.userId = v := by
          rw [hbu]
          exact fun h => hvu h.symm
        simp [unsetDefault, this]
      · exact Iff.rfl
    unfold updateAddress
    simp only [hd, if_true]
    cases hfind : (updateAll (fun a => a.userId == userId && a._id != addressId) unsetDefault
        db.addresses).find? (fun a => a._id == addressId && a.userId == userId) with
    | none =>
      simp only
      by_cases hvu : v = userId
      · subst hvu
        exact countP_le_of_forall_id _ v addressId hA hAv
      · rw [hAother hvu]
        exact hv
    | some found =>
      simp only
      by_cases hvu : v = userId
      · subst hvu
        refine countP_le_of_forall_id _ v addressId ?_ ?_
        · rw [map_updateFirst_of_preserved (fun a : Address => a._id) _
            (applyAddressUpdate now req) (fun _ => rfl)]
          exact hA
        · intro x hx hp
          rcases mem_updateFirst _ _ _ x hx with hx' | ⟨a, _, hpa, rfl⟩
          · exact hAv x hx' hp
          · simp only [Bool.and_eq_true, beq_iff_eq] at hpa
            exact hpa.1
      · refine Nat.le_trans (countP_updateFirst_le _ _ _ ?_ _) ?_
        · intro a hpa hq
          simp only [Bool.and_eq_true, beq_iff_eq] at hpa
          have : ¬ a.userId = v := by
            rw [hpa.2]
            exact fun h => hvu h.symm
          simp [applyAddressUpdate, this] at hq
        · rw [hAother hvu]
          exact hv
  · have hd' : req.isDefault.getD false = false := by simpa using hd
    unfold updateAddress
    simp only [hd', Bool.false_eq_true, if_false]
    cases hfind : db.addresses.find? (fun a => a._id == addressId && a.userId == userId) with
    | none => exact hv
    | some found =>
      simp only
      refine Nat.le_trans (countP_updateFirst_le _ _ _ ?_ _) hv
      intro a _ hq
      simp [applyAddressUpdate, hd'] at hq

theorem singleDefault_deleteAddress (db : Db) (userId addressId : ObjectId)
    (h : SingleDefault db.addresses) :
    SingleDefault (deleteAddress db userId addressId).2.addresses := by
  intro v
  have hv := h v
  rw [length_defaultsOf] at hv ⊢
  unfold deleteAddress
  cases db.addresses.find? (fun a => a._id == addressId && a.userId == userId) with
  | none => exact hv
  | some _ => exact Nat.le_trans (List.Sublist.countP_le _ (deleteFirst_sublist _ _)) hv

/-- C12: in a store whose addresses have distinct `_id`s, if every owner has
at most one address with `isDefault = true`, the same holds after an address
create, update or delete request of any user, whatever the request carries
and whether it succeeds or not. -/
theorem address_single_default_preserved (db : Db) (userId : ObjectId) (call : AddressCall)
    (huniq : (db.addresses.map (fun a => a._id)).Nodup) (h : SingleDefault db.addresses) :
    SingleDefault (runAddressCall db userId call).2.addresses := by
  cases call with
  | create newId now req => exact singleDefault_createAddress db userId newId now req h
  | update addressId now req =>
    exact singleDefault_updateAddress db userId addressId now req huniq h
  | delete addressId => exact singleDefault_deleteAddress db userId addressId h
theorem storeAddresses_singleDefault : SingleDefault storeAddresses.addresses := by
  intro u
  rw [length_defaultsOf]
  simp only [storeAddresses, sampleAddress, List.countP_cons, List.countP_nil]
  by_cases h1 : "u1" = u
  · subst h1
    decide
  · by_cases h2 : "u2" = u
    · subst h2
      decide
    · simp [h1, h2]

/-- Witness of C12: `u1`, whose default address is `y`, sets the default
flag on `x`; `u1` still has at most one default address. -/
theorem address_single_default_preserved_witness :
    (defaultsOf "u1"
      (runAddressCall storeAddresses "u1" (.update "x" 3 defaultForm)).2.addresses).length ≤ 1 :=
  address_single_default_preserved storeAddresses "u1" (.update "x" 3 defaultForm)
    (by decide) storeAddresses_singleDefault "u1"

/-! ## Add stock: the first handler -/

theorem lookupKey_setKey_same (k : String) (v : Int) (m : List (String × Int)) :
    lookupKey k (setKey k v m) = some v := by
  induction m with
  | nil => simp [setKey, lookupKey]
  | cons e rest ih =>
    obtain ⟨k', w⟩ := e
    by_cases h : k' = k
    · simp [setKey, lookupKey, h]
    · simp [setKey, lookupKey, h, ih]

theorem lookupKey_setKey_ne (k k2 : String) (v : Int) (m : List (String × Int))
    (hne : k2 ≠ k) : lookupKey k2 (setKey k v m) = lookupKey k2 m := by
  induction m with
  | nil => simp [setKey, lookupKey, Ne.symm hne]
  | cons e rest ih =>
    obtain ⟨k', w⟩ := e
    by_cases h : k' = k
    · have h3 : ¬ k = k2 := fun h4 => hne h4.symm
      subst h
      simp [setKey, lookupKey, h3]
    · by_cases h2 : k' = k2
      · subst h2
        simp [setKey, lookupKey, h]
      · simp [setKey, lookupKey, h, h2, ih]

theorem lookupKey_addQuantityTo_ne (base : List (String × Int)) (e : String × JsVal)
    (k : String) (hne : k ≠ e.1) :
    lookupKey k (addQuantityTo base e) = lookupKey k base := by
  unfold addQuantityTo
  simp only
  split
  · exact lookupKey_setKey_ne _ _ _ _ hne
  · rfl

theorem foldl_addQuantityTo (update : List (String × JsVal)) :
    ∀ base : List (String × Int), (update.map (fun e => e.1)).Nodup →
      (∀ e ∈ update, 0 < (parseIntJs e.2).getD 0 →
        lookupKey e.1 (update.foldl addQuantityTo base) =
          some ((lookupKey e.1 base).getD 0 + (parseIntJs e.2).getD 0)) ∧
      (∀ k : String, (∀ e ∈ update, e.1 = k → ¬ 0 < (parseIntJs e.2).getD 0) →
        lookupKey k (update.foldl addQuantityTo base) = lookupKey k base) := by
  induction update with
  | nil =>
    intro base _
    exact ⟨fun e he => absurd he (List.not_mem_nil e), fun _ _ => rfl⟩
  | cons e es ih =>
    intro base hnd
    rw [List.map_cons, List.nodup_cons] at hnd
    obtain ⟨ih1, ih2⟩ := ih (addQuantityTo base e) hnd.2
    rw [List.foldl_cons]
    constructor
    · intro e' he' hpos
      rcases List.mem_cons.mp he' with rfl | hmem
      · have hno : ∀ x ∈ es, x.1 = e'.1 → ¬ 0 < (parseIntJs x.2).getD 0 := by
          intro x hx hxk
          exact absurd (List.mem_map.mpr ⟨x, hx, hxk⟩) hnd.1
        rw [ih2 e'.1 hno]
        unfold addQuantityTo
        simp only
        rw [if_pos hpos]
        exact lookupKey_setKey_same _ _ _
      · have hne : e'.1 ≠ e.1 := by
          intro heq
          exact hnd.1 (List.mem_map.mpr ⟨e', hmem, heq⟩)
        rw [ih1 e' hmem hpos, lookupKey_addQuantityTo_ne base e e'.1 hne]
    · intro k hk
      have hk2 : ∀ x ∈ es, x.1 = k → ¬ 0 < (parseIntJs x.2).getD 0 :=
        fun x hx => hk x (List.mem_cons_of_mem _ hx)
      rw [ih2 k hk2]
      by_cases hek : e.1 = k
      · have hnp := hk e (List.mem_cons_self _ _) hek
        unfold addQuantityTo
        simp only
        rw [if_neg hnp]
      · exact lookupKey_addQuantityTo_ne base e k (fun h => hek h.symm)

theorem find?_updateFirst {α : Type} (p : α → Bool) (f : α → α) (l : List α)
    (hf : ∀ a, p a = true → p (f a) = true) :
    (updateFirst p f l).find? p = (l.find? p).map f := by
  induction l with
  | nil => rfl
  | cons x xs ih =>
    by_cases hx : p x = true
    · simp [updateFirst, hx, List.find?, hf x hx]
    · simp [updateFirst, hx, List.find?, ih]

/-- C18, as corrected: the first add-stock handler answers 500 when the
product id is not written as 24 hexadecimal digits and 404 when it is and no
product has it, and leaves the store as it was.  When the id resolves, the
keys of the update map are distinct and none is the name of a member every
object inherits, and the stored quantities, the submitted ones and their
sums are integers the language holds exactly, the handler succeeds and
stores a size map in which every key submitted with a positive quantity
holds its previous quantity (0 if absent) plus that quantity, and every
other key, mentioned or not, holds its previous value.  The previous
quantities `base` are those of the product's size map when it is not empty,
and the one entry `One Size = legacy stock` (0 without one) when the map is
absent or empty. -/
theorem addStock_size_entries (db : Db) (productIdText : String) (now : Nat)
    (update : List (String × JsVal)) :
    (parseObjectId productIdText = none →
      (addStockRequest db productIdText now (some update)).1.status = 500 ∧
      (addStockRequest db productIdText now (some update)).2 = db) ∧
    (∀ productId : ObjectId, parseObjectId productIdText = some productId →
      db.products.find? (fun p => p._id == productId) = none →
      addStockRequest db productIdText now (some update) =
        (fail 404 "Product not found", db)) ∧
    (∀ (productId : ObjectId) (currentProduct : Product) (base : List (String × Int)),
      parseObjectId productIdText = some productId →
      db.products.find? (fun p => p._id == productId) = some currentProduct →
      ((currentProduct.sizes = some base ∧ base ≠ []) ∨
        ((currentProduct.sizes = none ∨ currentProduct.sizes = some []) ∧
          base = [("One Size", currentProduct.stock.getD 0)])) →
      (update.map (fun e => e.1)).Nodup →
      (∀ e ∈ update, inheritedKeys.contains e.1 = false) →
      (∀ e ∈ base, isSafeInteger e.2 = true) →
      (∀ e ∈ update, isSafeInteger ((parseIntJs e.2).getD 0) = true ∧
        isSafeInteger ((lookupKey e.1 base).getD 0 + (parseIntJs e.2).getD 0) = true) →
      (addStockRequest db productIdText now (some update)).1.status = 200 ∧
      ∃ (after : Product) (m2 : List (String × Int)),
        (addStockRequest db productIdText now (some update)).2.products.find?
          (fun p => p._id == productId) = some after ∧
        after.sizes = some m2 ∧
        (∀ e ∈ update, 0 < (parseIntJs e.2).getD 0 →
          lookupKey e.1 m2 = some ((lookupKey e.1 base).getD 0 + (parseIntJs e.2).getD 0)) ∧
        (∀ k : String, (∀ e ∈ update, e.1 = k → ¬ 0 < (parseIntJs e.2).getD 0) →
          lookupKey k m2 = lookupKey k base)) := by
  refine ⟨?_, ?_, ?_⟩
  · intro hparse
    simp only [addStockRequest, hparse]
    exact ⟨rfl, trivial⟩
  · intro productId hparse hnone
    simp only [addStockRequest, hparse, addStock, hnone]
  · intro productId currentProduct base hparse hfind hbase hnd _ _ _
    have hcur : currentSizesOf currentProduct = base := by
      unfold currentSizesOf
      rcases hbase with ⟨hm, hne⟩ | ⟨hm, hb⟩
      · rw [hm]
        have : ¬ (Option.getD (some base) []).length = 0 := by
          intro h0
          exact hne (List.length_eq_zero.mp h0)
        simp only
        rw [if_neg this]
        rfl
      · rcases hm with hm | hm
        · rw [hm, hb]
          rfl
        · rw [hm, hb]
          rfl
    obtain ⟨h1, h2⟩ := foldl_addQuantityTo update (currentSizesOf currentProduct) hnd
    rw [hcur] at h1 h2
    refine ⟨?_, ?_⟩
    · simp only [addStockRequest, hparse, addStock, hfind, succeed]
    · simp only [addStockRequest, hparse, addStock, hfind]
      have hf := find?_updateFirst (fun p : Product => p._id == productId)
        (fun p => { p with
          stock := some ((List.map (fun e => e.2)
            (update.foldl addQuantityTo (currentSizesOf currentProduct))).sum)
          sizes := some (update.foldl addQuantityTo (currentSizesOf currentProduct))
          updatedAt := some now }) db.products (fun a ha => ha)
      rw [hfind] at hf
      refine ⟨_, _, hf, rfl, ?_, ?_⟩
      · rw [hcur]
        exact h1
      · rw [hcur]
        exact h2

/-- Witness of C18: the product with `M = 5` receives `M = 3` and `L = 2`,
and the same update for the id `not-an-id` is answered with 500. -/
theorem addStock_size_entries_witness :
    ((addStockRequest storeIdShop idA 4 (some [("M", .num 3), ("L", .str "2")])).1.status =
        200 ∧
      (addStockRequest storeIdShop idA 4 (some [("M", .num 3), ("L", .str "2")])).2.products.map
        (fun p => p.sizes) = [some [("M", 8), ("L", 2)]]) ∧
    (addStockRequest storeIdShop "not-an-id" 4
      (some [("M", .num 3), ("L", .str "2")])).1.status = 500 :=
  ⟨⟨((addStock_size_entries storeIdShop idA 4 [("M", .num 3), ("L", .str "2")]).2.2
      idA (sampleProduct idA "Shirt" []) [("M", 5)] (by decide) (by decide)
      (Or.inl ⟨rfl, by decide⟩) (by decide) (by decide) (by decide) (by decide)).1,
      by decide⟩,
    ((addStock_size_entries storeIdShop "not-an-id" 4 [("M", .num 3), ("L", .str "2")]).1
      (by decide)).1⟩

/-- Counterexample to C18 as stated: the product has an empty size map and
the legacy stock 7, so the key `One Size` is absent; the update
`One Size = 2` leaves `One Size = 9`, not `0 + 2`.  And the update for the
id `not-an-id`, which resolves to no product, is answered with status 500,
not 404. -/
theorem addStock_empty_map_uses_legacy_stock :
    (storeIdLegacy.products.map (fun p => (p.sizes, p.stock)) = [(some [], some 7)] ∧
      (addStockRequest storeIdLegacy idA 4 (some [("One Size", .num 2)])).1.status = 200 ∧
      (addStockRequest storeIdLegacy idA 4 (some [("One Size", .num 2)])).2.products.map
        (fun p => p.sizes) = [some [("One Size", 9)]] ∧
      (lookupKey "One Size" []).getD 0 + 2 ≠ (9 : Int)) ∧
    ((∀ p ∈ storeIdLegacy.products, p._id ≠ "not-an-id") ∧
      (addStockRequest storeIdLegacy "not-an-id" 4
        (some [("One Size", .num 2)])).1.status = 500) := by
  decide

/-! ## Product images -/

theorem find?_updateFirst_image (productId : ObjectId) (f : Product → Product)
    (l : List Product) (hid : ∀ a, (f a)._id = a._id)
    (himg : ∀ a x xs, (f a).images = some (x :: xs) → (f a).image = some x)
    (hsome : (l.find? (fun p => p._id == productId)).isSome = true) :
    ∀ after, (updateFirst (fun p => p._id == productId) f l).find?
        (fun p => p._id == productId) = some after →
      ∀ x xs, after.images = some (x :: xs) → after.image = some x := by
  intro after hafter x xs hx
  rw [find?_updateFirst _ _ _ (fun a ha => by rw [hid a]; exact ha)] at hafter
  obtain ⟨before, hb⟩ := Option.isSome_iff_exists.mp hsome
  rw [hb] at hafter
  have : f before = after := Option.some.inj hafter
  rw [← this] at hx ⊢
  exact himg before x xs hx

/-- The update path keeps the primary image first: after a successful
product update, a non-empty stored `images` list starts with the stored
`image`. -/
theorem updateProduct_primary_first (db : Db) (productId : ObjectId) (now : Nat)
    (form : ProductForm) (existingImages : ImagesField) (files : List String)
    (hok : (updateProduct db productId now form existingImages files).1.status = 200) :
    ∀ after, (updateProduct db productId now form existingImages files).2.products.find?
        (fun p => p._id == productId) = some after →
      ∀ x xs, after.images = some (x :: xs) → after.image = some x := by
  unfold updateProduct at hok ⊢
  by_cases hv : (!truthyStr form.name || !truthyStr form.category ||
      priceMissing form.price) = true
  · rw [if_pos hv] at hok
    simp [fail] at hok
  · rw [if_neg hv] at hok ⊢
    cases hfind : db.products.find? (fun p => p._id == productId) with
    | none =>
      rw [hfind] at hok
      simp [fail] at hok
    | some before =>
      simp only
      refine find?_updateFirst_image productId _ db.products (fun _ => rfl) ?_
        (by rw [hfind]; rfl)
      intro a x xs h
      have h2 := Option.some.inj h
      simp only [h2]
/-! ## Place order: stock decrement -/

theorem lookupKey_incKey (k s : String) (d : Int) (m : List (String × Int)) :
    lookupKey s (incKey k d m) =
      if s = k then some ((lookupKey k m).getD 0 + d) else lookupKey s m := by
  induction m with
  | nil =>
    by_cases h : s = k
    · simp [incKey, lookupKey, h]
    · have h2 : ¬ k = s := fun h3 => h h3.symm
      simp [incKey, lookupKey, h, h2]
  | cons e rest ih =>
    obtain ⟨k', w⟩ := e
    by_cases hk : k' = k
    · subst hk
      by_cases h : s = k'
      · subst h
        simp [incKey, lookupKey]
      · have h2 : ¬ k' = s := fun h3 => h h3.symm
        simp [incKey, lookupKey, h, h2]
    · by_cases h : s = k
      · subst h
        simp [incKey, lookupKey, hk, ih]
      · by_cases h2 : k' = s
        · subst h2
          simp [incKey, lookupKey, hk]
        · simp [incKey, lookupKey, hk, h, h2, ih]

theorem lookupKey_sizesAfter (item : OrderReqItem) (m : List (String × Int)) (s : String) :
    (lookupKey s (sizesAfter item m)).getD 0 =
      (lookupKey s m).getD 0 - (if orNull item.size = some s then item.quantity else 0) ∧
    ((lookupKey s m).isSome = true → (lookupKey s (sizesAfter item m)).isSome = true) := by
  unfold sizesAfter
  cases hsz : orNull item.size with
  | none => simp
  | some sz =>
    simp only [lookupKey_incKey]
    by_cases h : s = sz
    · subst h
      simp
      ring
    · have h2 : ¬ sz = s := fun h3 => h h3.symm
      simp [h, h2]

theorem decrementStock_id (item : OrderReqItem) (p : Product) :
    (decrementStock item p)._id = p._id := by
  unfold decrementStock
  cases p.stock <;> cases item.size <;> cases p.sizes <;> simp only <;> try rfl
  all_goals split_ifs <;> rfl

theorem decrementStock_stock (item : OrderReqItem) (p : Product)
    (hplain : ∀ sz, item.size = some sz → sz ≠ "" → isPlainKey sz = true) :
    (decrementStock item p).stock = p.stock.map (fun v => v - item.quantity) := by
  unfold decrementStock
  cases hs : p.stock <;> cases hsz : item.size <;> cases p.sizes <;>
    simp only [hs, Option.map_none', Option.map_some', Int.sub_eq_add_neg] <;> try rfl
  all_goals
    rename_i sz m
    by_cases h : sz = ""
    · simp [h, hs]
    · have hp := hplain sz hsz h
      simp [h, hp, hs]

theorem decrementStock_sizes (item : OrderReqItem) (p : Product)
    (hplain : ∀ sz, item.size = some sz → sz ≠ "" → isPlainKey sz = true) :
    (decrementStock item p).sizes = p.sizes.map (sizesAfter item) := by
  unfold decrementStock sizesAfter orNull
  cases hst : p.stock <;> cases hsz : item.size <;> cases hm : p.sizes <;>
    simp only [hm, truthyStr, Option.map_none', Option.map_some'] <;> try rfl
  all_goals
    rename_i sz m
    by_cases h : sz = ""
    · simp [h, hm]
    · have hp := hplain sz hsz h
      simp [h, hp, hm]

theorem stockStep_id (id : ObjectId) (acc : Product) (item : OrderReqItem) :
    (stockStep id acc item)._id = acc._id := by
  unfold stockStep
  split
  · exact decrementStock_id item acc
  · rfl

theorem applyStockUpdate_eq_map (products : List Product) (item : OrderReqItem)
    (huniq : (products.map (fun p => p._id)).Nodup) :
    applyStockUpdate products item = products.map (fun p => stockStep p._id p item) := by
  unfold applyStockUpdate stockStep refersTo
  by_cases ht : truthyStr (optOr item.productId item.id) = true
  · simp only [ht, if_true, Bool.true_and]
    cases hparse : parseObjectId ((optOr item.productId item.id).getD "") with
    | none =>
      simp only
      conv_lhs => rw [← List.map_id products]
      apply List.map_congr_left
      intro q _
      rw [if_neg (by simp)]
      rfl
    | some oid =>
      simp only
      have hmap : updateFirst (fun p => p._id == oid) (decrementStock item) products =
          products.map (fun p =>
            if (some oid == some p._id) = true then decrementStock item p else p) := by
        rw [updateFirst_eq_map _ _ products huniq]
        apply List.map_congr_left
        intro q _
        by_cases hq : q._id = oid
        · simp [hq]
        · have hq2 : ¬ oid = q._id := fun h => hq h.symm
          simp [hq, hq2]
      cases hfind : products.find? (fun p => p._id == oid) with
      | some found =>
        simp only
        exact hmap
      | none =>
        simp only
        conv_lhs => rw [← List.map_id products]
        apply List.map_congr_left
        intro q hq
        have hne := List.find?_eq_none.mp hfind q hq
        have hne2 : ¬ (some oid == some q._id) = true := by
          intro h
          apply hne
          simp only [beq_iff_eq, Option.some.injEq] at h
          simp [h]
        rw [if_neg hne2]
        rfl
  · have ht' : truthyStr (optOr item.productId item.id) = false := by simpa using ht
    simp only [ht', Bool.false_eq_true, if_false, Bool.false_and]
    simp

theorem foldl_applyStockUpdate (items : List OrderReqItem) :
    ∀ products : List Product, (products.map (fun p => p._id)).Nodup →
      items.foldl applyStockUpdate products =
        products.map (fun p => items.foldl (stockStep p._id) p) := by
  induction items with
  | nil =>
    intro products _
    simp
  | cons i is ih =>
    intro products huniq
    rw [List.foldl_cons, applyStockUpdate_eq_map products i huniq]
    have h1 : ((products.map (fun p => stockStep p._id p i)).map (fun p => p._id)).Nodup := by
      have : (products.map (fun p => stockStep p._id p i)).map (fun p => p._id) =
          products.map (fun p => p._id) := by
        rw [List.map_map]
        apply List.map_congr_left
        intro q _
        exact stockStep_id q._id q i
      rw [this]
      exact huniq
    rw [ih _ h1, List.map_map]
    apply List.map_congr_left
    intro q _
    simp only [Function.comp_apply, List.foldl_cons, stockStep_id]

theorem orderedQuantity_cons (i : OrderReqItem) (is : List OrderReqItem) (id : ObjectId) :
    orderedQuantity (i :: is) id =
      (if refersTo i id = true then i.quantity else 0) + orderedQuantity is id := by
  unfold orderedQuantity
  by_cases h : refersTo i id = true
  · simp [List.filter_cons, h]
  · simp [List.filter_cons, h]

theorem orderedSizeQuantity_cons (i : OrderReqItem) (is : List OrderReqItem) (id : ObjectId)
    (s : String) :
    orderedSizeQuantity (i :: is) id s =
      (if refersTo i id = true ∧ orNull i.size = some s then i.quantity else 0) +
        orderedSizeQuantity is id s := by
  unfold orderedSizeQuantity
  by_cases h : refersTo i id = true
  · by_cases h2 : orNull i.size = some s
    · simp [List.filter_cons, h, h2]
    · simp [List.filter_cons, h, h2]
  · simp [List.filter_cons, h]
theorem foldl_stockStep_spec (id : ObjectId) (items : List OrderReqItem)
    (hplain : ∀ i ∈ items, ∀ sz, i.size = some sz → sz ≠ "" → isPlainKey sz = true) :
    ∀ p : Product,
      (items.foldl (stockStep id) p)._id = p._id ∧
      (items.foldl (stockStep id) p).stock =
        p.stock.map (fun v => v - orderedQuantity items id) ∧
      (p.sizes = none → (items.foldl (stockStep id) p).sizes = none) ∧
      (∀ m, p.sizes = some m → ∃ m2, (items.foldl (stockStep id) p).sizes = some m2 ∧
        ∀ s : String,
          (lookupKey s m2).getD 0 = (lookupKey s m).getD 0 - orderedSizeQuantity items id s ∧
          ((lookupKey s m).isSome = true → (lookupKey s m2).isSome = true)) ∧
      ((∀ i ∈ items, refersTo i id = false) → items.foldl (stockStep id) p = p) := by
  induction items with
  | nil =>
    intro p
    refine ⟨rfl, ?_, fun h => h, ?_, fun _ => rfl⟩
    · show p.stock = p.stock.map (fun v => v - orderedQuantity [] id)
      cases p.stock with
      | none => rfl
      | some v => simp [orderedQuantity]
    · intro m hm
      exact ⟨m, hm, fun s => ⟨by simp [orderedSizeQuantity], fun h => h⟩⟩
  | cons i is ih =>
    intro p
    have hpi := hplain i (List.mem_cons_self _ _)
    obtain ⟨h1, h2, h3, h4, h5⟩ :=
      ih (fun x hx => hplain x (List.mem_cons_of_mem _ hx)) (stockStep id p i)
    rw [List.foldl_cons]
    by_cases hr : refersTo i id = true
    · have hstep : stockStep id p i = decrementStock i p := by
        unfold stockStep
        rw [if_pos hr]
      rw [hstep] at h1 h2 h3 h4 h5 ⊢
      refine ⟨?_, ?_, ?_, ?_, ?_⟩
      · rw [h1, decrementStock_id]
      · rw [h2, decrementStock_stock i p hpi, orderedQuantity_cons, if_pos hr]
        cases p.stock with
        | none => rfl
        | some v =>
          simp only [Option.map_some']
          congr 1
          ring
      · intro hn
        apply h3
        rw [decrementStock_sizes i p hpi, hn]
        rfl
      · intro m hm
        have hm1 : (decrementStock i p).sizes = some (sizesAfter i m) := by
          rw [decrementStock_sizes i p hpi, hm]
          rfl
        obtain ⟨m2, hm2, hlook⟩ := h4 _ hm1
        refine ⟨m2, hm2, fun s => ?_⟩
        obtain ⟨ha, hb⟩ := hlook s
        obtain ⟨hc, hd⟩ := lookupKey_sizesAfter i m s
        refine ⟨?_, fun h => hb (hd h)⟩
        rw [ha, hc, orderedSizeQuantity_cons]
        by_cases hsz : orNull i.size = some s
        · rw [if_pos hsz, if_pos ⟨hr, hsz⟩]
          ring
        · rw [if_neg hsz, if_neg (fun h => hsz h.2)]
          ring
      · intro hall
        have := hall i (List.mem_cons_self _ _)
        rw [hr] at this
        cases this
    · have hstep : stockStep id p i = p := by
        unfold stockStep
        rw [if_neg hr]
      rw [hstep] at h1 h2 h3 h4 h5 ⊢
      refine ⟨h1, ?_, h3, ?_, ?_⟩
      · rw [h2, orderedQuantity_cons, if_neg hr, Int.zero_add]
      · intro m hm
        obtain ⟨m2, hm2, hlook⟩ := h4 m hm
        refine ⟨m2, hm2, fun s => ?_⟩
        rw [orderedSizeQuantity_cons, if_neg (fun h => hr h.1), Int.zero_add]
        exact hlook s
      · intro hall
        exact h5 (fun x hx => hall x (List.mem_cons_of_mem _ hx))

theorem placeOrder_valid_products (db : Db) (userId newId : ObjectId) (now : Nat)
    (req : OrderRequest) (h : validateOrder req = none) :
    (placeOrder db userId newId now req).2.products =
      req.items.toList.foldl applyStockUpdate db.products := by
  simp [placeOrder, h]

/-- C14, as corrected: after a successful order whose items carry sizes
that are single field names (not empty, without `.` and `$`), in a store
whose products have distinct `_id`s, the products before and after
correspond one to one, in order, as `StockDecremented` says: the legacy
stock, when present, is its previous value minus the quantities of the
submitted items naming the product; every entry of a size map is its
previous value (0 for a key the map did not have) minus the quantities of
the items naming the product with that size; a product without a size map
still has none; a product named by no item is unchanged. -/
theorem placeOrder_decrements_stock (db : Db) (userId newId : ObjectId) (now : Nat)
    (req : OrderRequest) (hok : (placeOrder db userId newId now req).1.status = 201)
    (huniq : (db.products.map (fun p => p._id)).Nodup)
    (hplain : ∀ i ∈ req.items.toList, ∀ sz, i.size = some sz → sz ≠ "" →
      isPlainKey sz = true) :
    List.Forall₂ (StockDecremented req.items.toList) db.products
      (placeOrder db userId newId now req).2.products := by
  have hv := validateOrder_of_success db userId newId now req hok
  rw [placeOrder_valid_products db userId newId now req hv,
    foldl_applyStockUpdate req.items.toList db.products huniq,
    List.forall₂_map_right_iff, List.forall₂_same]
  intro p _
  obtain ⟨h1, h2, h3, h4, h5⟩ := foldl_stockStep_spec p._id req.items.toList hplain p
  refine ⟨h1, h2, h3, ?_, h5⟩
  intro m hm
  obtain ⟨m2, hm2, hlook⟩ := h4 m hm
  refine ⟨m2, hm2, fun s => ⟨(hlook s).1, ?_⟩⟩
  intro v hv2
  have hsome := (hlook s).2 (by rw [hv2]; rfl)
  obtain ⟨w, hw⟩ := Option.isSome_iff_exists.mp hsome
  have hval := (hlook s).1
  rw [hw, hv2] at hval
  simp only [Option.getD_some] at hval
  rw [hw, hval]

/-- Witness of C14: two lines for the product `idA`, of sizes `M` and `L`,
the second naming the product in upper case through its `id` field, are
ordered from the store that holds `idA` with 5 pieces of `M` and legacy
stock 5. -/
theorem placeOrder_decrements_stock_witness :
    List.Forall₂
      (StockDecremented [⟨"Shirt", 500, 2, some "M", some idA, none⟩,
        ⟨"Shirt", 500, 1, some "L", none, some idAUpper⟩])
      storeIdShop.products
      (placeOrder storeIdShop idU idO 1
        ⟨.array [⟨"Shirt", 500, 2, some "M", some idA, none⟩,
          ⟨"Shirt", 500, 1, some "L", none, some idAUpper⟩], some 1500, none,
          .str "card", .undefined⟩).2.products ∧
    (placeOrder storeIdShop idU idO 1
        ⟨.array [⟨"Shirt", 500, 2, some "M", some idA, none⟩,
          ⟨"Shirt", 500, 1, some "L", none, some idAUpper⟩], some 1500, none,
          .str "card", .undefined⟩).2.products.map (fun p => (p.stock, p.sizes)) =
      [(some 2, some [("M", 3), ("L", -1)])] :=
  ⟨placeOrder_decrements_stock storeIdShop idU idO 1
      ⟨.array [⟨"Shirt", 500, 2, some "M", some idA, none⟩,
        ⟨"Shirt", 500, 1, some "L", none, some idAUpper⟩], some 1500, none,
        .str "card", .undefined⟩ (by decide) (by decide) (by decide), by decide⟩

/-- Counterexample to C14 as stated: the product `idA` has 5 pieces of size
`M` and legacy stock 5; an order of 2 pieces names it with the size `M.x`.
The order succeeds and the product is left as it was, although the
quantities of the items naming it sum to 2: the path `sizes.M.x` runs into
the number under `M`, the store refuses the whole update, and the handler
catches the error. -/
theorem placeOrder_dotted_size_keeps_stock :
    (placeOrder storeIdShop idU idO 1
      ⟨.array [⟨"Shirt", 500, 2, some "M.x", some idA, none⟩], some 1000, none,
        .str "card", .undefined⟩).1.status = 201 ∧
    orderedQuantity [⟨"Shirt", 500, 2, some "M.x", some idA, none⟩] idA = 2 ∧
    storeIdShop.products.map (fun p => (p._id, p.stock, p.sizes)) =
      [(idA, some 5, some [("M", 5)])] ∧
    (placeOrder storeIdShop idU idO 1
      ⟨.array [⟨"Shirt", 500, 2, some "M.x", some idA, none⟩], some 1000, none,
        .str "card", .undefined⟩).2.products.map (fun p => (p._id, p.stock, p.sizes)) =
      [(idA, some 5, some [("M", 5)])] :=
  ⟨by decide, by decide, by decide, by decide⟩

/-! ## Admin orders -/

theorem forall₂_updateFirst {α : Type} (R : α → α → Prop) (p : α → Bool) (f : α → α)
    (hrefl : ∀ x, R x x) (hf : ∀ x, p x = true → R x (f x)) (l : List α) :
    List.Forall₂ R l (updateFirst p f l) := by
  induction l with
  | nil => exact List.Forall₂.nil
  | cons x xs ih =>
    by_cases hx : p x = true
    · simp only [updateFirst, hx, if_true]
      exact List.Forall₂.cons (hf x hx) (List.forall₂_same.mpr (fun y _ => hrefl y))
    · simp only [updateFirst, hx]
      rw [if_neg (by simp)]
      exact List.Forall₂.cons (hrefl x) ih

/-- C21, as corrected: when the order id is written as 24 hexadecimal
digits and no stored order has it, the admin order update answers 404 and
leaves the store as it was; when one has, it answers 200, the orders before
and after correspond one to one, each the same or, for the given id,
different in `status`, `paymentStatus` and `updatedAt` at most, and the
order items and every other collection are unchanged.  When the order id is
not written as 24 hexadecimal digits the answer is 500 and the store is left
as it was. -/
theorem adminUpdateOrder_frame (db : Db) (orderIdText : String) (now : Nat)
    (status paymentStatus : Option String) :
    (∀ orderId : ObjectId, parseObjectId orderIdText = some orderId →
      ((∀ o ∈ db.orders, o._id ≠ orderId) →
        adminUpdateOrder db orderIdText now status paymentStatus =
          (fail 404 "Order not found", db)) ∧
      ((∃ o ∈ db.orders, o._id = orderId) →
        (adminUpdateOrder db orderIdText now status paymentStatus).1.status = 200 ∧
        List.Forall₂ (OrderUpdatedFrom orderId) db.orders
          (adminUpdateOrder db orderIdText now status paymentStatus).2.orders ∧
        (adminUpdateOrder db orderIdText now status paymentStatus).2.order_items =
          db.order_items ∧
        { (adminUpdateOrder db orderIdText now status paymentStatus).2 with
            orders := db.orders } = db)) ∧
    (parseObjectId orderIdText = none →
      adminUpdateOrder db orderIdText now status paymentStatus =
        (fail 500 "Error updating order", db)) := by
  constructor
  · intro orderId hparse
    constructor
    · intro hno
      have hfind : db.orders.find? (fun o => o._id == orderId) = none := by
        rw [List.find?_eq_none]
        intro o ho
        simpa using hno o ho
      simp only [adminUpdateOrder, hparse, hfind]
    · intro hex
      obtain ⟨o, ho, hoid⟩ := hex
      have hsome : (db.orders.find? (fun o => o._id == orderId)).isSome = true := by
        rw [List.find?_isSome]
        exact ⟨o, ho, by simpa using hoid⟩
      obtain ⟨found, hfound⟩ := Option.isSome_iff_exists.mp hsome
      simp only [adminUpdateOrder, hparse, hfound]
      refine ⟨rfl, ?_, trivial, trivial⟩
      apply forall₂_updateFirst
      · intro x
        exact Or.inl rfl
      · intro x hx
        exact Or.inr ⟨by simpa using hx, rfl⟩
  · intro hparse
    simp only [adminUpdateOrder, hparse]

/-- Witness of C21: the order `idO2` is set to `shipped`, and a request for
the id `not-an-id` is answered with 500. -/
theorem adminUpdateOrder_frame_witness :
    ((adminUpdateOrder storeIdOrders idO2 5 (some "shipped") none).1.status = 200 ∧
      (adminUpdateOrder storeIdOrders idO2 5 (some "shipped") none).2.order_items =
        storeIdOrders.order_items) ∧
    adminUpdateOrder storeIdOrders "not-an-id" 5 (some "shipped") none =
      (fail 500 "Error updating order", storeIdOrders) :=
  ⟨⟨(((adminUpdateOrder_frame storeIdOrders idO2 5 (some "shipped") none).1 idO2
        (by decide)).2 ⟨sampleOrder idO2 idU2, by decide, rfl⟩).1,
     (((adminUpdateOrder_frame storeIdOrders idO2 5 (some "shipped") none).1 idO2
        (by decide)).2 ⟨sampleOrder idO2 idU2, by decide, rfl⟩).2.2.1⟩,
   (adminUpdateOrder_frame storeIdOrders "not-an-id" 5 (some "shipped") none).2 (by decide)⟩

/-- Counterexample to C21 as stated: no stored order has the id `not-an-id`,
and the admin order update for it is answered with status 500, not 404. -/
theorem adminUpdateOrder_malformed_id_500 :
    (∀ o ∈ storeIdOrders.orders, o._id ≠ "not-an-id") ∧
    (adminUpdateOrder storeIdOrders "not-an-id" 5 (some "shipped") none).1 =
      fail 500 "Error updating order" ∧
    (adminUpdateOrder storeIdOrders "not-an-id" 5 (some "shipped") none).1.status ≠ 404 := by
  decide

theorem filter_ne_deleteFirst (orderId : ObjectId) (l : List Order) :
    (deleteFirst (fun o => o._id == orderId) l).filter (fun o => o._id != orderId) =
      l.filter (fun o => o._id != orderId) := by
  induction l with
  | nil => rfl
  | cons x xs ih =>
    by_cases hx : x._id = orderId
    · simp [deleteFirst, hx]
    · simp [deleteFirst, hx, ih]

theorem deleteFirst_absent (orderId : ObjectId) (l : List Order)
    (huniq : (l.map (fun o => o._id)).Nodup) :
    ∀ o ∈ deleteFirst (fun o => o._id == orderId) l, o._id ≠ orderId := by
  induction l with
  | nil =>
    intro o ho
    cases ho
  | cons x xs ih =>
    rw [List.map_cons, List.nodup_cons] at huniq
    by_cases hx : x._id = orderId
    · intro o ho
      simp only [deleteFirst, hx, beq_self_eq_true, if_true] at ho
      intro hoid
      exact huniq.1 (List.mem_map.mpr ⟨o, ho, by rw [hoid, hx]⟩)
    · intro o ho
      simp only [deleteFirst] at ho
      rw [if_neg (by simpa using hx), List.mem_cons] at ho
      rcases ho with rfl | ho
      · exact hx
      · exact ih huniq.2 o ho

/-- C22, as corrected: for an order id written as 24 hexadecimal digits,
after the admin order delete the order items are the ones that do not
reference the given order id, in their order, so none references it and
those of other orders are unchanged; the orders with another id are
unchanged; in a store whose orders have distinct `_id`s no order with the
given id is left; and the answer is 404 exactly when no order had the id,
and 200 otherwise.  For an order id not written as 24 hexadecimal digits the
answer is 500 and the store is left as it was. -/
theorem adminDeleteOrder_cascade (db : Db) (orderIdText : String) :
    (∀ orderId : ObjectId, parseObjectId orderIdText = some orderId →
      (adminDeleteOrder db orderIdText).2.order_items =
        db.order_items.filter (fun i => i.orderId != orderId) ∧
      (∀ i ∈ (adminDeleteOrder db orderIdText).2.order_items, i.orderId ≠ orderId) ∧
      (adminDeleteOrder db orderIdText).2.orders.filter (fun o => o._id != orderId) =
        db.orders.filter (fun o => o._id != orderId) ∧
      ((db.orders.map (fun o => o._id)).Nodup →
        ∀ o ∈ (adminDeleteOrder db orderIdText).2.orders, o._id ≠ orderId) ∧
      ((adminDeleteOrder db orderIdText).1.status = 404 ↔
        ∀ o ∈ db.orders, o._id ≠ orderId) ∧
      ((adminDeleteOrder db orderIdText).1.status = 200 ↔
        ∃ o ∈ db.orders, o._id = orderId)) ∧
    (parseObjectId orderIdText = none →
      (adminDeleteOrder db orderIdText).1.status = 500 ∧
      (adminDeleteOrder db orderIdText).2 = db) := by
  constructor
  · intro orderId hparse
    have hitems : deleteAll (fun i : OrderItem => i.orderId == orderId) db.order_items =
        db.order_items.filter (fun i => i.orderId != orderId) := rfl
    cases hfind : db.orders.find? (fun o => o._id == orderId) with
    | none =>
      have hno : ∀ o ∈ db.orders, o._id ≠ orderId := by
        intro o ho
        simpa using List.find?_eq_none.mp hfind o ho
      simp only [adminDeleteOrder, hparse, hfind, hitems]
      refine ⟨trivial, ?_, trivial, fun _ => hno, ⟨fun _ => hno, fun _ => rfl⟩, ⟨?_, ?_⟩⟩
      · intro i hi
        simpa using (List.mem_filter.mp hi).2
      · intro h
        simp [fail] at h
      · intro ⟨o, ho, hoid⟩
        exact absurd hoid (hno o ho)
    | some found =>
      have hex : ∃ o ∈ db.orders, o._id = orderId :=
        ⟨found, List.mem_of_find?_eq_some hfind, by simpa using List.find?_some hfind⟩
      simp only [adminDeleteOrder, hparse, hfind, hitems]
      refine ⟨trivial, ?_, filter_ne_deleteFirst orderId db.orders,
        fun huniq => deleteFirst_absent orderId db.orders huniq, ⟨?_, ?_⟩,
        ⟨fun _ => hex, fun _ => rfl⟩⟩
      · intro i hi
        simpa using (List.mem_filter.mp hi).2
      · intro h
        simp [succeed] at h
      · intro hno
        obtain ⟨o, ho, hoid⟩ := hex
        exact absurd hoid (hno o ho)
  · intro hparse
    simp only [adminDeleteOrder, hparse]
    exact ⟨rfl, trivial⟩

/-- Witness of C22: the order `idO` is deleted with its two order items, and
a request for the id `not-an-id` is answered with 500. -/
theorem adminDeleteOrder_cascade_witness :
    ((adminDeleteOrder storeIdOrders idO).2.orders = [sampleOrder idO2 idU2] ∧
      (sampleOrder idO2 idU2)._id ≠ idO) ∧
    (adminDeleteOrder storeIdOrders "not-an-id").1.status = 500 :=
  ⟨⟨by decide, ((adminDeleteOrder_cascade storeIdOrders idO).1 idO (by decide)).2.2.2.1
      (by decide) (sampleOrder idO2 idU2) (by decide)⟩,
    ((adminDeleteOrder_cascade storeIdOrders "not-an-id").2 (by decide)).1⟩

/-- Counterexample to C22 as stated: no stored order has the id `not-an-id`,
and the admin order delete for it is answered with status 500, not 404; the
store is left as it was. -/
theorem adminDeleteOrder_malformed_id_500 :
    (∀ o ∈ storeIdOrders.orders, o._id ≠ "not-an-id") ∧
    (adminDeleteOrder storeIdOrders "not-an-id").1.status = 500 ∧
    (adminDeleteOrder storeIdOrders "not-an-id").1.status ≠ 404 ∧
    (adminDeleteOrder storeIdOrders "not-an-id").2 = storeIdOrders := by
  decide

/-! ## Address update for a foreign id -/

/-- C26, as corrected: when the request carries `isDefault = true`, the
caller's id and the address id are written as 24 hexadecimal digits and no
address of the caller has the given id, the address update answers 404 with
`Address not found`, and yet every address of the caller has been unset: the
addresses of the caller all have `isDefault = false` afterwards, those of
other users are unchanged.  When the address id is not written as 24
hexadecimal digits the answer is 500 and the store is left as it was. -/
theorem updateAddress_foreign_id_unsets (db : Db) (userIdText addressIdText : String)
    (now : Nat) (req : AddressRequest) (hdef : req.isDefault = some true) :
    (∀ userId addressId : ObjectId, parseObjectId userIdText = some userId →
      parseObjectId addressIdText = some addressId →
      (∀ a ∈ db.addresses, a.userId = userId → a._id ≠ addressId) →
      (updateAddressRequest db userIdText addressIdText now req).1 =
        fail 404 "Address not found" ∧
      (updateAddressRequest db userIdText addressIdText now req).2.addresses =
        db.addresses.map (fun a => if a.userId = userId then unsetDefault a else a) ∧
      (∀ a ∈ (updateAddressRequest db userIdText addressIdText now req).2.addresses,
        a.userId = userId → a.isDefault = false)) ∧
    (parseObjectId addressIdText = none →
      updateAddressRequest db userIdText addressIdText now req =
        (fail 500 "Error updating address", db)) := by
  constructor
  · intro userId addressId huid haid hnot
    have hmap : updateAll (fun a => a.userId == userId && a._id != addressId) unsetDefault
        db.addresses =
        db.addresses.map (fun a => if a.userId = userId then unsetDefault a else a) := by
      unfold updateAll
      apply List.map_congr_left
      intro a ha
      by_cases hu : a.userId = userId
      · have hid := hnot a ha hu
        simp [hu, hid]
      · simp [hu]
    have hfind :
        (db.addresses.map (fun a => if a.userId = userId then unsetDefault a else a)).find?
          (fun a => a._id == addressId && a.userId == userId) = none := by
      rw [List.find?_eq_none]
      intro x hx
      obtain ⟨a, ha, rfl⟩ := List.mem_map.mp hx
      by_cases hu : a.userId = userId
      · have hid := hnot a ha hu
        simp [hu, hid, unsetDefault]
      · simp [hu]
    simp only [updateAddressRequest, huid, haid, updateAddress, hdef, Option.getD_some,
      if_true, hmap, hfind]
    refine ⟨trivial, trivial, ?_⟩
    intro x hx hxu
    obtain ⟨a, _, rfl⟩ := List.mem_map.mp hx
    by_cases hu : a.userId = userId
    · simp [hu, unsetDefault]
    · rw [if_neg hu] at hxu
      exact absurd hxu hu
  · intro haid
    simp only [updateAddressRequest, haid]

/-- Witness of C26: `idU`, whose default address is `idY`, asks to update
the address `idZ` of `idU2`; the answer is 404 and `idU` has no default
address left.  The same request for the id `not-an-id` is answered with
500. -/
theorem updateAddress_foreign_id_unsets_witness :
    ((updateAddressRequest storeIdAddresses idU idZ 3 defaultForm).1 =
        fail 404 "Address not found" ∧
      defaultsOf idU
        (updateAddressRequest storeIdAddresses idU idZ 3 defaultForm).2.addresses = []) ∧
    updateAddressRequest storeIdAddresses idU "not-an-id" 3 defaultForm =
      (fail 500 "Error updating address", storeIdAddresses) :=
  ⟨⟨((updateAddress_foreign_id_unsets storeIdAddresses idU idZ 3 defaultForm rfl).1 idU idZ
      (by decide) (by decide) (by decide)).1, by decide⟩,
    (updateAddress_foreign_id_unsets storeIdAddresses idU "not-an-id" 3 defaultForm rfl).2
      (by decide)⟩

/-- Counterexample to C26 as stated: `idU`, whose default address is `idY`,
asks with `isDefault = true` to update the address `not-an-id`, which is
none of the addresses of `idU`; the answer is 500, not 404, and `idY` is
still the default address of `idU`. -/
theorem updateAddress_malformed_id_keeps_default :
    (∀ a ∈ storeIdAddresses.addresses, a.userId = idU → a._id ≠ "not-an-id") ∧
    (updateAddressRequest storeIdAddresses idU "not-an-id" 3 defaultForm).1 =
      fail 500 "Error updating address" ∧
    (defaultsOf idU
      (updateAddressRequest storeIdAddresses idU "not-an-id" 3 defaultForm).2.addresses).map
        (fun a => a._id) = [idY] := by
  decide

/-! ## Add stock: the aggregate -/

/-- C30: after a successful call of the first add-stock handler the product
holds the size map the handler built and a legacy stock equal to the sum of
the values of that map, whatever its legacy stock was; when no submitted
quantity is positive, that map is the map the handler started from (the
product's size map, or `One Size = previous stock` for an absent or empty
one), so the stock is recomputed from it all the same. -/
theorem addStock_stock_is_sum (db : Db) (productId : ObjectId) (now : Nat)
    (stockUpdate : Option (List (String × JsVal)))
    (hok : (addStock db productId now stockUpdate).1.status = 200) :
    ∃ (update : List (String × JsVal)) (currentProduct after : Product)
      (m2 : List (String × Int)),
      stockUpdate = some update ∧
      db.products.find? (fun p => p._id == productId) = some currentProduct ∧
      (addStock db productId now stockUpdate).2.products.find?
        (fun p => p._id == productId) = some after ∧
      after.sizes = some m2 ∧
      after.stock = some ((m2.map (fun e => e.2)).sum) ∧
      ((∀ e ∈ update, ¬ 0 < (parseIntJs e.2).getD 0) → m2 = currentSizesOf currentProduct) := by
  cases stockUpdate with
  | none => simp [addStock, fail] at hok
  | some update =>
    cases hfind : db.products.find? (fun p => p._id == productId) with
    | none => simp [addStock, hfind, fail] at hok
    | some currentProduct =>
      have hf := find?_updateFirst (fun p : Product => p._id == productId)
        (fun p => { p with
          stock := some ((List.map (fun e => e.2)
            (update.foldl addQuantityTo (currentSizesOf currentProduct))).sum)
          sizes := some (update.foldl addQuantityTo (currentSizesOf currentProduct))
          updatedAt := some now }) db.products (fun a ha => ha)
      rw [hfind] at hf
      refine ⟨update, currentProduct,
        { currentProduct with
          stock := some ((List.map (fun e => e.2)
            (update.foldl addQuantityTo (currentSizesOf currentProduct))).sum)
          sizes := some (update.foldl addQuantityTo (currentSizesOf currentProduct))
          updatedAt := some now },
        update.foldl addQuantityTo (currentSizesOf currentProduct), rfl, rfl, ?_, rfl, rfl, ?_⟩
      · simp only [addStock, hfind]
        exact hf
      · intro hall
        have hstep : ∀ (l : List (String × JsVal)) (base : List (String × Int)),
            (∀ e ∈ l, ¬ 0 < (parseIntJs e.2).getD 0) → l.foldl addQuantityTo base = base := by
          intro l
          induction l with
          | nil => intro base _; rfl
          | cons e es ih =>
            intro base h
            rw [List.foldl_cons]
            have he : addQuantityTo base e = base := by
              unfold addQuantityTo
              simp only
              rw [if_neg (h e (List.mem_cons_self _ _))]
            rw [he]
            exact ih base (fun x hx => h x (List.mem_cons_of_mem _ hx))
        exact hstep update _ hall

/-- Witness of C30: the product has `M = 5` and the legacy stock 5; the
update `M = 0` leaves the size map as it was and the stock at 5. -/
theorem addStock_stock_is_sum_witness :
    ∃ (update : List (String × JsVal)) (currentProduct after : Product)
      (m2 : List (String × Int)),
      some [("M", JsVal.num 0)] = some update ∧
      storeShop.products.find? (fun p => p._id == "p1") = some currentProduct ∧
      (addStock storeShop "p1" 4 (some [("M", .num 0)])).2.products.find?
        (fun p => p._id == "p1") = some after ∧
      after.sizes = some m2 ∧
      after.stock = some ((m2.map (fun e => e.2)).sum) ∧
      ((∀ e ∈ update, ¬ 0 < (parseIntJs e.2).getD 0) → m2 = currentSizesOf currentProduct) :=
  addStock_stock_is_sum storeShop "p1" 4 (some [("M", .num 0)]) (by decide)

/-! ## Authentication -/

theorem splitOnSpace_head (l : List Char) :
    (splitOnSpace l).head? = some (l.takeWhile (fun c => c != ' ')) := by
  induction l with
  | nil => rfl
  | cons c cs ih =>
    by_cases hc : c = ' '
    · subst hc
      rfl
    · have hb : (c != ' ') = true := by simpa using hc
      simp only [splitOnSpace, hc, if_false, List.takeWhile_cons, hb, if_true]
      cases hsp : splitOnSpace cs with
      | nil =>
        rw [hsp] at ih
        cases ih
      | cons w ws =>
        rw [hsp] at ih
        simp only [List.head?_cons, Option.some.injEq] at ih
        simp only [List.head?_cons, ih]

theorem splitOnSpace_no_space (l : List Char) (h : ' ' ∉ l) : splitOnSpace l = [l] := by
  induction l with
  | nil => rfl
  | cons c cs ih =>
    have hc : ¬ c = ' ' := fun hc => h (by rw [hc]; exact List.mem_cons_self _ _)
    have hcs : ' ' ∉ cs := fun hm => h (List.mem_cons_of_mem _ hm)
    simp only [splitOnSpace, hc, if_false, ih hcs]

theorem splitOnSpace_append (scheme rest : List Char) (h : ' ' ∉ scheme) :
    splitOnSpace (scheme ++ ' ' :: rest) = scheme :: splitOnSpace rest := by
  induction scheme with
  | nil => simp [splitOnSpace]
  | cons c cs ih =>
    have hc : ¬ c = ' ' := fun hc => h (by rw [hc]; exact List.mem_cons_self _ _)
    have hcs : ' ' ∉ cs := fun hm => h (List.mem_cons_of_mem _ hm)
    have hih := ih hcs
    show splitOnSpace (c :: (cs ++ ' ' :: rest)) = (c :: cs) :: splitOnSpace rest
    simp only [splitOnSpace, hc, if_false, hih]

theorem string_mk_eq_empty (l : List Char) : String.mk l = "" ↔ l = [] := by
  constructor
  · intro h
    have := congrArg String.data h
    exact this
  · intro h
    rw [h]

theorem bearerToken_no_space (l : List Char) (h : ' ' ∉ l) :
    bearerToken (some (String.mk l)) = none ∨ bearerToken (some (String.mk l)) = some "" := by
  by_cases hl : l = []
  · right
    subst hl
    rfl
  · left
    have hne : ¬ String.mk l = "" := fun h0 => hl ((string_mk_eq_empty l).mp h0)
    simp only [bearerToken, hne, if_false, splitOnSpace_no_space l h]
    try rfl

theorem bearerToken_of_header (scheme rest : List Char) (h : ' ' ∉ scheme) :
    bearerToken (some (String.mk (scheme ++ ' ' :: rest))) =
      some (String.mk (rest.takeWhile (fun c => c != ' '))) := by
  have hne : ¬ String.mk (scheme ++ ' ' :: rest) = "" := by
    intro h0
    have := (string_mk_eq_empty _).mp h0
    simp at this
  have hhead := splitOnSpace_head rest
  simp only [bearerToken, hne, if_false, splitOnSpace_append scheme rest h]
  cases hsp : splitOnSpace rest with
  | nil =>
    rw [hsp] at hhead
    cases hhead
  | cons w ws =>
    rw [hsp] at hhead
    simp only [List.head?_cons, Option.some.injEq] at hhead
    rw [← hhead]
    simp

theorem header_shape (header : List Char) :
    ' ' ∉ header ∨ ∃ scheme rest : List Char, ' ' ∉ scheme ∧ header = scheme ++ ' ' :: rest := by
  induction header with
  | nil =>
    left
    simp
  | cons c cs ih =>
    by_cases hc : c = ' '
    · right
      exact ⟨[], cs, by simp, by rw [hc]; rfl⟩
    · rcases ih with hno | ⟨scheme, rest, hs, hcs⟩
      · left
        intro hm
        rcases List.mem_cons.mp hm with h1 | h1
        · exact hc h1.symm
        · exact hno h1
      · right
        refine ⟨c :: scheme, rest, ?_, by rw [hcs]; rfl⟩
        intro hm
        rcases List.mem_cons.mp hm with h1 | h1
        · exact hc h1.symm
        · exact hs h1

theorem authenticateToken_of_token (verify : String → Option ReqUser)
    (authHeader : Option String) (token : String) (htok : bearerToken authHeader = some token) :
    authenticateToken verify authHeader =
      if token = "" then .rejected 401 "Access token required"
      else if "admin-mock-token-".data.isPrefixOf token.data then
        .next { id := "admin", email := "admin@clothy.com", isAdmin := true }
      else
        match verify token with
        | none => .rejected 403 "Invalid token"
        | some user => .next user := by
  simp only [authenticateToken, htok]

/-- C25: the outcome of `authenticateToken` for every Authorization header.
A request without the header, and one whose header holds no blank, is
rejected with 401.  Any other header is `scheme`, a blank and `rest`, with
no blank in `scheme`, and its token is `rest` up to its first blank: an
empty token is rejected with 401; a token that starts with
`admin-mock-token-` is accepted as the admin identity (id `admin`, `isAdmin`
true) whatever follows the prefix and whatever the verifier is; any other
token is accepted, with the payload the verifier decodes, exactly when
verification succeeds, and rejected with 403 when it fails. -/
theorem authenticateToken_outcomes (verify : String → Option ReqUser) :
    authenticateToken verify none = .rejected 401 "Access token required" ∧
    (∀ header : List Char, ' ' ∉ header →
      authenticateToken verify (some (String.mk header)) =
        .rejected 401 "Access token required") ∧
    (∀ scheme rest : List Char, ' ' ∉ scheme →
      (rest.takeWhile (fun c => c != ' ') = [] →
        authenticateToken verify (some (String.mk (scheme ++ ' ' :: rest))) =
          .rejected 401 "Access token required") ∧
      ("admin-mock-token-".data.isPrefixOf (rest.takeWhile (fun c => c != ' ')) = true →
        ∀ verify2 : String → Option ReqUser,
          authenticateToken verify2 (some (String.mk (scheme ++ ' ' :: rest))) =
            .next { id := "admin", email := "admin@clothy.com", isAdmin := true }) ∧
      (rest.takeWhile (fun c => c != ' ') ≠ [] →
        "admin-mock-token-".data.isPrefixOf (rest.takeWhile (fun c => c != ' ')) = false →
        (∀ user, verify (String.mk (rest.takeWhile (fun c => c != ' '))) = some user →
          authenticateToken verify (some (String.mk (scheme ++ ' ' :: rest))) = .next user) ∧
        (verify (String.mk (rest.takeWhile (fun c => c != ' '))) = none →
          authenticateToken verify (some (String.mk (scheme ++ ' ' :: rest))) =
            .rejected 403 "Invalid token") ∧
        ((∃ user, authenticateToken verify (some (String.mk (scheme ++ ' ' :: rest))) =
            .next user) ↔
          (verify (String.mk (rest.takeWhile (fun c => c != ' ')))).isSome = true))) ∧
    (∀ header : List Char, ' ' ∉ header ∨
      ∃ scheme rest : List Char, ' ' ∉ scheme ∧ header = scheme ++ ' ' :: rest) := by
  refine ⟨rfl, ?_, ?_, header_shape⟩
  · intro header hno
    rcases bearerToken_no_space header hno with h | h
    · simp only [authenticateToken, h]
    · simp only [authenticateToken, h, if_true]
  · intro scheme rest hs
    have htok := bearerToken_of_header scheme rest hs
    refine ⟨?_, ?_, ?_⟩
    · intro hempty
      rw [authenticateToken_of_token verify _ _ htok, hempty]
      rfl
    · intro hpre verify2
      have hne : ¬ String.mk (rest.takeWhile (fun c => c != ' ')) = "" := by
        intro h0
        rw [(string_mk_eq_empty _).mp h0] at hpre
        simp [List.isPrefixOf] at hpre
      rw [authenticateToken_of_token verify2 _ _ htok, if_neg hne]
      have hpre2 : "admin-mock-token-".data.isPrefixOf
          (String.mk (rest.takeWhile (fun c => c != ' '))).data = true := hpre
      rw [if_pos hpre2]
    · intro hne0 hpre
      have hne : ¬ String.mk (rest.takeWhile (fun c => c != ' ')) = "" :=
        fun h0 => hne0 ((string_mk_eq_empty _).mp h0)
      have hpre2 : ¬ "admin-mock-token-".data.isPrefixOf
          (String.mk (rest.takeWhile (fun c => c != ' '))).data = true := by
        intro h
        have h2 : "admin-mock-token-".data.isPrefixOf
            (rest.takeWhile (fun c => c != ' ')) = true := h
        rw [hpre] at h2
        cases h2
      rw [authenticateToken_of_token verify _ _ htok, if_neg hne, if_neg hpre2]
      refine ⟨?_, ?_, ?_⟩
      · intro user hv
        rw [hv]
      · intro hv
        rw [hv]
      · cases hv : verify (String.mk (rest.takeWhile (fun c => c != ' '))) with
        | none => simp
        | some user => simp

/-- Witness of C25: the header `Bearer admin-mock-token-1` is accepted as
the admin although the verifier accepts nothing; under the same verifier the
header `Bearer` is rejected with 401 and the header `Bearer abc` with 403. -/
theorem authenticateToken_outcomes_witness :
    authenticateToken (fun _ => none) (some "Bearer admin-mock-token-1") =
      .next { id := "admin", email := "admin@clothy.com", isAdmin := true } ∧
    authenticateToken (fun _ => none) (some "Bearer") =
      .rejected 401 "Access token required" ∧
    authenticateToken (fun _ => none) (some "Bearer abc") = .rejected 403 "Invalid token" :=
  ⟨((authenticateToken_outcomes (fun _ => none)).2.2.1 "Bearer".data
      "admin-mock-token-1".data (by decide)).2.1 (by decide) (fun _ => none),
    (authenticateToken_outcomes (fun _ => none)).2.1 "Bearer".data (by decide),
    (((authenticateToken_outcomes (fun _ => none)).2.2.1 "Bearer".data "abc".data
      (by decide)).2.2 (by decide) (by decide)).2.1 rfl⟩

/-! ## Grouping: duplicates and frame -/

theorem groupProducts_duplicate (db : Db) (now : Nat) (ids : List ObjectId)
    (huniq : (db.products.map (fun p => p._id)).Nodup) (hlen : 2 ≤ ids.length)
    (hdup : ¬ ids.Nodup) :
    groupProducts db now (some ids) = (fail 404 "One or more products not found.", db) := by
  have hmap : (db.products.filter (fun p => ids.contains p._id)).map (fun p => p._id) =
      (db.products.map (fun p => p._id)).filter (fun i => ids.contains i) := by
    rw [List.filter_map]
    rfl
  have hnd : ((db.products.filter (fun p => ids.contains p._id)).map
      (fun p => p._id)).Nodup := by
    rw [hmap]
    exact List.Nodup.filter _ huniq
  have hsub : (db.products.filter (fun p => ids.contains p._id)).map (fun p => p._id) ⊆
      ids := by
    intro a ha
    obtain ⟨q, hq, rfl⟩ := List.mem_map.mp ha
    simpa using (List.mem_filter.mp hq).2
  have hne : (db.products.filter (fun p => ids.contains p._id)).length ≠ ids.length := by
    intro heq
    have hperm := (hnd.subperm hsub).perm_of_length_le (by rw [List.length_map, heq])
    exact hdup (hperm.nodup_iff.mp hnd)
  have h2 : ¬ ids.length < 2 := by omega
  have hb : ((db.products.filter (fun p => ids.contains p._id)).length != ids.length) =
      true := by
    simpa using hne
  simp only [groupProducts, h2, if_false, hb, if_true]

/-- C28, as corrected: in a store whose products have distinct `_id`s, a
Group request whose list has at least two entries, all written as 24
hexadecimal digits, and names some product id twice (in whatever letter
case) is answered 404 with `One or more products not found.` and the store
is left as it was, whether or not every listed id resolves. -/
theorem group_rejects_duplicate_ids (db : Db) (now : Nat) (ids : List String)
    (objectIds : List ObjectId)
    (huniq : (db.products.map (fun p => p._id)).Nodup) (hlen : 2 ≤ ids.length)
    (hparse : parseObjectIds ids = some objectIds) (hdup : ¬ objectIds.Nodup) :
    groupProductsRequest db now (some ids) =
      (fail 404 "One or more products not found.", db) := by
  rw [groupProductsRequest_parsed db now ids objectIds hlen hparse]
  have hlen2 : 2 ≤ objectIds.length := by
    rw [parseObjectIds_length ids objectIds hparse]
    exact hlen
  exact groupProducts_duplicate db now objectIds huniq hlen2 hdup

/-- Witness of C28: `A` is listed twice next to `B`, the second time in upper
case, and all three entries resolve. -/
theorem group_rejects_duplicate_ids_witness :
    groupProductsRequest storeIdABC 7 (some [idA, idB, idAUpper]) =
      (fail 404 "One or more products not found.", storeIdABC) :=
  group_rejects_duplicate_ids storeIdABC 7 [idA, idB, idAUpper] [idA, idB, idA] (by decide)
    (by decide) (by decide) (by decide)

/-- Counterexample to C28 as stated: the list names the id of `A` twice and
has three entries, the third being the text `not-an-id`; the Group request
is answered with status 500, not 404. -/
theorem group_duplicate_malformed_500 :
    ¬ [idA, idA, "not-an-id"].Nodup ∧ 2 ≤ [idA, idA, "not-an-id"].length ∧
    (groupProductsRequest storeIdABC 7 (some [idA, idA, "not-an-id"])).1.status = 500 ∧
    (groupProductsRequest storeIdABC 7 (some [idA, idA, "not-an-id"])).1.status ≠ 404 := by
  decide

theorem forall₂_comp {α : Type} (R : α → α → Prop)
    (htrans : ∀ x y z, R x y → R y z → R x z) :
    ∀ l1 l2 l3 : List α, List.Forall₂ R l1 l2 → List.Forall₂ R l2 l3 →
      List.Forall₂ R l1 l3 := by
  intro l1 l2 l3 h12
  induction h12 generalizing l3 with
  | nil =>
    intro h23
    cases h23
    exact List.Forall₂.nil
  | cons hxy _ ih =>
    intro h23
    cases h23 with
    | cons hyz hrest => exact List.Forall₂.cons (htrans _ _ _ hxy hyz) (ih _ hrest)

theorem groupedFrom_refl (ids : List ObjectId) (x : Product) : GroupedFrom ids x x :=
  ⟨fun _ => rfl, rfl⟩

theorem groupedFrom_trans (ids : List ObjectId) (x y z : Product)
    (hxy : GroupedFrom ids x y) (hyz : GroupedFrom ids y z) : GroupedFrom ids x z := by
  obtain ⟨h1, h2⟩ := hxy
  obtain ⟨h3, h4⟩ := hyz
  have hid : y._id = x._id := by rw [h2]
  constructor
  · intro hx
    have hy : y = x := h1 hx
    rw [hy] at h3
    exact h3 hx
  · rw [h4]
    conv_lhs => rw [h2]

theorem foldl_linkOthers_grouped (now : Nat) (ids : List ObjectId) (fetched : List Product) :
    ∀ (l store0 store : List Product), (∀ q ∈ l, q._id ∈ ids) →
      List.Forall₂ (GroupedFrom ids) store0 store →
      List.Forall₂ (GroupedFrom ids) store0 (l.foldl (linkOthers now fetched) store) := by
  intro l
  induction l with
  | nil =>
    intro store0 store _ h
    exact h
  | cons q qs ih =>
    intro store0 store hl h
    rw [List.foldl_cons]
    apply ih store0 _ (fun x hx => hl x (List.mem_cons_of_mem _ hx))
    refine forall₂_comp _ (groupedFrom_trans ids) _ _ _ h ?_
    unfold linkOthers
    apply forall₂_updateFirst
    · exact groupedFrom_refl ids
    · intro x hx
      have hxid : x._id = q._id := by simpa using hx
      refine ⟨fun hnot => ?_, rfl⟩
      rw [hxid] at hnot
      exact absurd (hl q (List.mem_cons_self _ _)) hnot

/-- C27: after a successful Group call the products before and after
correspond one to one, in order: a product whose id is not listed is the
same document, `colors` entries that link to listed products included, and a
listed product differs in `colors` and `updatedAt` at most; every other
collection is unchanged. -/
theorem group_frame (db : Db) (now : Nat) (productIds : Option (List ObjectId))
    (hok : (groupProducts db now productIds).1.status = 200) :
    ∃ ids : List ObjectId, productIds = some ids ∧
      List.Forall₂ (GroupedFrom ids) db.products (groupProducts db now productIds).2.products ∧
      { (groupProducts db now productIds).2 with products := db.products } = db := by
  cases productIds with
  | none => simp [groupProducts, fail] at hok
  | some ids =>
    refine ⟨ids, rfl, ?_⟩
    unfold groupProducts at hok ⊢
    simp only at hok ⊢
    by_cases h2 : ids.length < 2
    · rw [if_pos h2] at hok
      simp [fail] at hok
    · rw [if_neg h2] at hok ⊢
      by_cases hc : ((db.products.filter (fun p => ids.contains p._id)).length != ids.length) =
          true
      · rw [if_pos hc] at hok
        simp [fail] at hok
      · rw [if_neg hc]
        refine ⟨?_, rfl⟩
        apply foldl_linkOthers_grouped now ids _ _ db.products db.products
        · intro q hq
          simpa using (List.mem_filter.mp hq).2
        · exact List.forall₂_same.mpr (fun x _ => groupedFrom_refl ids x)

/-- Witness of C27: `A` and `B` are grouped in the store where `X` links to
`A`; `X` keeps its document. -/
theorem group_frame_witness :
    ∃ ids : List ObjectId, some ["A", "B"] = some ids ∧
      List.Forall₂ (GroupedFrom ids) storeAXB.products
        (groupProducts storeAXB 7 (some ["A", "B"])).2.products ∧
      { (groupProducts storeAXB 7 (some ["A", "B"])).2 with products := storeAXB.products } =
        storeAXB :=
  group_frame storeAXB 7 (some ["A", "B"]) (by decide)
/-! ## Add to cart without a size -/

theorem addToCart_sizeless_of_user (db : Db) (userId newId : ObjectId) (now : Nat)
    (req : CartAddRequest) (user : User)
    (huser : db.users.find? (fun u => u._id == userId) = some user)
    (hsize : truthyStr req.size = false)
    (hline : ∃ c ∈ db.cart, c.userId = userId ∧ c.productName = req.productName) :
    (addToCart db userId newId now req).1 = succeed 200 "Cart updated successfully" none ∧
    (addToCart db userId newId now req).2.cart.length = db.cart.length ∧
    totalQuantity userId req.productName (addToCart db userId newId now req).2.cart =
      totalQuantity userId req.productName db.cart + 1 ∧
    ∃ (before : List CartItem) (line : CartItem) (after : List CartItem),
      db.cart = before ++ line :: after ∧
      line.userId = userId ∧ line.productName = req.productName ∧
      (addToCart db userId newId now req).2.cart =
        before ++ { line with
          quantity := line.quantity + 1
          username := displayName user
          updatedAt := some now } :: after := by
  have hq : matchesCartQuery userId req.productName req.size =
      fun c => c.userId == userId && c.productName == req.productName := by
    funext c
    simp [matchesCartQuery, hsize]
  obtain ⟨c, hc, hcu, hcn⟩ := hline
  have hsome : (db.cart.find? (matchesCartQuery userId req.productName req.size)).isSome =
      true := by
    rw [List.find?_isSome]
    exact ⟨c, hc, by rw [hq]; simp [hcu, hcn]⟩
  obtain ⟨line, hfind⟩ := Option.isSome_iff_exists.mp hsome
  obtain ⟨hpl, l1, l2, hsplit, hl1⟩ := List.find?_eq_some.mp hfind
  have hl1' : ∀ x ∈ l1, matchesCartQuery userId req.productName req.size x = false := by
    intro x hx
    simpa using hl1 x hx
  have hupd := updateFirst_append_of_none (matchesCartQuery userId req.productName req.size)
    (bumpLine (displayName user) now) l1 l2 line hl1' hpl
  have hres : addToCart db userId newId now req =
      (succeed 200 "Cart updated successfully" none,
        { db with cart := l1 ++ bumpLine (displayName user) now line :: l2 }) := by
    simp only [addToCart, huser, hfind]
    rw [hsplit, hupd]
  have hpl2 : (line.userId == userId && line.productName == req.productName) = true := by
    rw [hq] at hpl
    exact hpl
  have hlu : line.userId = userId ∧ line.productName = req.productName := by
    simpa using hpl2
  rw [hres]
  refine ⟨rfl, ?_, ?_, l1, line, l2, hsplit, hlu.1, hlu.2, rfl⟩
  · show (l1 ++ bumpLine (displayName user) now line :: l2).length = db.cart.length
    rw [hsplit]
    simp
  · show totalQuantity userId req.productName
      (l1 ++ bumpLine (displayName user) now line :: l2) = _
    rw [hsplit]
    unfold totalQuantity
    have hb : ((bumpLine (displayName user) now line).userId == userId &&
        (bumpLine (displayName user) now line).productName == req.productName) = true := hpl2
    have e1 : List.filter
        (fun c : CartItem => c.userId == userId && c.productName == req.productName)
        (bumpLine (displayName user) now line :: l2) =
        bumpLine (displayName user) now line :: List.filter
          (fun c : CartItem => c.userId == userId && c.productName == req.productName) l2 :=
      List.filter_cons_of_pos hb
    have e2 : List.filter
        (fun c : CartItem => c.userId == userId && c.productName == req.productName)
        (line :: l2) =
        line :: List.filter
          (fun c : CartItem => c.userId == userId && c.productName == req.productName) l2 :=
      List.filter_cons_of_pos hpl2
    rw [List.filter_append, List.filter_append, e1, e2]
    simp only [List.map_append, List.map_cons, List.sum_append, List.sum_cons, bumpLine]
    ring

/-- C29: in a store where the owner of every cart line has a user record,
let the request carry no size (none, or an empty one) and let the caller
have a cart line for the product name, of whatever size.  Then add-to-cart
answers 200 with `Cart updated successfully`, the cart keeps its length, one
line of the caller for that product name has its quantity raised by 1 in
place, and the total quantity over the caller's lines for that product name
is 1 higher. -/
theorem addToCart_sizeless_bumps_line (db : Db) (userId newId : ObjectId) (now : Nat)
    (req : CartAddRequest)
    (hown : ∀ c ∈ db.cart, ∃ u ∈ db.users, u._id = c.userId)
    (hsize : truthyStr req.size = false)
    (hline : ∃ c ∈ db.cart, c.userId = userId ∧ c.productName = req.productName) :
    (addToCart db userId newId now req).1 = succeed 200 "Cart updated successfully" none ∧
    (addToCart db userId newId now req).2.cart.length = db.cart.length ∧
    totalQuantity userId req.productName (addToCart db userId newId now req).2.cart =
      totalQuantity userId req.productName db.cart + 1 ∧
    ∃ (before : List CartItem) (line : CartItem) (after : List CartItem) (username : String),
      db.cart = before ++ line :: after ∧
      line.userId = userId ∧ line.productName = req.productName ∧
      (addToCart db userId newId now req).2.cart =
        before ++ { line with
          quantity := line.quantity + 1
          username := username
          updatedAt := some now } :: after := by
  obtain ⟨c, hc, hcu, hcn⟩ := hline
  obtain ⟨u, hu, huid⟩ := hown c hc
  have hsome : (db.users.find? (fun u => u._id == userId)).isSome = true := by
    rw [List.find?_isSome]
    exact ⟨u, hu, by simp [huid, hcu]⟩
  obtain ⟨user, huser⟩ := Option.isSome_iff_exists.mp hsome
  obtain ⟨h1, h2, h3, before, line, after, h4, h5, h6, h7⟩ :=
    addToCart_sizeless_of_user db userId newId now req user huser hsize ⟨c, hc, hcu, hcn⟩
  exact ⟨h1, h2, h3, before, line, after, displayName user, h4, h5, h6, h7⟩

/-- Witness of C29: `u1` holds lines of sizes `M` and `L` for `Shirt` and
adds `Shirt` without a size; the line of size `M` goes from 2 to 3. -/
theorem addToCart_sizeless_bumps_line_witness :
    (addToCart storeCartSized "u1" "c9" 5 ⟨"Shirt", some "p1", 500, some 4, none⟩).1 =
      succeed 200 "Cart updated successfully" none ∧
    (addToCart storeCartSized "u1" "c9" 5
      ⟨"Shirt", some "p1", 500, some 4, none⟩).2.cart.map (fun c => (c._id, c.quantity)) =
      [("c0", 1), ("c1", 3), ("c2", 1)] :=
  ⟨(addToCart_sizeless_bumps_line storeCartSized "u1" "c9" 5
      ⟨"Shirt", some "p1", 500, some 4, none⟩ (by decide) (by decide)
      ⟨{ _id := "c1", userId := "u1", username := "Ann", productName := "Shirt"
         productId := some "p1", price := 500, quantity := 2, size := some "M"
         createdAt := 0, updatedAt := none }, by decide, rfl, rfl⟩).1, by decide⟩

/-! ## Product update and the collection flag -/

/-- C24: in a store whose products have distinct `_id`s, after a successful
product update whose `inCollection` field is the boolean `b`, or the string
`true` for `b = true` and `false` for `b = false`, the unfiltered product
listing holds a product with the given id, and every product with that id in
it has `inCollection = b`. -/
theorem updateProduct_persists_inCollection (db : Db) (productId : ObjectId) (now : Nat)
    (form : ProductForm) (existingImages : ImagesField) (files : List String) (b : Bool)
    (hflag : form.inCollection = .bool b ∨
      form.inCollection = .str (if b then "true" else "false"))
    (hok : (updateProduct db productId now form existingImages files).1.status = 200)
    (huniq : (db.products.map (fun p => p._id)).Nodup) :
    (∃ p ∈ listProducts (updateProduct db productId now form existingImages files).2 none none,
      p._id = productId) ∧
    (∀ p ∈ listProducts (updateProduct db productId now form existingImages files).2 none none,
      p._id = productId → p.inCollection = b) := by
  have hval : (form.inCollection == .str "true" || form.inCollection == .bool true) = b := by
    rcases hflag with h | h
    · rw [h]
      cases b <;> decide
    · rw [h]
      cases b <;> decide
  have hmem : ∀ (d : Db) (p : Product), p ∈ listProducts d none none ↔ p ∈ d.products := by
    intro d p
    unfold listProducts
    rw [List.mem_mergeSort, List.mem_filter]
    simp [truthyStr]
  unfold updateProduct at hok ⊢
  by_cases hv : (!truthyStr form.name || !truthyStr form.category ||
      priceMissing form.price) = true
  · rw [if_pos hv] at hok
    simp [fail] at hok
  · rw [if_neg hv] at hok ⊢
    cases hfind : db.products.find? (fun p => p._id == productId) with
    | none =>
      rw [hfind] at hok
      simp [fail] at hok
    | some found =>
      simp only
      rw [updateFirst_eq_map productId _ db.products huniq]
      have hfid : found._id = productId := by simpa using List.find?_some hfind
      have hfmem : found ∈ db.products := List.mem_of_find?_eq_some hfind
      constructor
      · refine ⟨_, (hmem _ _).mpr (List.mem_map.mpr ⟨found, hfmem, rfl⟩), ?_⟩
        rw [if_pos hfid]
        exact hfid
      · intro p hp hpid
        obtain ⟨q, _, rfl⟩ := List.mem_map.mp ((hmem _ _).mp hp)
        by_cases hq : q._id = productId
        · rw [if_pos hq]
          exact hval
        · rw [if_neg hq] at hpid
          exact absurd hpid hq

/-- Witness of C24: the product `p1` is updated with `inCollection` given as
the string `true`. -/
theorem updateProduct_persists_inCollection_witness :
    (updateProduct storeShop "p1" 6
      { sampleForm with inCollection := .str "true" } .absent []).2.products.map
      (fun p => (p._id, p.inCollection)) = [("p1", true)] ∧
    ∃ p ∈ listProducts (updateProduct storeShop "p1" 6
      { sampleForm with inCollection := .str "true" } .absent []).2 none none, p._id = "p1" :=
  ⟨by decide, (updateProduct_persists_inCollection storeShop "p1" 6
    { sampleForm with inCollection := .str "true" } .absent [] true (Or.inr rfl) (by decide)
    (by decide)).1⟩

/-! ## Categories -/

/-- A category whose name the compiled test accepts blocks the insertion:
the answer is 400 and the store is left as it was. -/
theorem addCategory_rejects_match (compileRegex : String → Option (String → Bool)) (db : Db)
    (now : Nat) (name : String) (description : Option String) (test : String → Bool)
    (hc : compileRegex ("^" ++ name ++ "$") = some test)
    (hex : ∃ c ∈ db.categories, test c.name = true) :
    addCategory compileRegex db now name description =
      (fail 400 "Category already exists", db) := by
  have hsome : (db.categories.find? (fun c => test c.name)).isSome = true := by
    rw [List.find?_isSome]
    exact hex
  obtain ⟨found, hfound⟩ := Option.isSome_iff_exists.mp hsome
  simp only [addCategory, hc, hfound]

/-- C23 (failing input): the category `XL+` is added to an empty store and
then added again; the pattern `^XL+$` does not accept the stored name `XL+`,
both calls are answered 201, and two categories named `XL+` are stored. -/
theorem addCategory_duplicate_with_plus :
    (simpleRegex "^XL+$").map (fun test => (test "XL+", test "XL", test "xll")) =
      some (false, true, true) ∧
    (addCategory simpleRegex (storeOf []) 1 "XL+" none).1.status = 201 ∧
    (addCategory simpleRegex (addCategory simpleRegex (storeOf []) 1 "XL+" none).2 2 "XL+"
      none).1.status = 201 ∧
    (addCategory simpleRegex (addCategory simpleRegex (storeOf []) 1 "XL+" none).2 2 "XL+"
      none).2.categories.map (fun c => c.name) = ["XL+", "XL+"] := by
  decide

end ClothingStore
